import Mathlib

/-!
# SDL component-based system: asset manager and component stores

A shallow embedding of `src/component_manager.hpp`, `src/src/game_components.hpp`,
`src/asset_manager.hpp`, `src/components.hpp`, `src/src/entities.hpp`,
`src/base_system.hpp` and `src/render_system.hpp`.

* `boost::uuids::uuid` identifiers are natural numbers; the random generator is an
  oracle `generator : Nat → component_id` indexed by the number of identifiers
  drawn so far.
* `std::map<K, V>` is an association list kept in key order; look-ups scan it.
* `sdl2::Texture_ptr` is `Option Nat`: `none` is the null pointer, `some h` a live
  texture.  `sdl2::load_texture` is an oracle indexed by the number of calls made
  so far; it either throws (`none`) or returns a live texture (`some h`), as
  `sdl2::make_shared_resource` guarantees.
* C++ exceptions are the `Except` component of an `outcome`, whose `state`
  component is the state at the point of the throw.
* Values of type `float` are kept abstract; the casts the code applies to them are
  the fields of `float_casts`.  `SDL_RenderCopy` is an oracle that tells whether a
  draw call reports an error.
-/

namespace SDLComponents

/-! ## Identifiers and maps (`game_components.hpp`, `component_manager.hpp`) -/

/-- The type `component_id` of `game_components.hpp` (a uuid). -/
abbrev component_id := Nat

/-- The type `std::map<K, V>`: the entries in iteration (key) order. -/
abbrev std_map (K V : Type) := List (K × V)

/-- The type `component_list<ComponentType>` of `game_components.hpp`. -/
abbrev component_list (V : Type) := std_map component_id V

/-- The exceptions the modelled code can raise. -/
inductive exception where
  /-- Raised by `std::map::at` on a missing key. -/
  | out_of_range
  /-- Raised by `sdl2::make_shared_resource` when the creator returns null. -/
  | runtime_error
  deriving DecidableEq, Repr

/-- The function `std::map::find`, as an optional value. -/
def map_find {K V : Type} [DecidableEq K] : std_map K V → K → Option V
  | [], _ => none
  | (k', v) :: rest, k => if k' = k then some v else map_find rest k

/-- The functor `map_contains_id` made by `make_contains(key)`, applied to `source`:
`source.find(key) != std::end(source)`. -/
def make_contains {K V : Type} [DecidableEq K] (key : K) (source : std_map K V) : Bool :=
  (map_find source key).isSome

/-- The comparison `std::less<K>` that orders the keys of a `std::map`. -/
class std_less (K : Type) where
  /-- Whether the first key is ordered before the second. -/
  less : K → K → Bool

/-- Lexicographic comparison of character sequences, as `std::string::operator<`. -/
def chars_less : List Char → List Char → Bool
  | _, [] => false
  | [], _ :: _ => true
  | a :: as, b :: bs =>
    if a.toNat < b.toNat then true
    else if b.toNat < a.toNat then false
    else chars_less as bs

instance : std_less String := ⟨fun a b => chars_less a.data b.data⟩

instance : std_less Nat := ⟨fun a b => decide (a < b)⟩

/-- Insertion of a key at its place in key order. -/
def map_insert {K V : Type} [std_less K] (k : K) (v : V) : std_map K V → std_map K V
  | [] => [(k, v)]
  | (k', v') :: rest =>
    if std_less.less k k' then (k, v) :: (k', v') :: rest
    else (k', v') :: map_insert k v rest

/-- The functor `map_emplace_id` made by `make_emplace_id(id)`, applied to `target`
with constructor arguments `args` (the component is built from `(id, args...)`):
`std::map::emplace`, which inserts only when the key is absent and reports whether
it inserted. -/
def make_emplace_id {V : Type} (id : component_id) (target : component_list V)
    (args : component_id → V) : component_list V × Bool :=
  if make_contains id target then (target, false)
  else (map_insert id (args id) target, true)

/-- The statement `m[k] = v`: overwrite the value of an existing key, insert otherwise. -/
def map_assign {K V : Type} [DecidableEq K] [std_less K]
    (m : std_map K V) (k : K) (v : V) : std_map K V :=
  if make_contains k m then m.map (fun e => if e.1 = k then (e.1, v) else e)
  else map_insert k v m

/-- A write through the reference `m.at(k)`: the value stored under `k` becomes `f` of it. -/
def map_update {K V : Type} [DecidableEq K] (m : std_map K V) (k : K) (f : V → V) :
    std_map K V :=
  m.map (fun e => if e.1 = k then (e.1, f e.2) else e)

/-! ## Asset manager components (`asset_manager.hpp`, lines 20-89) -/

/-- The type `sdl2::Texture_ptr`; `none` is `nullptr`. -/
abbrev Texture_ptr := Option Nat

/-- The struct `SDL_Rect`. -/
structure SDL_Rect where
  x : Int
  y : Int
  w : Int
  h : Int
  deriving DecidableEq, Repr

/-- The struct `asset_component`. -/
structure asset_component where
  id : component_id
  filename : String
  tags : List String
  is_loaded : Bool
  load_on_demand : Bool
  deriving DecidableEq, Repr

/-- The struct `texture_component`. -/
structure texture_component where
  id : component_id
  texture : Texture_ptr
  deriving DecidableEq, Repr

/-- The struct `sprite_component` of `asset_manager.hpp`. -/
structure sprite_component where
  id : component_id
  name : String
  clipping_rect : Option SDL_Rect
  texture_id : component_id
  deriving DecidableEq, Repr

/-- The struct `sprite_asset`, the view returned by `get_sprite`. -/
structure sprite_asset where
  texture : Texture_ptr
  clipping_rect : Option SDL_Rect
  deriving DecidableEq, Repr

/-- The constructor `asset_component(id, filename, tags, load_on_demand)`:
`is_loaded` starts false. -/
def asset_component.new (filename : String) (tags : List String) (load_on_demand : Bool)
    (id : component_id) : asset_component :=
  { id := id, filename := filename, tags := tags, is_loaded := false,
    load_on_demand := load_on_demand }

/-- The constructor `texture_component(id, texture)`. -/
def texture_component.new (texture : Texture_ptr) (id : component_id) : texture_component :=
  { id := id, texture := texture }

/-- The constructor `sprite_component(id, name, clipping_rect, texture_id)`. -/
def sprite_component.new (name : String) (clipping_rect : Option SDL_Rect)
    (texture_id : component_id) (id : component_id) : sprite_component :=
  { id := id, name := name, clipping_rect := clipping_rect, texture_id := texture_id }

/-! ## The asset manager (`asset_manager.hpp`, lines 91-301) -/

/-- The private members of class `asset_manager`: the three pools of
`component_maps`, the generator (the number of identifiers drawn so far) and the two
name indices.  The `renderer` member is only handed to the texture loader. -/
structure asset_manager where
  asset_pool : component_list asset_component
  texture_pool : component_list texture_component
  sprite_pool : component_list sprite_component
  generator : Nat
  assets : std_map String component_id
  sprites : std_map String component_id
  deriving DecidableEq, Repr

/-- The lines the asset manager writes to `std::cout`. -/
inductive warning where
  /-- The line `Warning - sprite name "<name>" already exists`. -/
  | sprite_exists (sprite_name : String)
  /-- The line `Warning - texture for sprite_name[<name>] is not loaded correctly`. -/
  | not_loaded_correctly (sprite_name : String)
  /-- The line `Warning - Asset type of filename[<file>] cannot be determined!`. -/
  | type_undetermined (filename : String)
  deriving DecidableEq, Repr

/-- The manager together with what it has done to the outside: how often it has
called `sdl2::load_texture`, and what it has printed. -/
structure world where
  mgr : asset_manager
  loader_calls : Nat
  cout : List warning
  deriving DecidableEq, Repr

/-- The collaborators: the identifier generator (its `n`-th draw) and
`sdl2::load_texture` (the result of its `n`-th call on a file; `none` when it throws). -/
structure externals where
  generator : Nat → component_id
  load_texture : Nat → String → Option Nat

/-- The result of a call: the state it leaves, and the value returned or the
exception thrown. -/
structure outcome (α : Type) where
  state : world
  result : Except exception α

/-- The constructor `asset_manager(renderer)`: everything empty. -/
def asset_manager.new : asset_manager :=
  { asset_pool := [], texture_pool := [], sprite_pool := [], generator := 0,
    assets := [], sprites := [] }

/-- The world of a freshly constructed manager. -/
def world.new : world := { mgr := asset_manager.new, loader_calls := 0, cout := [] }

/-- The method `generate_id`: `generator()`. -/
def generate_id (E : externals) (w : world) : component_id × world :=
  (E.generator w.mgr.generator,
    { w with mgr := { w.mgr with generator := w.mgr.generator + 1 } })

/-- The method `register_sprite`. -/
def register_sprite (E : externals) (sprite_name filename : String)
    (clipping_rect : Option SDL_Rect) (tags : List String) (load_on_demand : Bool)
    (w : world) : outcome Unit :=
  let asset_exists := make_contains filename w.mgr.assets
  let sprite_exists := make_contains sprite_name w.mgr.sprites
  if sprite_exists then
    ⟨{ w with cout := w.cout ++ [warning.sprite_exists sprite_name] }, .ok ()⟩
  else
    let w1 : world :=
      if !asset_exists then
        let g := generate_id E w
        let id_of_asset := g.1
        { g.2 with mgr := { g.2.mgr with
            asset_pool := (make_emplace_id id_of_asset g.2.mgr.asset_pool
              (asset_component.new filename tags load_on_demand)).1
            texture_pool := (make_emplace_id id_of_asset g.2.mgr.texture_pool
              (texture_component.new none)).1
            assets := map_assign g.2.mgr.assets filename id_of_asset } }
      else w
    match map_find w1.mgr.assets filename with
    | none => ⟨w1, .error .out_of_range⟩
    | some id_of_asset =>
      let g := generate_id E w1
      let id_of_sprite := g.1
      ⟨{ g.2 with mgr := { g.2.mgr with
          sprite_pool := (make_emplace_id id_of_sprite g.2.mgr.sprite_pool
            (sprite_component.new sprite_name clipping_rect id_of_asset)).1
          sprites := map_assign g.2.mgr.sprites sprite_name id_of_sprite } }, .ok ()⟩

/-- The method `load_texture`. -/
def load_texture (E : externals) (id : component_id) (w : world) : outcome Unit :=
  match map_find w.mgr.asset_pool id with
  | none => ⟨w, .error .out_of_range⟩
  | some asset =>
    match map_find w.mgr.texture_pool id with
    | none => ⟨w, .error .out_of_range⟩
    | some texture =>
      if !asset.is_loaded || texture.texture == none then
        match E.load_texture w.loader_calls asset.filename with
        | none => ⟨{ w with loader_calls := w.loader_calls + 1 }, .error .runtime_error⟩
        | some h =>
          ⟨{ w with
              loader_calls := w.loader_calls + 1
              mgr := { w.mgr with
                texture_pool := map_update w.mgr.texture_pool id
                  (fun t => { t with texture := some h })
                asset_pool := map_update w.mgr.asset_pool id
                  (fun a => { a with is_loaded := true }) } }, .ok ()⟩
      else ⟨w, .ok ()⟩

/-- The method `unload_texture`. -/
def unload_texture (id : component_id) (w : world) : outcome Unit :=
  match map_find w.mgr.asset_pool id with
  | none => ⟨w, .error .out_of_range⟩
  | some asset =>
    if asset.is_loaded then
      match map_find w.mgr.texture_pool id with
      | none => ⟨w, .error .out_of_range⟩
      | some _ =>
        ⟨{ w with mgr := { w.mgr with
            texture_pool := map_update w.mgr.texture_pool id
              (fun t => { t with texture := none })
            asset_pool := map_update w.mgr.asset_pool id
              (fun a => { a with is_loaded := false }) } }, .ok ()⟩
    else ⟨w, .ok ()⟩

/-- The method `unload_asset`. -/
def unload_asset (filename : String) (w : world) : outcome Unit :=
  match map_find w.mgr.assets filename with
  | none => ⟨w, .error .out_of_range⟩
  | some id_of_asset => unload_texture id_of_asset w

/-- The algorithm `std::find_first_of`: the iterator (the rest of the first range)
at the first element that equals some element of the second range; `[]` is the end. -/
def find_first_of : List String → List String → List String
  | [], _ => []
  | x :: xs, s => if x ∈ s then x :: xs else find_first_of xs s

/-- The method `has_matching_tags`. -/
def has_matching_tags (first_tag_set second_tag_set : List String) : Bool :=
  find_first_of first_tag_set second_tag_set != []

/-- The method `load_sprite`. -/
def load_sprite (E : externals) (sprite_name : String) (w : world) : outcome Unit :=
  match map_find w.mgr.sprites sprite_name with
  | none => ⟨w, .error .out_of_range⟩
  | some id_of_sprite =>
    match map_find w.mgr.sprite_pool id_of_sprite with
    | none => ⟨w, .error .out_of_range⟩
    | some sprite => load_texture E sprite.texture_id w

/-- The method `load_asset`.  The pool it tests for the identifier, which the source
names `texture_pool`, is `get<sprite_component>()`: the sprite pool. -/
def load_asset (E : externals) (filename : String) (w : world) : outcome Unit :=
  match map_find w.mgr.assets filename with
  | none => ⟨w, .error .out_of_range⟩
  | some id_of_asset =>
    match map_find w.mgr.asset_pool id_of_asset with
    | none => ⟨w, .error .out_of_range⟩
    | some asset =>
      if !asset.is_loaded then
        if make_contains id_of_asset w.mgr.sprite_pool then load_texture E id_of_asset w
        else ⟨{ w with cout := w.cout ++ [warning.type_undetermined asset.filename] }, .ok ()⟩
      else ⟨w, .ok ()⟩

/-- The loop of `load_image_tags` over the entries of `assets` still to visit. -/
def load_image_tags_loop (E : externals) (tags_to_load : List String)
    (unload_remaining : Bool) : List (String × component_id) → world → outcome Unit
  | [], w => ⟨w, .ok ()⟩
  | asset_pair :: rest, w =>
    match map_find w.mgr.asset_pool asset_pair.2 with
    | none => ⟨w, .error .out_of_range⟩
    | some asset =>
      let r : outcome Unit :=
        if !asset.is_loaded && has_matching_tags tags_to_load asset.tags then
          load_asset E asset.filename w
        else if unload_remaining then unload_asset asset.filename w
        else ⟨w, .ok ()⟩
      match r.result with
      | .error e => ⟨r.state, .error e⟩
      | .ok _ => load_image_tags_loop E tags_to_load unload_remaining rest r.state

/-- The method `load_image_tags`. -/
def load_image_tags (E : externals) (tags_to_load : List String) (unload_remaining : Bool)
    (w : world) : outcome Unit :=
  load_image_tags_loop E tags_to_load unload_remaining w.mgr.assets w

/-- The method `load_asset_tags`. -/
def load_asset_tags (E : externals) (tags_to_load : List String) (unload_remaining : Bool)
    (w : world) : outcome Unit :=
  load_image_tags E tags_to_load unload_remaining w

/-- The method `get_sprite`.  `texture` is a reference into the texture pool, so the
handle returned is the one stored after the on-demand load. -/
def get_sprite (E : externals) (sprite_name : String) (w : world) : outcome sprite_asset :=
  match map_find w.mgr.sprites sprite_name with
  | none => ⟨w, .error .out_of_range⟩
  | some id_of_sprite =>
    match map_find w.mgr.sprite_pool id_of_sprite with
    | none => ⟨w, .error .out_of_range⟩
    | some sprite =>
      let id_of_texture := sprite.texture_id
      match map_find w.mgr.texture_pool id_of_texture with
      | none => ⟨w, .error .out_of_range⟩
      | some texture =>
        match map_find w.mgr.asset_pool id_of_texture with
        | none => ⟨w, .error .out_of_range⟩
        | some asset =>
          let r : outcome Unit :=
            if !asset.load_on_demand && texture.texture == none then
              ⟨{ w with cout := w.cout ++ [warning.not_loaded_correctly sprite_name] }, .ok ()⟩
            else if asset.load_on_demand then load_texture E id_of_texture w
            else ⟨w, .ok ()⟩
          match r.result with
          | .error e => ⟨r.state, .error e⟩
          | .ok _ =>
            let rect_ptr := sprite.clipping_rect
            match map_find r.state.mgr.texture_pool id_of_texture with
            | some texture' => ⟨r.state, .ok ⟨texture'.texture, rect_ptr⟩⟩
            | none => ⟨r.state, .ok ⟨texture.texture, rect_ptr⟩⟩

/-- The method `unload_all`. -/
def unload_all (w : world) : outcome Unit :=
  ⟨{ w with mgr := { w.mgr with
      texture_pool := w.mgr.texture_pool.map (fun p => (p.1, { p.2 with texture := none }))
      asset_pool := w.mgr.asset_pool.map (fun p => (p.1, { p.2 with is_loaded := false })) } },
    .ok ()⟩

/-! ## Calls and reachable states -/

/-- A call of one of the public methods of `asset_manager`. -/
inductive operation where
  | register_sprite (sprite_name filename : String) (clipping_rect : Option SDL_Rect)
      (tags : List String) (load_on_demand : Bool)
  | load_sprite (sprite_name : String)
  | load_asset_tags (tags_to_load : List String) (unload_remaining : Bool)
  | get_sprite (sprite_name : String)
  | unload_all

/-- The state a call leaves behind, whether it returned or threw. -/
def operation.run (E : externals) : operation → world → world
  | .register_sprite n f c t l, w => (SDLComponents.register_sprite E n f c t l w).state
  | .load_sprite n, w => (SDLComponents.load_sprite E n w).state
  | .load_asset_tags t u, w => (SDLComponents.load_asset_tags E t u w).state
  | .get_sprite n, w => (SDLComponents.get_sprite E n w).state
  | .unload_all, w => (SDLComponents.unload_all w).state

/-- The states reachable from a freshly constructed manager by public calls. -/
inductive reachable (E : externals) : world → Prop where
  | new : reachable E world.new
  | call (o : operation) {w : world} : reachable E w → reachable E (o.run E w)

/-- The manager after `load_texture` has stored handle `h` for `id`. -/
def mark_loaded (m : asset_manager) (id : component_id) (h : Nat) : asset_manager :=
  { m with
    texture_pool := map_update m.texture_pool id (fun t => { t with texture := some h })
    asset_pool := map_update m.asset_pool id (fun a => { a with is_loaded := true }) }

/-- The manager after `unload_texture` has cleared `id`. -/
def mark_unloaded (m : asset_manager) (id : component_id) : asset_manager :=
  { m with
    texture_pool := map_update m.texture_pool id (fun t => { t with texture := none })
    asset_pool := map_update m.asset_pool id (fun a => { a with is_loaded := false }) }

/-- Every texture of the loader is live: `sdl2::load_texture` never throws. -/
def loader_succeeds (E : externals) : Prop :=
  ∀ (n : Nat) (file : String), (E.load_texture n file).isSome = true

/-- The manager after the block of `register_sprite` that creates the asset of a
filename not seen before (lines 158-164). -/
def add_asset (E : externals) (m : asset_manager) (filename : String) (tags : List String)
    (load_on_demand : Bool) : asset_manager :=
  { m with
    generator := m.generator + 1
    asset_pool := (make_emplace_id (E.generator m.generator) m.asset_pool
      (asset_component.new filename tags load_on_demand)).1
    texture_pool := (make_emplace_id (E.generator m.generator) m.texture_pool
      (texture_component.new none)).1
    assets := map_assign m.assets filename (E.generator m.generator) }

/-- The manager after the block of `register_sprite` that creates the sprite
(lines 168-175). -/
def add_sprite (E : externals) (m : asset_manager) (sprite_name : String)
    (clipping_rect : Option SDL_Rect) (id_of_asset : component_id) : asset_manager :=
  { m with
    generator := m.generator + 1
    sprite_pool := (make_emplace_id (E.generator m.generator) m.sprite_pool
      (sprite_component.new sprite_name clipping_rect id_of_asset)).1
    sprites := map_assign m.sprites sprite_name (E.generator m.generator) }

/-- A property of the manager that no load and no unload of a single asset breaks. -/
structure stable (P : asset_manager → Prop) : Prop where
  loaded : ∀ m id h, (map_find m.asset_pool id).isSome = true →
    (map_find m.texture_pool id).isSome = true → P m → P (mark_loaded m id h)
  unloaded : ∀ m id, P m → P (mark_unloaded m id)

/-- Referential integrity: what the indices and the sprite records name is stored. -/
structure linked (m : asset_manager) : Prop where
  assets_stored : ∀ f a, map_find m.assets f = some a →
    (map_find m.asset_pool a).isSome = true ∧ (map_find m.texture_pool a).isSome = true
  sprites_stored : ∀ n s, map_find m.sprites n = some s →
    (map_find m.sprite_pool s).isSome = true
  sprite_asset_stored : ∀ s sp, map_find m.sprite_pool s = some sp →
    (map_find m.asset_pool sp.texture_id).isSome = true ∧
      (map_find m.texture_pool sp.texture_id).isSome = true

/-- A live texture handle belongs to an asset flagged as loaded. -/
def handle_implies_loaded (m : asset_manager) : Prop :=
  ∀ id t, map_find m.texture_pool id = some t → t.texture ≠ none →
    ∃ a, map_find m.asset_pool id = some a ∧ a.is_loaded = true

/-- The arguments of one call of `register_sprite`. -/
structure registration where
  sprite_name : String
  filename : String
  clipping_rect : Option SDL_Rect
  tags : List String
  load_on_demand : Bool

/-- The state after the call of `register_sprite` with the arguments `r`. -/
def registration.run (E : externals) (r : registration) (w : world) : world :=
  (register_sprite E r.sprite_name r.filename r.clipping_rect r.tags r.load_on_demand w).state

/-- The state after a sequence of calls of `register_sprite`. -/
def register_all (E : externals) (rs : List registration) (w : world) : world :=
  rs.foldl (fun w r => r.run E w) w

/-- The asset identifier a sprite name refers to: `sprite_pool.at(sprites.at(name)).texture_id`. -/
def sprite_texture_id (m : asset_manager) (sprite_name : String) : Option component_id :=
  match map_find m.sprites sprite_name with
  | none => none
  | some id_of_sprite => (map_find m.sprite_pool id_of_sprite).map (fun sp => sp.texture_id)

/-- The identifiers in use were drawn from the generator, and no two filenames share one. -/
structure fresh_ids (E : externals) (m : asset_manager) : Prop where
  asset_ids_drawn : ∀ f a, map_find m.assets f = some a →
    ∃ k, k < m.generator ∧ a = E.generator k
  sprite_ids_drawn : ∀ s sp, map_find m.sprite_pool s = some sp →
    ∃ k, k < m.generator ∧ s = E.generator k
  assets_injective : ∀ f₁ f₂ a, map_find m.assets f₁ = some a → map_find m.assets f₂ = some a →
    f₁ = f₂

/-! ## Example collaborators and states -/

/-- Example collaborators: the identifiers 0, 1, 2, ... and a loader that always
succeeds, its `n`-th call returning texture `100 + n`. -/
def example_externals : externals :=
  { generator := fun n => n, load_texture := fun n _ => some (100 + n) }

/-- The example state after `register_sprite("background", "bg.png", nullptr,
{"bg", "level1"}, false)` on a new manager. -/
def example_registered : world :=
  (operation.register_sprite "background" "bg.png" none ["bg", "level1"] false).run
    example_externals world.new

/-- The example state after `load_sprite("background")` on `example_registered`. -/
def example_loaded : world :=
  (operation.load_sprite "background").run example_externals example_registered

/-- The example state after `register_sprite("lazy", "fx.png", nullptr, {"fx"}, true)`
on a new manager: a sprite on an asset that is loaded on demand. -/
def example_deferred : world :=
  (operation.register_sprite "lazy" "fx.png" none ["fx"] true).run example_externals world.new

/-- Example registrations: two sprites on `"x.png"` and one on `"y.png"`. -/
def example_registrations : List registration :=
  [⟨"a", "x.png", none, [], false⟩, ⟨"b", "x.png", none, ["t"], true⟩,
    ⟨"c", "y.png", none, [], false⟩]

/-- The scenario of the specification up to its second step: `"bg.png"` registered
with tags `{"bg", "level1"}`, then `load_asset_tags({"level1"})`. -/
def example_scenario_first : world :=
  (operation.load_asset_tags ["level1"] false).run example_externals example_registered

/-- The whole scenario: then `"fg.png"` registered with tag `{"fg"}`, then
`load_asset_tags({"level1"}, true)`. -/
def example_scenario : world :=
  (operation.load_asset_tags ["level1"] true).run example_externals
    ((operation.register_sprite "front" "fg.png" none ["fg"] false).run example_externals
      example_scenario_first)

/-- Every asset record is indexed under its own filename. -/
def filename_indexed (m : asset_manager) : Prop :=
  ∀ id a, map_find m.asset_pool id = some a → map_find m.assets a.filename = some id

/-- Co-keying: the asset store and the texture store have the same keys. -/
def cokeyed (m : asset_manager) : Prop :=
  ∀ id, make_contains id m.asset_pool = make_contains id m.texture_pool

/-- An asset flagged as loaded has a texture record with a live handle. -/
def loaded_implies_handle (m : asset_manager) : Prop :=
  ∀ id a, map_find m.asset_pool id = some a → a.is_loaded = true →
    ∃ t h, map_find m.texture_pool id = some t ∧ t.texture = some h

/-- The branch of `get_sprite` on the loading policy (lines 275-280). -/
def get_sprite_branch (E : externals) (sprite_name : String) (sprite : sprite_component)
    (texture : texture_component) (asset : asset_component) (w : world) : outcome Unit :=
  if !asset.load_on_demand && texture.texture == none then
    ⟨{ w with cout := w.cout ++ [warning.not_loaded_correctly sprite_name] }, .ok ()⟩
  else if asset.load_on_demand then load_texture E sprite.texture_id w
  else ⟨w, .ok ()⟩

/-- The end of `get_sprite` (lines 281-285), after the branch `r`. -/
def get_sprite_return (sprite : sprite_component) (texture : texture_component)
    (r : outcome Unit) : outcome sprite_asset :=
  match r.result with
  | .error e => ⟨r.state, .error e⟩
  | .ok _ =>
    match map_find r.state.mgr.texture_pool sprite.texture_id with
    | some texture' => ⟨r.state, .ok ⟨texture'.texture, sprite.clipping_rect⟩⟩
    | none => ⟨r.state, .ok ⟨texture.texture, sprite.clipping_rect⟩⟩

/-- The state after a sequence of public calls. -/
def run_all (E : externals) (ops : List operation) (w : world) : world :=
  ops.foldl (fun w o => o.run E w) w

/-- The sprite name `n` is indexed to `s`, and the sprite store holds `sp` under `s`. -/
def sprite_kept (n : String) (s : component_id) (sp : sprite_component)
    (m : asset_manager) : Prop :=
  map_find m.sprites n = some s ∧ map_find m.sprite_pool s = some sp

/-- Example collaborators whose loader always throws. -/
def example_failing : externals :=
  { generator := fun n => n, load_texture := fun _ _ => none }

/-- The example state after `register_sprite("lazy", "fx.png", nullptr, {"fx"}, true)`
on a new manager, with the failing loader. -/
def example_deferred_failing : world :=
  (operation.register_sprite "lazy" "fx.png" none ["fx"] true).run example_failing world.new

/-- The manager `m'` differs from `m` at most by loads of assets that were unloaded in
`m` and whose tags match `tags_to_load`. -/
def only_loads (tags_to_load : List String) (m m' : asset_manager) : Prop :=
  m'.assets = m.assets ∧ m'.sprites = m.sprites ∧ m'.sprite_pool = m.sprite_pool ∧
    m'.generator = m.generator ∧
    ∀ id,
      (map_find m'.asset_pool id = map_find m.asset_pool id ∧
        map_find m'.texture_pool id = map_find m.texture_pool id) ∨
      ∃ a h, map_find m.asset_pool id = some a ∧ a.is_loaded = false ∧
        has_matching_tags tags_to_load a.tags = true ∧
        map_find m'.asset_pool id = some { a with is_loaded := true } ∧
        map_find m'.texture_pool id
          = (map_find m.texture_pool id).map (fun t => { t with texture := some h })

/-- Every entry of `m` is still there in `m'`: index entries and sprite records as
they were, asset and texture records with all fields but `is_loaded` and the handle. -/
structure persists (m m' : asset_manager) : Prop where
  assets : ∀ f a, map_find m.assets f = some a → map_find m'.assets f = some a
  sprites : ∀ n s, map_find m.sprites n = some s → map_find m'.sprites n = some s
  asset_pool : ∀ id a, map_find m.asset_pool id = some a →
    ∃ a', map_find m'.asset_pool id = some a' ∧ a'.id = a.id ∧ a'.filename = a.filename ∧
      a'.tags = a.tags ∧ a'.load_on_demand = a.load_on_demand
  texture_pool : ∀ id t, map_find m.texture_pool id = some t →
    ∃ t', map_find m'.texture_pool id = some t' ∧ t'.id = t.id
  sprite_pool : ∀ s sp, map_find m.sprite_pool s = some sp →
    map_find m'.sprite_pool s = some sp

/-- No identifier is a key of both the asset store and the sprite store. -/
def pools_disjoint (m : asset_manager) : Prop :=
  ∀ id, make_contains id m.asset_pool = true → make_contains id m.sprite_pool = false

/-- From `w` to `w'` the loader was not called, and every asset record is as it was or
is flagged unloaded. -/
def never_loads (w w' : world) : Prop :=
  w'.loader_calls = w.loader_calls ∧
    ∀ id, map_find w'.mgr.asset_pool id = map_find w.mgr.asset_pool id ∨
      ∃ a', map_find w'.mgr.asset_pool id = some a' ∧ a'.is_loaded = false

/-- No key occurs twice in the asset index, the asset store or the texture store. -/
structure keys_unique (m : asset_manager) : Prop where
  assets : (m.assets.map Prod.fst).Nodup
  asset_pool : (m.asset_pool.map Prod.fst).Nodup
  texture_pool : (m.texture_pool.map Prod.fst).Nodup

/-- The manager `m'` differs from `m` at most by unloads: some identifiers have their
asset record flagged unloaded and their texture handle cleared. -/
structure only_unloads (m m' : asset_manager) : Prop where
  assets : m'.assets = m.assets
  sprites : m'.sprites = m.sprites
  sprite_pool : m'.sprite_pool = m.sprite_pool
  generator : m'.generator = m.generator
  asset_keys : m'.asset_pool.map Prod.fst = m.asset_pool.map Prod.fst
  texture_keys : m'.texture_pool.map Prod.fst = m.texture_pool.map Prod.fst
  records : ∀ id,
    (map_find m'.asset_pool id = map_find m.asset_pool id ∧
      map_find m'.texture_pool id = map_find m.texture_pool id) ∨
    (map_find m'.asset_pool id
        = (map_find m.asset_pool id).map (fun a => { a with is_loaded := false }) ∧
      map_find m'.texture_pool id
        = (map_find m.texture_pool id).map (fun t => { t with texture := none }))

/-! ## Game components (`components.hpp`) and entity creation (`entities.hpp`) -/

/-- What the code does with values of type `float`, which are kept abstract (`F`): the
conversion `(float)n` of an `int`, the literals `0.0f` and `1.0f`, and the conversion
of a `float` to the `int` field of an `SDL_Rect`. -/
structure float_casts (F : Type) where
  of_int : Int → F
  to_int : F → Int
  zero : F
  one : F

namespace components

/-- The struct `render_component`. -/
structure render_component where
  id : component_id
  is_visible : Bool
  deriving DecidableEq, Repr

/-- The struct `sprite_component` of `components.hpp`. -/
structure sprite_component where
  id : component_id
  sprite_name : String
  deriving DecidableEq, Repr

/-- The struct `size_component`. -/
structure size_component (F : Type) where
  id : component_id
  width : F
  height : F
  deriving DecidableEq, Repr

/-- The struct `position_component`. -/
structure position_component (F : Type) where
  id : component_id
  x : F
  y : F
  deriving DecidableEq, Repr

/-- The constructor `render_component(id, is_visible)`. -/
def render_component.new (is_visible : Bool) (id : component_id) : render_component :=
  { id := id, is_visible := is_visible }

/-- The constructor `sprite_component(id, sprite_name)`. -/
def sprite_component.new (sprite_name : String) (id : component_id) : sprite_component :=
  { id := id, sprite_name := sprite_name }

/-- The constructor `size_component(id, int w, float h)`, which two `int` arguments
select: it delegates to `size_component(id, (float)w, (float)h)`. -/
def size_component.new {F : Type} (C : float_casts F) (w h : Int) (id : component_id) :
    size_component F :=
  { id := id, width := C.of_int w, height := C.of_int h }

/-- The constructor `position_component(id, int x, int y)`, which delegates to
`position_component(id, (float)x, (float)y)`. -/
def position_component.new {F : Type} (C : float_casts F) (x y : Int) (id : component_id) :
    position_component F :=
  { id := id, x := C.of_int x, y := C.of_int y }

end components

/-- The type `component_manager<game_components>` of `main.cpp`: one store for each of
the four component types. -/
structure game_component_manager (F : Type) where
  render_pool : component_list components.render_component
  sprite_pool : component_list components.sprite_component
  size_pool : component_list (components.size_component F)
  position_pool : component_list (components.position_component F)

namespace entity

end entity

/-- Example casts, with `Int` standing for `float`. -/
def example_casts : float_casts Int := { of_int := id, to_int := id, zero := 0, one := 1 }

/-- An example component manager with one visible entity `7` that has the sprite
`"background"` and no size or position. -/
def example_game : game_component_manager Int :=
  { render_pool := [(7, ⟨7, true⟩)], sprite_pool := [(7, ⟨7, "background"⟩)],
    size_pool := [], position_pool := [] }

/-! ## The render system (`base_system.hpp`, `render_system.hpp`) -/

/-- The members of `render_system` that `update` reads: `is_enabled` of `base_system`,
and whether the `window` and `renderer` pointers are non-null. -/
structure render_system where
  is_enabled : Bool
  window : Bool
  renderer : Bool
  deriving DecidableEq, Repr

/-- What `render_system::update` does to the outside, in order. -/
inductive render_event where
  /-- The line `Warning - Invalid ...`, for a null window or renderer. -/
  | warning_invalid (window renderer : Bool)
  /-- The call `SDL_RenderClear`. -/
  | render_clear
  /-- The query `assets.get_sprite(sprite_name)` for entity `id`. -/
  | get_sprite (id : component_id) (sprite_name : String)
  /-- The draw call `SDL_RenderCopy(renderer, texture, clip, dst)` for entity `id`. -/
  | render_copy (id : component_id) (texture : Texture_ptr) (clip dst : Option SDL_Rect)
  /-- The lines `Error while rendering texture.` and `Error: ...`. -/
  | error_rendering
  /-- The call `SDL_RenderPresent`. -/
  | render_present
  deriving DecidableEq, Repr

/-- The result of `update`: the world of the asset manager, what was done to the
outside, and whether the call returned or threw. -/
structure render_outcome where
  assets : world
  events : List render_event
  result : Except exception Unit

/-- The destination rectangle `form_rect` of an entity (lines 84-100): null without a
size and a position component, else built from them with defaults `0, 0, 1, 1`. -/
def form_rect {F : Type} (C : float_casts F) (pools : game_component_manager F)
    (id : component_id) : Option SDL_Rect :=
  let has_size := make_contains id pools.size_pool
  let has_position := make_contains id pools.position_pool
  if has_size || has_position then
    let wh : F × F :=
      match map_find pools.size_pool id with
      | some size_component => (size_component.width, size_component.height)
      | none => (C.one, C.one)
    let xy : F × F :=
      match map_find pools.position_pool id with
      | some position_component => (position_component.x, position_component.y)
      | none => (C.zero, C.zero)
    some ⟨C.to_int xy.1, C.to_int xy.2, C.to_int wh.1, C.to_int wh.2⟩
  else none

/-- The loop of `render_system::update` over the entries of the render store still to
visit.  `SDL_RenderCopy n texture clip dst` tells whether the `n`-th call of
`SDL_RenderCopy` reports an error; `copies` counts the calls made so far. -/
def update_loop {F : Type} (C : float_casts F) (E : externals)
    (SDL_RenderCopy : Nat → Texture_ptr → Option SDL_Rect → Option SDL_Rect → Bool)
    (pools : game_component_manager F) :
    List (component_id × components.render_component) → world → Nat → render_outcome
  | [], assets, _ => ⟨assets, [], .ok ()⟩
  | value :: rest, assets, copies =>
    let id := value.1
    if value.2.is_visible && make_contains id pools.sprite_pool then
      match map_find pools.sprite_pool id with
      | none => ⟨assets, [], .error .out_of_range⟩
      | some sprite_component =>
        let r := SDLComponents.get_sprite E sprite_component.sprite_name assets
        match r.result with
        | .error e =>
          ⟨r.state, [render_event.get_sprite id sprite_component.sprite_name], .error e⟩
        | .ok sprite_asset =>
          let dst := form_rect C pools id
          let failed := SDL_RenderCopy copies sprite_asset.texture sprite_asset.clipping_rect dst
          let tail := update_loop C E SDL_RenderCopy pools rest r.state (copies + 1)
          ⟨tail.assets,
            [render_event.get_sprite id sprite_component.sprite_name,
              render_event.render_copy id sprite_asset.texture sprite_asset.clipping_rect dst]
              ++ (if failed then [render_event.error_rendering] else []) ++ tail.events,
            tail.result⟩
    else update_loop C E SDL_RenderCopy pools rest assets copies

/-- The method `render_system::update`. -/
def update {F : Type} (C : float_casts F) (E : externals)
    (SDL_RenderCopy : Nat → Texture_ptr → Option SDL_Rect → Option SDL_Rect → Bool)
    (S : render_system) (pools : game_component_manager F) (assets : world) :
    render_outcome :=
  if !S.is_enabled then ⟨assets, [], .ok ()⟩
  else
    let warned : List render_event :=
      if !S.window || !S.renderer then [render_event.warning_invalid S.window S.renderer]
      else []
    let body := update_loop C E SDL_RenderCopy pools pools.render_pool assets 0
    match body.result with
    | .error e => ⟨body.assets, warned ++ [render_event.render_clear] ++ body.events, .error e⟩
    | .ok _ =>
      ⟨body.assets,
        warned ++ [render_event.render_clear] ++ body.events ++ [render_event.render_present],
        .ok ()⟩

/-- The queries of `get_sprite` among the events, in order. -/
def queried : List render_event → List (component_id × String)
  | [] => []
  | render_event.get_sprite id n :: rest => (id, n) :: queried rest
  | _ :: rest => queried rest

/-- The entities of the draw calls among the events, in order. -/
def drawn : List render_event → List component_id
  | [] => []
  | render_event.render_copy id _ _ _ :: rest => id :: drawn rest
  | _ :: rest => drawn rest

/-- The entities among `entries` that have a render component with `is_visible` and a
sprite component, each with its sprite name. -/
def visible_sprites {F : Type} (pools : game_component_manager F) :
    List (component_id × components.render_component) → List (component_id × String)
  | [] => []
  | value :: rest =>
    if value.2.is_visible then
      match map_find pools.sprite_pool value.1 with
      | some sprite_component =>
        (value.1, sprite_component.sprite_name) :: visible_sprites pools rest
      | none => visible_sprites pools rest
    else visible_sprites pools rest

/-- An example render system: enabled, with a window and a renderer. -/
def example_render_system : render_system :=
  { is_enabled := true, window := true, renderer := true }

/-- An example `SDL_RenderCopy` that reports an error exactly for a null texture. -/
def example_render_copy : Nat → Texture_ptr → Option SDL_Rect → Option SDL_Rect → Bool :=
  fun _ texture _ _ => texture.isNone

/-- An example component manager with two visible entities: `7` with the sprite name
`"nobody"`, which is not registered in the examples, and `9` with `"background"`. -/
def example_game_two : game_component_manager Int :=
  { render_pool := [(7, ⟨7, true⟩), (9, ⟨9, true⟩)],
    sprite_pool := [(7, ⟨7, "nobody"⟩), (9, ⟨9, "background"⟩)],
    size_pool := [], position_pool := [] }

/-- The amended claim about the loop of `update`, written as a program over the list
of entities that are visible and have a sprite (each with its sprite name): query
`get_sprite` for the entity; if the query throws, stop with its exception; if it
returns a view, issue one draw call with the handle and rectangle of the view, print
the error lines exactly when this `SDL_RenderCopy` call reports an error, and go on
with the next entity. -/
def draw_entities {F : Type} (C : float_casts F) (E : externals)
    (SDL_RenderCopy : Nat → Texture_ptr → Option SDL_Rect → Option SDL_Rect → Bool)
    (pools : game_component_manager F) :
    List (component_id × String) → world → Nat → render_outcome
  | [], assets, _ => ⟨assets, [], .ok ()⟩
  | entity :: rest, assets, copies =>
    let r := SDLComponents.get_sprite E entity.2 assets
    match r.result with
    | .error e => ⟨r.state, [render_event.get_sprite entity.1 entity.2], .error e⟩
    | .ok view =>
      let dst := form_rect C pools entity.1
      let tail := draw_entities C E SDL_RenderCopy pools rest r.state (copies + 1)
      ⟨tail.assets,
        [render_event.get_sprite entity.1 entity.2,
          render_event.render_copy entity.1 view.texture view.clipping_rect dst]
          ++ (if SDL_RenderCopy copies view.texture view.clipping_rect dst
              then [render_event.error_rendering] else [])
          ++ tail.events,
        tail.result⟩

/-- Whether the error lines among the events are exactly those of the draw calls on
which `SDL_RenderCopy` reports an error: scanning the events, with `copies` the number
of draw calls seen and `due` telling whether the last event was a draw call that
reported an error, an error line stands exactly where one is due. -/
def error_lines_exact
    (SDL_RenderCopy : Nat → Texture_ptr → Option SDL_Rect → Option SDL_Rect → Bool) :
    Nat → Bool → List render_event → Bool
  | _, due, [] => !due
  | copies, due, render_event.error_rendering :: rest =>
    due && error_lines_exact SDL_RenderCopy copies false rest
  | copies, due, render_event.render_copy _ texture clip dst :: rest =>
    !due && error_lines_exact SDL_RenderCopy (copies + 1)
      (SDL_RenderCopy copies texture clip dst) rest
  | copies, due, _ :: rest => !due && error_lines_exact SDL_RenderCopy copies false rest

/-! ## Facts about maps -/

theorem map_find_map_snd {K V : Type} [DecidableEq K] (g : V → V) (m : std_map K V) (k : K) :
    map_find (m.map (fun p => (p.1, g p.2))) k = (map_find m k).map g := by
  induction m with
  | nil => rfl
  | cons e rest ih =>
    obtain ⟨k', v⟩ := e
    simp only [List.map, map_find]
    split <;> simp [ih]

theorem map_find_cons {K V : Type} [DecidableEq K] (k0 k : K) (v : V) (rest : std_map K V) :
    map_find ((k0, v) :: rest) k = if k0 = k then some v else map_find rest k := rfl

theorem map_find_update {K V : Type} [DecidableEq K] (m : std_map K V) (k k' : K)
    (f : V → V) :
    map_find (map_update m k f) k' = if k = k' then (map_find m k').map f else map_find m k' := by
  induction m with
  | nil => simp [map_update, map_find]
  | cons e rest ih =>
    obtain ⟨k0, v⟩ := e
    have hcons : map_update ((k0, v) :: rest) k f =
        (if k0 = k then (k0, f v) else (k0, v)) :: map_update rest k f := rfl
    rw [hcons]
    by_cases h0 : k0 = k
    · subst h0
      rw [if_pos rfl, map_find_cons, map_find_cons, ih]
      by_cases h1 : k0 = k' <;> simp [h1]
    · rw [if_neg h0, map_find_cons, map_find_cons, ih]
      by_cases h1 : k0 = k'
      · subst h1
        have h2 : ¬ k = k0 := fun h => h0 h.symm
        simp [h2]
      · simp [h1]

theorem map_find_insert_ne {K V : Type} [DecidableEq K] [std_less K] (m : std_map K V)
    (k k' : K) (v : V) (h : k' ≠ k) : map_find (map_insert k v m) k' = map_find m k' := by
  induction m with
  | nil => simp [map_insert, map_find, Ne.symm h]
  | cons e rest ih =>
    obtain ⟨k0, v0⟩ := e
    simp only [map_insert]
    split
    · simp [map_find, Ne.symm h]
    · simp [map_find, ih]

theorem map_find_insert_self {K V : Type} [DecidableEq K] [std_less K] (m : std_map K V)
    (k : K) (v : V) (h : map_find m k = none) : map_find (map_insert k v m) k = some v := by
  induction m with
  | nil => simp [map_insert, map_find]
  | cons e rest ih =>
    obtain ⟨k0, v0⟩ := e
    simp only [map_find] at h
    split at h
    · exact absurd h (by simp)
    · rename_i hne
      simp only [map_insert]
      split
      · simp [map_find]
      · simp [map_find, hne, ih h]

theorem map_find_assign {K V : Type} [DecidableEq K] [std_less K] (m : std_map K V)
    (k k' : K) (v : V) :
    map_find (map_assign m k v) k' = if k' = k then some v else map_find m k' := by
  unfold map_assign make_contains
  cases hk : map_find m k with
  | none =>
    simp only [Option.isSome_none, Bool.false_eq_true, if_false]
    by_cases h : k' = k
    · subst h; simp [map_find_insert_self m k' v hk]
    · simp [h, map_find_insert_ne m k k' v h]
  | some v0 =>
    simp only [Option.isSome_some, if_true]
    have := map_find_update m k k' (fun _ => v)
    unfold map_update at this
    rw [this]
    by_cases h : k = k'
    · subst h; simp [hk]
    · simp [h, Ne.symm h]

theorem map_find_emplace {V : Type} (m : component_list V) (id k : component_id)
    (args : component_id → V) :
    map_find (make_emplace_id id m args).1 k =
      if k = id then some ((map_find m id).getD (args id)) else map_find m k := by
  unfold make_emplace_id make_contains
  cases hk : map_find m id with
  | none =>
    simp only [Option.isSome_none, Bool.false_eq_true, if_false, Option.getD_none]
    by_cases h : k = id
    · subst h; simp [map_find_insert_self m k _ hk]
    · simp [h, map_find_insert_ne m id k _ h]
  | some v0 =>
    simp only [Option.isSome_some, if_true, Option.getD_some]
    by_cases h : k = id
    · subst h; simp [hk]
    · simp [h]

/-! ## The shape of the state after each method -/

theorem load_texture_mgr (E : externals) (id : component_id) (w : world) :
    (load_texture E id w).state.mgr = w.mgr ∨
      ∃ h, (load_texture E id w).state.mgr = mark_loaded w.mgr id h ∧
        (map_find w.mgr.asset_pool id).isSome = true ∧
        (map_find w.mgr.texture_pool id).isSome = true := by
  unfold load_texture
  split
  · exact Or.inl rfl
  · split
    · exact Or.inl rfl
    · rename_i ha _ _ ht
      split
      · split
        · exact Or.inl rfl
        · exact Or.inr ⟨_, rfl, by simp [ha], by simp [ht]⟩
      · exact Or.inl rfl

theorem unload_texture_mgr (id : component_id) (w : world) :
    (unload_texture id w).state.mgr = w.mgr ∨
      (unload_texture id w).state.mgr = mark_unloaded w.mgr id := by
  unfold unload_texture
  split
  · exact Or.inl rfl
  · split
    · split
      · exact Or.inl rfl
      · exact Or.inr rfl
    · exact Or.inl rfl

theorem load_texture_stable {P : asset_manager → Prop} (hP : stable P) (E : externals)
    (id : component_id) (w : world) (h : P w.mgr) : P (load_texture E id w).state.mgr := by
  rcases load_texture_mgr E id w with h1 | ⟨x, h1, ha, ht⟩
  · rw [h1]; exact h
  · rw [h1]; exact hP.loaded _ _ _ ha ht h

theorem unload_texture_stable {P : asset_manager → Prop} (hP : stable P)
    (id : component_id) (w : world) (h : P w.mgr) : P (unload_texture id w).state.mgr := by
  rcases unload_texture_mgr id w with h1 | h1
  · rw [h1]; exact h
  · rw [h1]; exact hP.unloaded _ _ h

theorem unload_asset_stable {P : asset_manager → Prop} (hP : stable P)
    (filename : String) (w : world) (h : P w.mgr) : P (unload_asset filename w).state.mgr := by
  unfold unload_asset
  split
  · exact h
  · exact unload_texture_stable hP _ w h

theorem load_asset_stable {P : asset_manager → Prop} (hP : stable P) (E : externals)
    (filename : String) (w : world) (h : P w.mgr) : P (load_asset E filename w).state.mgr := by
  unfold load_asset
  split
  · exact h
  · split
    · exact h
    · split
      · split
        · exact load_texture_stable hP E _ w h
        · exact h
      · exact h

theorem load_sprite_stable {P : asset_manager → Prop} (hP : stable P) (E : externals)
    (sprite_name : String) (w : world) (h : P w.mgr) :
    P (load_sprite E sprite_name w).state.mgr := by
  unfold load_sprite
  split
  · exact h
  · split
    · exact h
    · exact load_texture_stable hP E _ w h

theorem load_image_tags_loop_stable {P : asset_manager → Prop} (hP : stable P)
    (E : externals) (tags_to_load : List String) (unload_remaining : Bool)
    (todo : List (String × component_id)) :
    ∀ w : world, P w.mgr →
      P (load_image_tags_loop E tags_to_load unload_remaining todo w).state.mgr := by
  induction todo with
  | nil => intro w h; exact h
  | cons asset_pair rest ih =>
    intro w h
    simp only [load_image_tags_loop]
    split
    · exact h
    · rename_i asset _
      have hr : ∀ r : outcome Unit, P r.state.mgr →
          P (match r.result with
            | .error e => (⟨r.state, .error e⟩ : outcome Unit)
            | .ok _ => load_image_tags_loop E tags_to_load unload_remaining rest
                r.state).state.mgr := by
        intro r hr
        split
        · exact hr
        · exact ih _ hr
      apply hr
      split
      · exact load_asset_stable hP E _ w h
      · split
        · exact unload_asset_stable hP _ w h
        · exact h

theorem load_asset_tags_stable {P : asset_manager → Prop} (hP : stable P) (E : externals)
    (tags_to_load : List String) (unload_remaining : Bool) (w : world) (h : P w.mgr) :
    P (load_asset_tags E tags_to_load unload_remaining w).state.mgr :=
  load_image_tags_loop_stable hP E tags_to_load unload_remaining w.mgr.assets w h

theorem get_sprite_stable {P : asset_manager → Prop} (hP : stable P) (E : externals)
    (sprite_name : String) (w : world) (h : P w.mgr) :
    P (get_sprite E sprite_name w).state.mgr := by
  unfold get_sprite
  split
  · exact h
  · split
    · exact h
    · dsimp only
      split
      · exact h
      · split
        · exact h
        · rename_i sprite _ _ texture _ _ asset _
          have hr : ∀ r : outcome Unit, P r.state.mgr →
              P (match r.result with
                | .error e => (⟨r.state, .error e⟩ : outcome sprite_asset)
                | .ok _ =>
                  match map_find r.state.mgr.texture_pool sprite.texture_id with
                  | some texture' => ⟨r.state, .ok ⟨texture'.texture, sprite.clipping_rect⟩⟩
                  | none => ⟨r.state, .ok ⟨texture.texture, sprite.clipping_rect⟩⟩).state.mgr := by
            intro r hr
            split
            · exact hr
            · split <;> exact hr
          apply hr
          split
          · exact h
          · split
            · exact load_texture_stable hP E _ w h
            · exact h

theorem register_sprite_mgr (E : externals) (sprite_name filename : String)
    (clipping_rect : Option SDL_Rect) (tags : List String) (load_on_demand : Bool)
    (w : world) :
    (register_sprite E sprite_name filename clipping_rect tags load_on_demand w).state.mgr =
      if make_contains sprite_name w.mgr.sprites then w.mgr
      else
        match map_find w.mgr.assets filename with
        | some id_of_asset => add_sprite E w.mgr sprite_name clipping_rect id_of_asset
        | none =>
          add_sprite E (add_asset E w.mgr filename tags load_on_demand) sprite_name
            clipping_rect (E.generator w.mgr.generator) := by
  unfold register_sprite
  by_cases hs : make_contains sprite_name w.mgr.sprites = true
  · simp [hs]
  · cases ha : map_find w.mgr.assets filename with
    | some a =>
      have hc : make_contains filename w.mgr.assets = true := by simp [make_contains, ha]
      simp [hs, hc, ha, add_sprite, generate_id]
    | none =>
      have hc : make_contains filename w.mgr.assets = false := by simp [make_contains, ha]
      simp [hs, hc, add_sprite, add_asset, generate_id, map_find_assign]

/-! ## Invariants of the reachable states -/

theorem reachable_invariant (E : externals) (P : asset_manager → Prop)
    (hnew : P asset_manager.new) (hP : stable P)
    (hreg : ∀ (w : world) n f c t l, P w.mgr → P (register_sprite E n f c t l w).state.mgr)
    (hall : ∀ w : world, P w.mgr → P (unload_all w).state.mgr) :
    ∀ w, reachable E w → P w.mgr := by
  intro w hw
  induction hw with
  | new => exact hnew
  | call o _ ih =>
    cases o with
    | register_sprite n f c t l => exact hreg _ n f c t l ih
    | load_sprite n => exact load_sprite_stable hP E n _ ih
    | load_asset_tags t u => exact load_asset_tags_stable hP E t u _ ih
    | get_sprite n => exact get_sprite_stable hP E n _ ih
    | unload_all => exact hall _ ih

theorem handle_implies_loaded_stable : stable handle_implies_loaded := by
  constructor
  · intro m id h ha _ hm id' t ht hne
    simp only [mark_loaded, map_find_update] at ht ⊢
    by_cases hid : id = id'
    · subst hid
      cases hap : map_find m.asset_pool id with
      | none => simp [hap] at ha
      | some a => exact ⟨{ a with is_loaded := true }, by simp, rfl⟩
    · rw [if_neg hid] at ht ⊢
      exact hm id' t ht hne
  · intro m id hm id' t ht hne
    simp only [mark_unloaded, map_find_update] at ht ⊢
    by_cases hid : id = id'
    · subst hid
      rw [if_pos rfl] at ht
      cases htp : map_find m.texture_pool id with
      | none => simp [htp] at ht
      | some t0 =>
        simp [htp] at ht
        subst ht
        exact absurd rfl hne
    · rw [if_neg hid] at ht ⊢
      exact hm id' t ht hne

theorem handle_implies_loaded_add_asset (E : externals) (m : asset_manager)
    (filename : String) (tags : List String) (load_on_demand : Bool)
    (hm : handle_implies_loaded m) :
    handle_implies_loaded (add_asset E m filename tags load_on_demand) := by
  intro id t ht hne
  simp only [add_asset, map_find_emplace] at ht ⊢
  by_cases hid : id = E.generator m.generator
  · rw [if_pos hid] at ht ⊢
    cases htp : map_find m.texture_pool (E.generator m.generator) with
    | none =>
      simp [htp, texture_component.new] at ht
      subst ht
      exact absurd rfl hne
    | some t0 =>
      simp [htp] at ht
      subst ht
      obtain ⟨a, ha, hl⟩ := hm _ _ htp hne
      exact ⟨a, by simp [ha], hl⟩
  · rw [if_neg hid] at ht ⊢
    exact hm id t ht hne

theorem handle_implies_loaded_add_sprite (E : externals) (m : asset_manager)
    (sprite_name : String) (clipping_rect : Option SDL_Rect) (id_of_asset : component_id)
    (hm : handle_implies_loaded m) :
    handle_implies_loaded (add_sprite E m sprite_name clipping_rect id_of_asset) := hm

theorem handle_implies_loaded_register (E : externals) (w : world) (n f : String)
    (c : Option SDL_Rect) (t : List String) (l : Bool) (hm : handle_implies_loaded w.mgr) :
    handle_implies_loaded (register_sprite E n f c t l w).state.mgr := by
  rw [register_sprite_mgr]
  split
  · exact hm
  · split
    · exact handle_implies_loaded_add_sprite E _ _ _ _ hm
    · exact handle_implies_loaded_add_sprite E _ _ _ _
        (handle_implies_loaded_add_asset E _ _ _ _ hm)

theorem handle_implies_loaded_unload_all (w : world) :
    handle_implies_loaded (unload_all w).state.mgr := by
  intro id t ht hne
  simp only [unload_all] at ht
  rw [map_find_map_snd (fun t : texture_component => { t with texture := none })] at ht
  cases htp : map_find w.mgr.texture_pool id with
  | none => simp [htp] at ht
  | some t0 =>
    simp [htp] at ht
    subst ht
    exact absurd rfl hne

theorem map_find_update_isSome {K V : Type} [DecidableEq K] (m : std_map K V) (k k' : K)
    (f : V → V) : (map_find (map_update m k f) k').isSome = (map_find m k').isSome := by
  rw [map_find_update]
  split
  · cases map_find m k' <;> rfl
  · rfl

theorem map_find_emplace_isSome {V : Type} (m : component_list V) (id k : component_id)
    (args : component_id → V) (h : (map_find m k).isSome = true) :
    (map_find (make_emplace_id id m args).1 k).isSome = true := by
  rw [map_find_emplace]
  split
  · rfl
  · exact h

theorem map_find_emplace_self_isSome {V : Type} (m : component_list V) (id : component_id)
    (args : component_id → V) :
    (map_find (make_emplace_id id m args).1 id).isSome = true := by
  rw [map_find_emplace, if_pos rfl]
  rfl

theorem linked_new : linked asset_manager.new := by
  constructor <;> intro _ _ h <;> simp [asset_manager.new, map_find] at h

theorem linked_stable : stable linked := by
  constructor
  · intro m id h _ _ hm
    constructor
    · intro f a hf
      have := hm.assets_stored f a hf
      simpa only [mark_loaded, map_find_update_isSome] using this
    · exact hm.sprites_stored
    · intro s sp hs
      have := hm.sprite_asset_stored s sp hs
      simpa only [mark_loaded, map_find_update_isSome] using this
  · intro m id hm
    constructor
    · intro f a hf
      have := hm.assets_stored f a hf
      simpa only [mark_unloaded, map_find_update_isSome] using this
    · exact hm.sprites_stored
    · intro s sp hs
      have := hm.sprite_asset_stored s sp hs
      simpa only [mark_unloaded, map_find_update_isSome] using this

theorem linked_add_asset (E : externals) (m : asset_manager) (filename : String)
    (tags : List String) (load_on_demand : Bool) (hm : linked m) :
    linked (add_asset E m filename tags load_on_demand) := by
  constructor
  · intro f a hf
    simp only [add_asset, map_find_assign] at hf ⊢
    by_cases hff : f = filename
    · rw [if_pos hff] at hf
      cases hf
      exact ⟨map_find_emplace_self_isSome _ _ _, map_find_emplace_self_isSome _ _ _⟩
    · rw [if_neg hff] at hf
      have := hm.assets_stored f a hf
      exact ⟨map_find_emplace_isSome _ _ _ _ this.1, map_find_emplace_isSome _ _ _ _ this.2⟩
  · exact hm.sprites_stored
  · intro s sp hs
    have := hm.sprite_asset_stored s sp hs
    exact ⟨map_find_emplace_isSome _ _ _ _ this.1, map_find_emplace_isSome _ _ _ _ this.2⟩

theorem linked_add_sprite (E : externals) (m : asset_manager) (sprite_name : String)
    (clipping_rect : Option SDL_Rect) (id_of_asset : component_id) (hm : linked m)
    (ha : (map_find m.asset_pool id_of_asset).isSome = true)
    (ht : (map_find m.texture_pool id_of_asset).isSome = true) :
    linked (add_sprite E m sprite_name clipping_rect id_of_asset) := by
  constructor
  · exact hm.assets_stored
  · intro n s hn
    simp only [add_sprite, map_find_assign] at hn ⊢
    by_cases hnn : n = sprite_name
    · rw [if_pos hnn] at hn
      cases hn
      exact map_find_emplace_self_isSome _ _ _
    · rw [if_neg hnn] at hn
      exact map_find_emplace_isSome _ _ _ _ (hm.sprites_stored n s hn)
  · intro s sp hs
    simp only [add_sprite, map_find_emplace] at hs ⊢
    by_cases hss : s = E.generator m.generator
    · rw [if_pos hss] at hs
      cases hold : map_find m.sprite_pool (E.generator m.generator) with
      | none =>
        simp [hold, sprite_component.new] at hs
        subst hs
        exact ⟨ha, ht⟩
      | some sp0 =>
        simp [hold] at hs
        subst hs
        exact hm.sprite_asset_stored _ _ hold
    · rw [if_neg hss] at hs
      exact hm.sprite_asset_stored s sp hs

theorem linked_register (E : externals) (w : world) (n f : String)
    (c : Option SDL_Rect) (t : List String) (l : Bool) (hm : linked w.mgr) :
    linked (register_sprite E n f c t l w).state.mgr := by
  rw [register_sprite_mgr]
  split
  · exact hm
  · split
    · rename_i a ha
      have := hm.assets_stored f a ha
      exact linked_add_sprite E _ _ _ _ hm this.1 this.2
    · refine linked_add_sprite E _ _ _ _ (linked_add_asset E _ _ _ _ hm) ?_ ?_
      · exact map_find_emplace_self_isSome _ _ _
      · exact map_find_emplace_self_isSome _ _ _

theorem linked_unload_all (w : world) (hm : linked w.mgr) :
    linked (unload_all w).state.mgr := by
  have hap : ∀ k, (map_find (unload_all w).state.mgr.asset_pool k).isSome =
      (map_find w.mgr.asset_pool k).isSome := by
    intro k
    simp only [unload_all]
    rw [map_find_map_snd (fun a : asset_component => { a with is_loaded := false })]
    cases map_find w.mgr.asset_pool k <;> rfl
  have htp : ∀ k, (map_find (unload_all w).state.mgr.texture_pool k).isSome =
      (map_find w.mgr.texture_pool k).isSome := by
    intro k
    simp only [unload_all]
    rw [map_find_map_snd (fun t : texture_component => { t with texture := none })]
    cases map_find w.mgr.texture_pool k <;> rfl
  constructor
  · intro f a hf
    rw [hap, htp]
    exact hm.assets_stored f a hf
  · exact hm.sprites_stored
  · intro s sp hs
    rw [hap, htp]
    exact hm.sprite_asset_stored s sp hs

theorem reachable_linked (E : externals) (w : world) (hw : reachable E w) : linked w.mgr :=
  reachable_invariant E linked linked_new linked_stable
    (fun w n f c t l h => linked_register E w n f c t l h)
    (fun w h => linked_unload_all w h) w hw

theorem reachable_handle_implies_loaded (E : externals) (w : world) (hw : reachable E w) :
    handle_implies_loaded w.mgr :=
  reachable_invariant E handle_implies_loaded
    (by intro id t ht; simp [asset_manager.new, map_find] at ht)
    handle_implies_loaded_stable
    (fun w n f c t l h => handle_implies_loaded_register E w n f c t l h)
    (fun w _ => handle_implies_loaded_unload_all w) w hw

/-! ## Loading one texture, and resolving a sprite -/

theorem load_texture_loads (E : externals) (hE : loader_succeeds E) (id : component_id)
    (w : world) (a : asset_component) (t : texture_component)
    (ha : map_find w.mgr.asset_pool id = some a) (ht : map_find w.mgr.texture_pool id = some t)
    (hc : (!a.is_loaded || t.texture == none) = true) :
    ∃ h, E.load_texture w.loader_calls a.filename = some h ∧
      load_texture E id w =
        ⟨{ w with loader_calls := w.loader_calls + 1, mgr := mark_loaded w.mgr id h },
          .ok ()⟩ := by
  have hsome := hE w.loader_calls a.filename
  cases hl : E.load_texture w.loader_calls a.filename with
  | none => simp [hl] at hsome
  | some h =>
    refine ⟨h, rfl, ?_⟩
    unfold load_texture
    simp only [ha, ht, hc, if_true, hl]
    rfl

theorem load_texture_skips (E : externals) (id : component_id)
    (w : world) (a : asset_component) (t : texture_component)
    (ha : map_find w.mgr.asset_pool id = some a) (ht : map_find w.mgr.texture_pool id = some t)
    (hc : (!a.is_loaded || t.texture == none) = false) :
    load_texture E id w = ⟨w, .ok ()⟩ := by
  unfold load_texture
  simp only [ha, ht, hc]
  rfl

theorem load_texture_result (E : externals) (hE : loader_succeeds E) (id : component_id)
    (w : world) (a : asset_component) (t : texture_component)
    (ha : map_find w.mgr.asset_pool id = some a)
    (ht : map_find w.mgr.texture_pool id = some t) :
    (load_texture E id w).result = .ok () ∧
      (load_texture E id w).state.mgr.sprites = w.mgr.sprites ∧
      (load_texture E id w).state.mgr.sprite_pool = w.mgr.sprite_pool ∧
      map_find (load_texture E id w).state.mgr.asset_pool id
        = some { a with is_loaded := true } ∧
      ∃ h, map_find (load_texture E id w).state.mgr.texture_pool id
        = some { t with texture := some h } := by
  cases hc : (!a.is_loaded || t.texture == none) with
  | true =>
    obtain ⟨h, _, hl⟩ := load_texture_loads E hE id w a t ha ht hc
    rw [hl]
    refine ⟨rfl, rfl, rfl, ?_, h, ?_⟩
    · simp [mark_loaded, map_find_update, ha]
    · simp [mark_loaded, map_find_update, ht]
  | false =>
    rw [load_texture_skips E id w a t ha ht hc]
    simp only [Bool.or_eq_false_iff, Bool.not_eq_false', beq_eq_false_iff_ne, ne_eq] at hc
    obtain ⟨hl, hn⟩ := hc
    cases htex : t.texture with
    | none => exact absurd htex hn
    | some h =>
      refine ⟨rfl, rfl, rfl, ?_, h, ?_⟩
      · rw [ha, ← hl]
      · rw [ht, ← htex]

theorem get_sprite_nondeferred_null (E : externals) (w : world) (n : String)
    (s : component_id) (sp : sprite_component) (a : asset_component) (t : texture_component)
    (hs : map_find w.mgr.sprites n = some s) (hsp : map_find w.mgr.sprite_pool s = some sp)
    (ht : map_find w.mgr.texture_pool sp.texture_id = some t)
    (ha : map_find w.mgr.asset_pool sp.texture_id = some a)
    (hlod : a.load_on_demand = false) (hnull : t.texture = none) :
    get_sprite E n w =
      ⟨{ w with cout := w.cout ++ [warning.not_loaded_correctly n] },
        .ok ⟨none, sp.clipping_rect⟩⟩ := by
  unfold get_sprite
  simp only [hs, hsp, ht, ha]
  simp [hlod, hnull, ht]

theorem get_sprite_nondeferred_live (E : externals) (w : world) (n : String)
    (s : component_id) (sp : sprite_component) (a : asset_component) (t : texture_component)
    (h : Nat)
    (hs : map_find w.mgr.sprites n = some s) (hsp : map_find w.mgr.sprite_pool s = some sp)
    (ht : map_find w.mgr.texture_pool sp.texture_id = some t)
    (ha : map_find w.mgr.asset_pool sp.texture_id = some a)
    (hlod : a.load_on_demand = false) (hlive : t.texture = some h) :
    get_sprite E n w = ⟨w, .ok ⟨some h, sp.clipping_rect⟩⟩ := by
  unfold get_sprite
  simp only [hs, hsp, ht, ha]
  simp [hlod, hlive, ht]

theorem get_sprite_deferred (E : externals) (hE : loader_succeeds E) (w : world) (n : String)
    (s : component_id) (sp : sprite_component) (a : asset_component) (t : texture_component)
    (hs : map_find w.mgr.sprites n = some s) (hsp : map_find w.mgr.sprite_pool s = some sp)
    (ht : map_find w.mgr.texture_pool sp.texture_id = some t)
    (ha : map_find w.mgr.asset_pool sp.texture_id = some a)
    (hlod : a.load_on_demand = true) :
    (get_sprite E n w).state = (load_texture E sp.texture_id w).state ∧
      ∃ h, (get_sprite E n w).result = .ok ⟨some h, sp.clipping_rect⟩ ∧
        map_find (get_sprite E n w).state.mgr.texture_pool sp.texture_id
          = some { t with texture := some h } := by
  obtain ⟨hres, _, _, _, h, hh⟩ := load_texture_result E hE sp.texture_id w a t ha ht
  unfold get_sprite
  simp only [hs, hsp, ht, ha]
  simp only [hlod, Bool.not_true, Bool.false_and, Bool.false_eq_true, if_false, if_true, hres,
    hh]
  exact ⟨trivial, h, rfl, rfl⟩

theorem unload_all_texture_find (w : world) (k : component_id) :
    map_find (unload_all w).state.mgr.texture_pool k
      = (map_find w.mgr.texture_pool k).map (fun t => { t with texture := none }) :=
  map_find_map_snd (fun t : texture_component => { t with texture := none }) _ k

theorem unload_all_asset_find (w : world) (k : component_id) :
    map_find (unload_all w).state.mgr.asset_pool k
      = (map_find w.mgr.asset_pool k).map (fun a => { a with is_loaded := false }) :=
  map_find_map_snd (fun a : asset_component => { a with is_loaded := false }) _ k

theorem load_sprite_eq_load_texture (E : externals) (w : world) (n : String)
    (s : component_id) (sp : sprite_component)
    (hs : map_find w.mgr.sprites n = some s) (hsp : map_find w.mgr.sprite_pool s = some sp) :
    load_sprite E n w = load_texture E sp.texture_id w := by
  unfold load_sprite
  simp only [hs, hsp]

theorem get_sprite_deferred_loads (E : externals) (hE : loader_succeeds E) (w : world)
    (n : String) (s : component_id) (sp : sprite_component) (a : asset_component)
    (t : texture_component)
    (hs : map_find w.mgr.sprites n = some s) (hsp : map_find w.mgr.sprite_pool s = some sp)
    (ht : map_find w.mgr.texture_pool sp.texture_id = some t)
    (ha : map_find w.mgr.asset_pool sp.texture_id = some a)
    (hlod : a.load_on_demand = true) :
    ∃ h, (get_sprite E n w).result = .ok ⟨some h, sp.clipping_rect⟩ ∧
      ∃ a', map_find (get_sprite E n w).state.mgr.asset_pool sp.texture_id = some a' ∧
        a'.is_loaded = true := by
  obtain ⟨hst, h, hres, _⟩ := get_sprite_deferred E hE w n s sp a t hs hsp ht ha hlod
  obtain ⟨_, _, _, hasset, _⟩ := load_texture_result E hE sp.texture_id w a t ha ht
  refine ⟨h, hres, { a with is_loaded := true }, ?_, rfl⟩
  rw [hst]
  exact hasset

/-! ## Registration with a generator that never repeats -/

theorem fresh_ids_new (E : externals) : fresh_ids E asset_manager.new := by
  constructor
  · intro f a h; simp [asset_manager.new, map_find] at h
  · intro s sp h; simp [asset_manager.new, map_find] at h
  · intro f₁ f₂ a h; simp [asset_manager.new, map_find] at h

theorem fresh_ids_add_asset (E : externals) (hE : Function.Injective E.generator)
    (m : asset_manager) (filename : String) (tags : List String) (load_on_demand : Bool)
    (hm : fresh_ids E m) :
    fresh_ids E (add_asset E m filename tags load_on_demand) := by
  constructor
  · intro f a hf
    simp only [add_asset, map_find_assign] at hf ⊢
    by_cases hff : f = filename
    · rw [if_pos hff] at hf
      cases hf
      exact ⟨m.generator, Nat.lt_succ_self _, rfl⟩
    · rw [if_neg hff] at hf
      obtain ⟨k, hk, rfl⟩ := hm.asset_ids_drawn f a hf
      exact ⟨k, Nat.lt_succ_of_lt hk, rfl⟩
  · intro s sp hs
    obtain ⟨k, hk, rfl⟩ := hm.sprite_ids_drawn s sp hs
    exact ⟨k, Nat.lt_succ_of_lt hk, rfl⟩
  · intro f₁ f₂ a h₁ h₂
    simp only [add_asset, map_find_assign] at h₁ h₂
    by_cases hf₁ : f₁ = filename <;> by_cases hf₂ : f₂ = filename
    · rw [hf₁, hf₂]
    · rw [if_pos hf₁] at h₁
      rw [if_neg hf₂] at h₂
      cases h₁
      obtain ⟨k, hk, hkeq⟩ := hm.asset_ids_drawn f₂ _ h₂
      have := hE hkeq
      omega
    · rw [if_neg hf₁] at h₁
      rw [if_pos hf₂] at h₂
      cases h₂
      obtain ⟨k, hk, hkeq⟩ := hm.asset_ids_drawn f₁ _ h₁
      have := hE hkeq
      omega
    · rw [if_neg hf₁] at h₁
      rw [if_neg hf₂] at h₂
      exact hm.assets_injective f₁ f₂ a h₁ h₂

theorem fresh_ids_add_sprite (E : externals) (m : asset_manager) (sprite_name : String)
    (clipping_rect : Option SDL_Rect) (id_of_asset : component_id) (hm : fresh_ids E m) :
    fresh_ids E (add_sprite E m sprite_name clipping_rect id_of_asset) := by
  constructor
  · intro f a hf
    obtain ⟨k, hk, rfl⟩ := hm.asset_ids_drawn f a hf
    exact ⟨k, Nat.lt_succ_of_lt hk, rfl⟩
  · intro s sp hs
    simp only [add_sprite, map_find_emplace] at hs ⊢
    by_cases hss : s = E.generator m.generator
    · exact ⟨m.generator, Nat.lt_succ_self _, hss⟩
    · rw [if_neg hss] at hs
      obtain ⟨k, hk, rfl⟩ := hm.sprite_ids_drawn s sp hs
      exact ⟨k, Nat.lt_succ_of_lt hk, rfl⟩
  · exact hm.assets_injective

theorem fresh_ids_register (E : externals) (hE : Function.Injective E.generator)
    (r : registration) (w : world) (hm : fresh_ids E w.mgr) :
    fresh_ids E (r.run E w).mgr := by
  unfold registration.run
  rw [register_sprite_mgr]
  split
  · exact hm
  · split
    · exact fresh_ids_add_sprite E _ _ _ _ hm
    · exact fresh_ids_add_sprite E _ _ _ _ (fresh_ids_add_asset E hE _ _ _ _ hm)

theorem fresh_ids_register_all (E : externals) (hE : Function.Injective E.generator)
    (rs : List registration) :
    ∀ w : world, fresh_ids E w.mgr → fresh_ids E (register_all E rs w).mgr := by
  induction rs with
  | nil => intro w h; exact h
  | cons r rest ih =>
    intro w h
    exact ih _ (fresh_ids_register E hE r w h)

theorem register_all_append (E : externals) (pre : List registration) (r : registration)
    (post : List registration) (w : world) :
    register_all E (pre ++ r :: post) w
      = register_all E post (r.run E (register_all E pre w)) := by
  simp [register_all, List.foldl_append]

theorem sprite_texture_id_add_sprite_new (E : externals) (m : asset_manager)
    (sprite_name : String) (clipping_rect : Option SDL_Rect) (id_of_asset : component_id)
    (hfree : map_find m.sprite_pool (E.generator m.generator) = none) :
    sprite_texture_id (add_sprite E m sprite_name clipping_rect id_of_asset) sprite_name
      = some id_of_asset := by
  simp [sprite_texture_id, add_sprite, map_find_assign, map_find_emplace, hfree,
    sprite_component.new]

theorem sprite_texture_id_add_sprite_old (E : externals) (m : asset_manager)
    (sprite_name : String) (clipping_rect : Option SDL_Rect) (id_of_asset : component_id)
    (n : String) (a : component_id) (hn : n ≠ sprite_name)
    (h : sprite_texture_id m n = some a) :
    sprite_texture_id (add_sprite E m sprite_name clipping_rect id_of_asset) n = some a := by
  unfold sprite_texture_id at h ⊢
  simp only [add_sprite, map_find_assign, if_neg hn]
  cases hs : map_find m.sprites n with
  | none => simp [hs] at h
  | some s =>
    simp only [hs] at h ⊢
    cases hsp : map_find m.sprite_pool s with
    | none => simp [hsp] at h
    | some sp =>
      rw [map_find_emplace]
      by_cases hss : s = E.generator m.generator
      · rw [if_pos hss, ← hss, hsp]
        simpa [hsp] using h
      · rw [if_neg hss]
        exact h

theorem sprite_free_of_fresh (E : externals) (hE : Function.Injective E.generator)
    (m : asset_manager) (hm : fresh_ids E m) :
    map_find m.sprite_pool (E.generator m.generator) = none := by
  cases h : map_find m.sprite_pool (E.generator m.generator) with
  | none => rfl
  | some sp =>
    obtain ⟨k, hk, hkeq⟩ := hm.sprite_ids_drawn _ sp h
    have := hE hkeq
    omega

theorem register_new_name_links (E : externals) (hE : Function.Injective E.generator)
    (r : registration) (w : world) (hm : fresh_ids E w.mgr)
    (hnew : make_contains r.sprite_name w.mgr.sprites = false) :
    ∃ a, sprite_texture_id (r.run E w).mgr r.sprite_name = some a ∧
      map_find (r.run E w).mgr.assets r.filename = some a := by
  unfold registration.run
  rw [register_sprite_mgr, if_neg (by simp [hnew])]
  cases ha : map_find w.mgr.assets r.filename with
  | some a =>
    exact ⟨a, sprite_texture_id_add_sprite_new E _ _ _ _ (sprite_free_of_fresh E hE _ hm), ha⟩
  | none =>
    refine ⟨E.generator w.mgr.generator, ?_, ?_⟩
    · exact sprite_texture_id_add_sprite_new E _ _ _ _
        (sprite_free_of_fresh E hE _ (fresh_ids_add_asset E hE _ _ _ _ hm))
    · simp [add_sprite, add_asset, map_find_assign]

theorem register_keeps_links (E : externals) (r : registration) (w : world) :
    (∀ n a, sprite_texture_id w.mgr n = some a →
        sprite_texture_id (r.run E w).mgr n = some a) ∧
      (∀ f a, map_find w.mgr.assets f = some a →
        map_find (r.run E w).mgr.assets f = some a) := by
  unfold registration.run
  rw [register_sprite_mgr]
  by_cases hdup : make_contains r.sprite_name w.mgr.sprites = true
  · rw [if_pos hdup]
    exact ⟨fun _ _ h => h, fun _ _ h => h⟩
  · rw [if_neg hdup]
    have hne : ∀ n a, sprite_texture_id w.mgr n = some a → n ≠ r.sprite_name := by
      intro n a h hn
      subst hn
      apply hdup
      unfold sprite_texture_id at h
      unfold make_contains
      cases hs : map_find w.mgr.sprites r.sprite_name with
      | none => simp [hs] at h
      | some s => rfl
    cases ha : map_find w.mgr.assets r.filename with
    | some a0 =>
      exact ⟨fun n a h => sprite_texture_id_add_sprite_old E _ _ _ _ n a (hne n a h) h,
        fun _ _ h => h⟩
    | none =>
      constructor
      · intro n a h
        exact sprite_texture_id_add_sprite_old E _ _ _ _ n a (hne n a h) h
      · intro f a hf
        have hff : f ≠ r.filename := by
          intro hff
          rw [hff, ha] at hf
          cases hf
        simp [add_sprite, add_asset, map_find_assign, hff, hf]

theorem register_all_keeps_links (E : externals) (rs : List registration) :
    ∀ w : world,
      (∀ n a, sprite_texture_id w.mgr n = some a →
          sprite_texture_id (register_all E rs w).mgr n = some a) ∧
        (∀ f a, map_find w.mgr.assets f = some a →
          map_find (register_all E rs w).mgr.assets f = some a) := by
  induction rs with
  | nil => intro w; exact ⟨fun _ _ h => h, fun _ _ h => h⟩
  | cons r rest ih =>
    intro w
    have h1 := register_keeps_links E r w
    have h2 := ih (r.run E w)
    exact ⟨fun n a h => h2.1 n a (h1.1 n a h), fun f a h => h2.2 f a (h1.2 f a h)⟩

theorem register_all_links (E : externals) (hE : Function.Injective E.generator)
    (pre : List registration) (r : registration) (post : List registration)
    (hnew : make_contains r.sprite_name (register_all E pre world.new).mgr.sprites = false) :
    ∃ a, sprite_texture_id (register_all E (pre ++ r :: post) world.new).mgr r.sprite_name
          = some a ∧
      map_find (register_all E (pre ++ r :: post) world.new).mgr.assets r.filename
          = some a := by
  rw [register_all_append]
  have hfresh := fresh_ids_register_all E hE pre world.new (fresh_ids_new E)
  obtain ⟨a, h1, h2⟩ := register_new_name_links E hE r _ hfresh hnew
  have hk := register_all_keeps_links E post (r.run E (register_all E pre world.new))
  exact ⟨a, hk.1 _ _ h1, hk.2 _ _ h2⟩

/-! ## Tag matching, and membership in a store -/

theorem find_first_of_ne_nil_iff (a b : List String) :
    find_first_of a b ≠ [] ↔ ∃ s, s ∈ a ∧ s ∈ b := by
  induction a with
  | nil => simp [find_first_of]
  | cons x xs ih =>
    simp only [find_first_of]
    by_cases hx : x ∈ b
    · rw [if_pos hx]
      simp only [ne_eq, reduceCtorEq, not_false_eq_true, true_iff]
      exact ⟨x, List.mem_cons_self x xs, hx⟩
    · rw [if_neg hx, ih]
      constructor
      · rintro ⟨s, hs, hb⟩
        exact ⟨s, List.mem_cons_of_mem x hs, hb⟩
      · rintro ⟨s, hs, hb⟩
        rcases List.mem_cons.mp hs with h | h
        · subst h; exact absurd hb hx
        · exact ⟨s, h, hb⟩

theorem has_matching_tags_iff (a b : List String) :
    has_matching_tags a b = true ↔ ∃ s, s ∈ a ∧ s ∈ b := by
  unfold has_matching_tags
  rw [← find_first_of_ne_nil_iff]
  simp

theorem map_find_isSome_iff_mem_keys {K V : Type} [DecidableEq K] (m : std_map K V) (k : K) :
    (map_find m k).isSome = true ↔ k ∈ m.map Prod.fst := by
  induction m with
  | nil => simp [map_find]
  | cons e rest ih =>
    obtain ⟨k0, v⟩ := e
    rw [map_find_cons]
    by_cases h : k0 = k
    · subst h; simp
    · rw [if_neg h, ih]
      simp [Ne.symm h]

theorem map_insert_length {K V : Type} [std_less K] (m : std_map K V) (k : K) (v : V) :
    (map_insert k v m).length = m.length + 1 := by
  induction m with
  | nil => rfl
  | cons e rest ih =>
    obtain ⟨k0, v0⟩ := e
    simp only [map_insert]
    split
    · rfl
    · simp [ih]

/-! ## Further invariants: filenames, co-keying, flags and handles -/

theorem map_find_none_of_not_contains {K V : Type} [DecidableEq K] (m : std_map K V) (k : K)
    (h : make_contains k m = false) : map_find m k = none := by
  unfold make_contains at h
  cases hf : map_find m k with
  | none => rfl
  | some v => simp [hf] at h

theorem map_find_emplace_isSome_eq {V : Type} (m : component_list V) (id k : component_id)
    (args : component_id → V) :
    (map_find (make_emplace_id id m args).1 k).isSome
      = (decide (k = id) || (map_find m k).isSome) := by
  rw [map_find_emplace]
  by_cases h : k = id
  · simp [h]
  · simp [h]

theorem filename_indexed_stable : stable filename_indexed := by
  constructor
  · intro m id h _ _ hm id' a ha
    simp only [mark_loaded, map_find_update] at ha ⊢
    by_cases hid : id = id'
    · rw [if_pos hid] at ha
      cases hap : map_find m.asset_pool id' with
      | none => simp [hap] at ha
      | some a0 =>
        simp [hap] at ha
        subst ha
        exact hm id' a0 hap
    · rw [if_neg hid] at ha
      exact hm id' a ha
  · intro m id hm id' a ha
    simp only [mark_unloaded, map_find_update] at ha ⊢
    by_cases hid : id = id'
    · rw [if_pos hid] at ha
      cases hap : map_find m.asset_pool id' with
      | none => simp [hap] at ha
      | some a0 =>
        simp [hap] at ha
        subst ha
        exact hm id' a0 hap
    · rw [if_neg hid] at ha
      exact hm id' a ha

theorem filename_indexed_add_asset (E : externals) (m : asset_manager) (filename : String)
    (tags : List String) (load_on_demand : Bool) (hm : filename_indexed m)
    (hnew : map_find m.assets filename = none) :
    filename_indexed (add_asset E m filename tags load_on_demand) := by
  have hold : ∀ id a, map_find m.asset_pool id = some a →
      map_find (map_assign m.assets filename (E.generator m.generator)) a.filename
        = some id := by
    intro id a ha
    have hne : a.filename ≠ filename := by
      intro heq
      have := hm id a ha
      rw [heq, hnew] at this
      cases this
    rw [map_find_assign, if_neg hne]
    exact hm id a ha
  intro id a ha
  simp only [add_asset, map_find_emplace] at ha ⊢
  by_cases hid : id = E.generator m.generator
  · rw [if_pos hid] at ha
    cases hap : map_find m.asset_pool (E.generator m.generator) with
    | none =>
      simp [hap, asset_component.new] at ha
      subst ha
      simp [map_find_assign, hid]
    | some a0 =>
      simp [hap] at ha
      subst ha
      rw [hid]
      exact hold _ _ hap
  · rw [if_neg hid] at ha
    exact hold id a ha

theorem filename_indexed_register (E : externals) (w : world) (n f : String)
    (c : Option SDL_Rect) (t : List String) (l : Bool) (hm : filename_indexed w.mgr) :
    filename_indexed (register_sprite E n f c t l w).state.mgr := by
  rw [register_sprite_mgr]
  split
  · exact hm
  · split
    · exact hm
    · rename_i hnew
      exact filename_indexed_add_asset E _ _ _ _ hm hnew

theorem filename_indexed_unload_all (w : world) (hm : filename_indexed w.mgr) :
    filename_indexed (unload_all w).state.mgr := by
  intro id a ha
  rw [unload_all_asset_find] at ha
  cases hap : map_find w.mgr.asset_pool id with
  | none => simp [hap] at ha
  | some a0 =>
    simp [hap] at ha
    subst ha
    exact hm id a0 hap

theorem reachable_filename_indexed (E : externals) (w : world) (hw : reachable E w) :
    filename_indexed w.mgr :=
  reachable_invariant E filename_indexed
    (by intro id a ha; simp [asset_manager.new, map_find] at ha)
    filename_indexed_stable
    (fun w n f c t l h => filename_indexed_register E w n f c t l h)
    (fun w h => filename_indexed_unload_all w h) w hw

theorem cokeyed_stable : stable cokeyed := by
  constructor
  · intro m id h _ _ hm id'
    have := hm id'
    simpa only [make_contains, mark_loaded, map_find_update_isSome] using this
  · intro m id hm id'
    have := hm id'
    simpa only [make_contains, mark_unloaded, map_find_update_isSome] using this

theorem cokeyed_register (E : externals) (w : world) (n f : String)
    (c : Option SDL_Rect) (t : List String) (l : Bool) (hm : cokeyed w.mgr) :
    cokeyed (register_sprite E n f c t l w).state.mgr := by
  rw [register_sprite_mgr]
  split
  · exact hm
  · split
    · exact hm
    · intro id
      have := hm id
      simp only [make_contains] at this
      simp only [make_contains, add_sprite, add_asset, map_find_emplace_isSome_eq, this]

theorem cokeyed_unload_all (w : world) (hm : cokeyed w.mgr) :
    cokeyed (unload_all w).state.mgr := by
  intro id
  have := hm id
  simp only [make_contains] at this ⊢
  rw [unload_all_asset_find, unload_all_texture_find, Option.isSome_map', Option.isSome_map']
  exact this

theorem reachable_cokeyed (E : externals) (w : world) (hw : reachable E w) :
    cokeyed w.mgr :=
  reachable_invariant E cokeyed (fun _ => rfl) cokeyed_stable
    (fun w n f c t l h => cokeyed_register E w n f c t l h)
    (fun w h => cokeyed_unload_all w h) w hw

theorem loaded_implies_handle_stable : stable loaded_implies_handle := by
  constructor
  · intro m id h _ htp hm id' a ha hl
    simp only [mark_loaded, map_find_update] at ha ⊢
    by_cases hid : id = id'
    · subst hid
      cases ht : map_find m.texture_pool id with
      | none => simp [ht] at htp
      | some t => exact ⟨{ t with texture := some h }, h, by simp, rfl⟩
    · rw [if_neg hid] at ha ⊢
      exact hm id' a ha hl
  · intro m id hm id' a ha hl
    simp only [mark_unloaded, map_find_update] at ha ⊢
    by_cases hid : id = id'
    · rw [if_pos hid] at ha
      cases hap : map_find m.asset_pool id' with
      | none => simp [hap] at ha
      | some a0 =>
        simp [hap] at ha
        subst ha
        cases hl
    · rw [if_neg hid] at ha ⊢
      exact hm id' a ha hl

theorem loaded_implies_handle_add_asset (E : externals) (m : asset_manager)
    (filename : String) (tags : List String) (load_on_demand : Bool)
    (hm : loaded_implies_handle m) :
    loaded_implies_handle (add_asset E m filename tags load_on_demand) := by
  intro id a ha hl
  simp only [add_asset, map_find_emplace] at ha ⊢
  by_cases hid : id = E.generator m.generator
  · rw [if_pos hid] at ha ⊢
    cases hap : map_find m.asset_pool (E.generator m.generator) with
    | none =>
      simp [hap, asset_component.new] at ha
      subst ha
      cases hl
    | some a0 =>
      simp [hap] at ha
      subst ha
      obtain ⟨t, h, ht, hh⟩ := hm _ _ hap hl
      exact ⟨t, h, by simp [ht], hh⟩
  · rw [if_neg hid] at ha ⊢
    exact hm id a ha hl

theorem loaded_implies_handle_register (E : externals) (w : world) (n f : String)
    (c : Option SDL_Rect) (t : List String) (l : Bool) (hm : loaded_implies_handle w.mgr) :
    loaded_implies_handle (register_sprite E n f c t l w).state.mgr := by
  rw [register_sprite_mgr]
  split
  · exact hm
  · split
    · exact hm
    · exact loaded_implies_handle_add_asset E _ _ _ _ hm

theorem loaded_implies_handle_unload_all (w : world) :
    loaded_implies_handle (unload_all w).state.mgr := by
  intro id a ha hl
  rw [unload_all_asset_find] at ha
  cases hap : map_find w.mgr.asset_pool id with
  | none => simp [hap] at ha
  | some a0 =>
    simp [hap] at ha
    subst ha
    cases hl

theorem reachable_loaded_implies_handle (E : externals) (w : world) (hw : reachable E w) :
    loaded_implies_handle w.mgr :=
  reachable_invariant E loaded_implies_handle
    (by intro id a ha; simp [asset_manager.new, map_find] at ha)
    loaded_implies_handle_stable
    (fun w n f c t l h => loaded_implies_handle_register E w n f c t l h)
    (fun w _ => loaded_implies_handle_unload_all w) w hw

theorem reachable_fresh_ids (E : externals) (hE : Function.Injective E.generator) (w : world)
    (hw : reachable E w) : fresh_ids E w.mgr :=
  reachable_invariant E (fresh_ids E) (fresh_ids_new E)
    ⟨fun _ _ _ _ _ hm => ⟨hm.1, hm.2, hm.3⟩, fun _ _ hm => ⟨hm.1, hm.2, hm.3⟩⟩
    (fun w n f c t l h => fresh_ids_register E hE ⟨n, f, c, t, l⟩ w h)
    (fun _ hm => ⟨hm.1, hm.2, hm.3⟩) w hw

/-! ## The outcomes of `load_texture` and `get_sprite` when the look-ups succeed -/

theorem load_texture_fails (E : externals) (id : component_id)
    (w : world) (a : asset_component) (t : texture_component)
    (ha : map_find w.mgr.asset_pool id = some a) (ht : map_find w.mgr.texture_pool id = some t)
    (hc : (!a.is_loaded || t.texture == none) = true)
    (hl : E.load_texture w.loader_calls a.filename = none) :
    load_texture E id w
      = ⟨{ w with loader_calls := w.loader_calls + 1 }, .error .runtime_error⟩ := by
  unfold load_texture
  simp only [ha, ht, hc, if_true, hl]

theorem load_texture_result_cases (E : externals) (id : component_id)
    (w : world) (a : asset_component) (t : texture_component)
    (ha : map_find w.mgr.asset_pool id = some a)
    (ht : map_find w.mgr.texture_pool id = some t) :
    (load_texture E id w).result = .ok () ∨
      (load_texture E id w).result = .error .runtime_error := by
  unfold load_texture
  simp only [ha, ht]
  split
  · split
    · exact Or.inr rfl
    · exact Or.inl rfl
  · exact Or.inl rfl

theorem get_sprite_eq (E : externals) (w : world) (n : String)
    (s : component_id) (sp : sprite_component) (a : asset_component) (t : texture_component)
    (hs : map_find w.mgr.sprites n = some s) (hsp : map_find w.mgr.sprite_pool s = some sp)
    (ht : map_find w.mgr.texture_pool sp.texture_id = some t)
    (ha : map_find w.mgr.asset_pool sp.texture_id = some a) :
    get_sprite E n w = get_sprite_return sp t (get_sprite_branch E n sp t a w) := by
  unfold get_sprite
  simp only [hs, hsp, ht, ha]
  rfl

theorem get_sprite_branch_result_cases (E : externals) (w : world) (n : String)
    (sp : sprite_component) (a : asset_component) (t : texture_component)
    (ht : map_find w.mgr.texture_pool sp.texture_id = some t)
    (ha : map_find w.mgr.asset_pool sp.texture_id = some a) :
    (get_sprite_branch E n sp t a w).result = .ok () ∨
      (get_sprite_branch E n sp t a w).result = .error .runtime_error := by
  unfold get_sprite_branch
  split
  · exact Or.inl rfl
  · split
    · exact load_texture_result_cases E _ w a t ha ht
    · exact Or.inl rfl

theorem get_sprite_return_ok (sp : sprite_component) (t : texture_component)
    (r : outcome Unit) (hr : r.result = .ok ()) :
    ∃ tex, get_sprite_return sp t r = ⟨r.state, .ok ⟨tex, sp.clipping_rect⟩⟩ := by
  unfold get_sprite_return
  rw [hr]
  dsimp only
  split
  · exact ⟨_, rfl⟩
  · exact ⟨_, rfl⟩

theorem get_sprite_return_error (sp : sprite_component) (t : texture_component)
    (r : outcome Unit) (e : exception) (hr : r.result = .error e) :
    get_sprite_return sp t r = ⟨r.state, .error e⟩ := by
  unfold get_sprite_return
  rw [hr]

theorem get_sprite_result_cases (E : externals) (w : world) (n : String)
    (s : component_id) (sp : sprite_component) (a : asset_component) (t : texture_component)
    (hs : map_find w.mgr.sprites n = some s) (hsp : map_find w.mgr.sprite_pool s = some sp)
    (ht : map_find w.mgr.texture_pool sp.texture_id = some t)
    (ha : map_find w.mgr.asset_pool sp.texture_id = some a) :
    (∃ tex, (get_sprite E n w).result = .ok ⟨tex, sp.clipping_rect⟩) ∨
      (get_sprite E n w).result = .error .runtime_error := by
  rw [get_sprite_eq E w n s sp a t hs hsp ht ha]
  rcases get_sprite_branch_result_cases E w n sp a t ht ha with h | h
  · obtain ⟨tex, htex⟩ := get_sprite_return_ok sp t _ h
    exact Or.inl ⟨tex, by rw [htex]⟩
  · exact Or.inr (by rw [get_sprite_return_error sp t _ _ h])

theorem linked_lookups (m : asset_manager) (hm : linked m) (n : String) (s : component_id)
    (hs : map_find m.sprites n = some s) :
    ∃ sp a t, map_find m.sprite_pool s = some sp ∧
      map_find m.asset_pool sp.texture_id = some a ∧
      map_find m.texture_pool sp.texture_id = some t := by
  cases hsp : map_find m.sprite_pool s with
  | none =>
    have := hm.sprites_stored n s hs
    simp [hsp] at this
  | some sp =>
    have h2 := hm.sprite_asset_stored s sp hsp
    cases ha : map_find m.asset_pool sp.texture_id with
    | none => simp [ha] at h2
    | some a =>
      cases ht : map_find m.texture_pool sp.texture_id with
      | none => simp [ht] at h2
      | some t => exact ⟨sp, a, t, rfl, ha, ht⟩

/-! ## Sequences of calls, and the sprite record of a name -/

theorem operation_run_invariant (E : externals) (P : asset_manager → Prop) (hP : stable P)
    (hreg : ∀ (w : world) n f c t l, P w.mgr → P (register_sprite E n f c t l w).state.mgr)
    (hall : ∀ w : world, P w.mgr → P (unload_all w).state.mgr)
    (o : operation) (w : world) (h : P w.mgr) : P (o.run E w).mgr := by
  cases o with
  | register_sprite n f c t l => exact hreg _ n f c t l h
  | load_sprite n => exact load_sprite_stable hP E n _ h
  | load_asset_tags t u => exact load_asset_tags_stable hP E t u _ h
  | get_sprite n => exact get_sprite_stable hP E n _ h
  | unload_all => exact hall _ h

theorem run_all_invariant (E : externals) (P : asset_manager → Prop) (hP : stable P)
    (hreg : ∀ (w : world) n f c t l, P w.mgr → P (register_sprite E n f c t l w).state.mgr)
    (hall : ∀ w : world, P w.mgr → P (unload_all w).state.mgr)
    (ops : List operation) : ∀ w : world, P w.mgr → P (run_all E ops w).mgr := by
  induction ops with
  | nil => intro w h; exact h
  | cons o rest ih =>
    intro w h
    exact ih _ (operation_run_invariant E P hP hreg hall o w h)

theorem reachable_run_all (E : externals) (ops : List operation) :
    ∀ w : world, reachable E w → reachable E (run_all E ops w) := by
  induction ops with
  | nil => intro w h; exact h
  | cons o rest ih =>
    intro w h
    exact ih _ (reachable.call o h)

theorem sprite_kept_stable (n : String) (s : component_id) (sp : sprite_component) :
    stable (sprite_kept n s sp) :=
  ⟨fun _ _ _ _ _ h => ⟨h.1, h.2⟩, fun _ _ h => ⟨h.1, h.2⟩⟩

theorem sprite_kept_add_sprite (E : externals) (m : asset_manager) (sprite_name : String)
    (clipping_rect : Option SDL_Rect) (id_of_asset : component_id)
    (n : String) (s : component_id) (sp : sprite_component) (hn : n ≠ sprite_name)
    (h : sprite_kept n s sp m) :
    sprite_kept n s sp (add_sprite E m sprite_name clipping_rect id_of_asset) := by
  constructor
  · simp only [add_sprite, map_find_assign, if_neg hn]
    exact h.1
  · simp only [add_sprite, map_find_emplace]
    by_cases hss : s = E.generator m.generator
    · rw [if_pos hss, ← hss, h.2]
      rfl
    · rw [if_neg hss]
      exact h.2

theorem sprite_kept_register (E : externals) (n : String) (s : component_id)
    (sp : sprite_component) (w : world) (n' f : String) (c : Option SDL_Rect)
    (t : List String) (l : Bool) (h : sprite_kept n s sp w.mgr) :
    sprite_kept n s sp (register_sprite E n' f c t l w).state.mgr := by
  rw [register_sprite_mgr]
  by_cases hdup : make_contains n' w.mgr.sprites = true
  · rw [if_pos hdup]
    exact h
  · rw [if_neg hdup]
    have hn : n ≠ n' := by
      intro heq
      apply hdup
      rw [← heq]
      unfold make_contains
      rw [h.1]
      rfl
    split
    · exact sprite_kept_add_sprite E _ _ _ _ n s sp hn h
    · exact sprite_kept_add_sprite E _ _ _ _ n s sp hn ⟨h.1, h.2⟩

theorem sprite_kept_run_all (E : externals) (n : String) (s : component_id)
    (sp : sprite_component) (ops : List operation) (w : world)
    (h : sprite_kept n s sp w.mgr) : sprite_kept n s sp (run_all E ops w).mgr :=
  run_all_invariant E (sprite_kept n s sp) (sprite_kept_stable n s sp)
    (fun w n' f c t l h => sprite_kept_register E n s sp w n' f c t l h)
    (fun _ h => ⟨h.1, h.2⟩) ops w h

theorem register_new_name_kept (E : externals) (hE : Function.Injective E.generator)
    (w : world) (hm : fresh_ids E w.mgr) (n f : String) (c : Option SDL_Rect)
    (t : List String) (l : Bool) (hnew : make_contains n w.mgr.sprites = false) :
    ∃ s a, sprite_kept n s ⟨s, n, c, a⟩ (register_sprite E n f c t l w).state.mgr := by
  rw [register_sprite_mgr, if_neg (by simp [hnew])]
  have key : ∀ (m : asset_manager) (a : component_id), fresh_ids E m →
      sprite_kept n (E.generator m.generator) ⟨E.generator m.generator, n, c, a⟩
        (add_sprite E m n c a) := by
    intro m a hfresh
    have hfree := sprite_free_of_fresh E hE m hfresh
    constructor
    · simp [add_sprite, map_find_assign]
    · simp [add_sprite, map_find_emplace, hfree, sprite_component.new]
  split
  · exact ⟨_, _, key _ _ hm⟩
  · exact ⟨_, _, key _ _ (fresh_ids_add_asset E hE _ _ _ _ hm)⟩

theorem get_sprite_branch_ok (E : externals) (hE : loader_succeeds E) (w : world) (n : String)
    (sp : sprite_component) (a : asset_component) (t : texture_component)
    (ht : map_find w.mgr.texture_pool sp.texture_id = some t)
    (ha : map_find w.mgr.asset_pool sp.texture_id = some a) :
    (get_sprite_branch E n sp t a w).result = .ok () := by
  unfold get_sprite_branch
  split
  · rfl
  · split
    · exact (load_texture_result E hE _ w a t ha ht).1
    · rfl

/-! ## What an accepted registration adds -/

theorem register_sprite_accepted (E : externals) (sprite_name filename : String)
    (clipping_rect : Option SDL_Rect) (tags : List String) (load_on_demand : Bool)
    (w : world) (hnew : make_contains sprite_name w.mgr.sprites = false) :
    (register_sprite E sprite_name filename clipping_rect tags load_on_demand w).result
        = .ok () ∧
      (register_sprite E sprite_name filename clipping_rect tags load_on_demand
        w).state.loader_calls = w.loader_calls ∧
      (register_sprite E sprite_name filename clipping_rect tags load_on_demand w).state.cout
        = w.cout := by
  unfold register_sprite
  cases ha : map_find w.mgr.assets filename with
  | some a =>
    have hc : make_contains filename w.mgr.assets = true := by simp [make_contains, ha]
    simp [hnew, hc, ha, generate_id]
  | none =>
    have hc : make_contains filename w.mgr.assets = false := by simp [make_contains, ha]
    simp [hnew, hc, generate_id, map_find_assign]

theorem make_emplace_id_length {V : Type} (m : component_list V) (id : component_id)
    (args : component_id → V) (h : make_contains id m = false) :
    (make_emplace_id id m args).1.length = m.length + 1 := by
  simp [make_emplace_id, h, map_insert_length]

theorem map_assign_length {K V : Type} [DecidableEq K] [std_less K] (m : std_map K V)
    (k : K) (v : V) (h : make_contains k m = false) :
    (map_assign m k v).length = m.length + 1 := by
  simp [map_assign, h, map_insert_length]

theorem asset_free_of_fresh (E : externals) (hE : Function.Injective E.generator)
    (m : asset_manager) (hm : fresh_ids E m) (hf : filename_indexed m) :
    make_contains (E.generator m.generator) m.asset_pool = false := by
  unfold make_contains
  cases h : map_find m.asset_pool (E.generator m.generator) with
  | none => rfl
  | some a =>
    obtain ⟨k, hk, hkeq⟩ := hm.asset_ids_drawn _ _ (hf _ a h)
    have := hE hkeq
    omega

theorem make_contains_of_find_none {K V : Type} [DecidableEq K] (m : std_map K V) (k : K)
    (h : map_find m k = none) : make_contains k m = false := by
  simp [make_contains, h]

/-! ## `load_asset_tags` without unloading -/

theorem only_loads_refl (T : List String) (m : asset_manager) : only_loads T m m :=
  ⟨rfl, rfl, rfl, rfl, fun _ => Or.inl ⟨rfl, rfl⟩⟩

theorem only_loads_trans (T : List String) (m₁ m₂ m₃ : asset_manager)
    (h₁ : only_loads T m₁ m₂) (h₂ : only_loads T m₂ m₃) : only_loads T m₁ m₃ := by
  obtain ⟨ha, hs, hp, hg, h₁⟩ := h₁
  obtain ⟨ha', hs', hp', hg', h₂⟩ := h₂
  refine ⟨ha'.trans ha, hs'.trans hs, hp'.trans hp, hg'.trans hg, ?_⟩
  intro id
  rcases h₁ id with ⟨e₁, e₂⟩ | ⟨a, h, x₁, x₂, x₃, x₄, x₅⟩
  · rcases h₂ id with ⟨f₁, f₂⟩ | ⟨a, h, y₁, y₂, y₃, y₄, y₅⟩
    · exact Or.inl ⟨f₁.trans e₁, f₂.trans e₂⟩
    · exact Or.inr ⟨a, h, e₁ ▸ y₁, y₂, y₃, y₄, e₂ ▸ y₅⟩
  · rcases h₂ id with ⟨f₁, f₂⟩ | ⟨b, h', y₁, y₂, y₃, y₄, y₅⟩
    · exact Or.inr ⟨a, h, x₁, x₂, x₃, f₁.trans x₄, f₂.trans x₅⟩
    · rw [x₄] at y₁
      cases y₁
      cases y₂

theorem only_loads_mark_loaded (T : List String) (m : asset_manager) (id : component_id)
    (h : Nat) (a : asset_component) (ha : map_find m.asset_pool id = some a)
    (hl : a.is_loaded = false) (hmatch : has_matching_tags T a.tags = true) :
    only_loads T m (mark_loaded m id h) := by
  refine ⟨rfl, rfl, rfl, rfl, ?_⟩
  intro id'
  by_cases hid : id = id'
  · subst hid
    refine Or.inr ⟨a, h, ha, hl, hmatch, ?_, ?_⟩
    · simp [mark_loaded, map_find_update, ha]
    · simp [mark_loaded, map_find_update]
  · exact Or.inl ⟨by simp [mark_loaded, map_find_update, hid],
      by simp [mark_loaded, map_find_update, hid]⟩

theorem load_asset_mgr (E : externals) (filename : String) (w : world) :
    (load_asset E filename w).state.mgr = w.mgr ∨
      ∃ id a h, map_find w.mgr.assets filename = some id ∧
        map_find w.mgr.asset_pool id = some a ∧ a.is_loaded = false ∧
        (load_asset E filename w).state.mgr = mark_loaded w.mgr id h := by
  unfold load_asset
  split
  · exact Or.inl rfl
  · rename_i id hid
    split
    · exact Or.inl rfl
    · rename_i a ha
      split
      · rename_i hl
        split
        · rcases load_texture_mgr E id w with h | ⟨h, hh, _, _⟩
          · exact Or.inl h
          · exact Or.inr ⟨id, a, h, hid, ha, by simpa using hl, hh⟩
        · exact Or.inl rfl
      · exact Or.inl rfl

theorem load_image_tags_loop_only_loads (E : externals) (T : List String)
    (todo : List (String × component_id)) :
    ∀ w : world, filename_indexed w.mgr →
      only_loads T w.mgr (load_image_tags_loop E T false todo w).state.mgr := by
  induction todo with
  | nil => intro w _; exact only_loads_refl T _
  | cons asset_pair rest ih =>
    intro w hf
    simp only [load_image_tags_loop]
    split
    · exact only_loads_refl T _
    · rename_i asset hasset
      have hr : ∀ r : outcome Unit, filename_indexed r.state.mgr →
          only_loads T w.mgr r.state.mgr →
          only_loads T w.mgr (match r.result with
            | .error e => (⟨r.state, .error e⟩ : outcome Unit)
            | .ok _ => load_image_tags_loop E T false rest r.state).state.mgr := by
        intro r hfr hr
        split
        · exact hr
        · exact only_loads_trans T _ _ _ hr (ih _ hfr)
      apply hr
      · split
        · exact load_asset_stable filename_indexed_stable E _ w hf
        · simp only [Bool.false_eq_true, if_false]
          exact hf
      · split
        · rename_i hcond
          simp only [Bool.and_eq_true, Bool.not_eq_true'] at hcond
          rcases load_asset_mgr E asset.filename w with h | ⟨id, a, h, hid, ha, hl, hh⟩
          · rw [h]; exact only_loads_refl T _
          · have hid' := hf _ _ hasset
            rw [hid] at hid'
            cases hid'
            rw [hasset] at ha
            cases ha
            rw [hh]
            exact only_loads_mark_loaded T _ _ _ _ hasset hl hcond.2
        · simp only [Bool.false_eq_true, if_false]
          exact only_loads_refl T _

/-! ## Unloading one texture -/

theorem unload_texture_unloaded (id : component_id) (w : world) (a : asset_component)
    (ha : map_find w.mgr.asset_pool id = some a) (hl : a.is_loaded = false) :
    unload_texture id w = ⟨w, .ok ()⟩ := by
  unfold unload_texture
  simp only [ha, hl]
  rfl

theorem unload_texture_loaded (id : component_id) (w : world) (a : asset_component)
    (t : texture_component) (ha : map_find w.mgr.asset_pool id = some a)
    (hl : a.is_loaded = true) (ht : map_find w.mgr.texture_pool id = some t) :
    unload_texture id w = ⟨{ w with mgr := mark_unloaded w.mgr id }, .ok ()⟩ := by
  unfold unload_texture
  simp only [ha, hl, ht]
  rfl

theorem unload_texture_twice (id : component_id) (w : world) :
    unload_texture id (unload_texture id w).state = unload_texture id w := by
  cases ha : map_find w.mgr.asset_pool id with
  | none =>
    have h : unload_texture id w = ⟨w, .error .out_of_range⟩ := by
      unfold unload_texture; simp only [ha]
    rw [h]
    exact h
  | some a =>
    cases hl : a.is_loaded with
    | false =>
      rw [unload_texture_unloaded id w a ha hl]
      exact unload_texture_unloaded id w a ha hl
    | true =>
      cases ht : map_find w.mgr.texture_pool id with
      | none =>
        have h : unload_texture id w = ⟨w, .error .out_of_range⟩ := by
          unfold unload_texture; simp only [ha, hl, ht]; rfl
        rw [h]
        exact h
      | some t =>
        rw [unload_texture_loaded id w a t ha hl ht]
        exact unload_texture_unloaded id _ { a with is_loaded := false }
          (by simp [mark_unloaded, map_find_update, ha]) rfl

/-! ## Records persist -/

theorem persists_refl (m : asset_manager) : persists m m :=
  ⟨fun _ _ h => h, fun _ _ h => h, fun _ a h => ⟨a, h, rfl, rfl, rfl, rfl⟩,
    fun _ t h => ⟨t, h, rfl⟩, fun _ _ h => h⟩

theorem persists_trans (m₁ m₂ m₃ : asset_manager) (h₁ : persists m₁ m₂)
    (h₂ : persists m₂ m₃) : persists m₁ m₃ := by
  constructor
  · exact fun f a h => h₂.assets f a (h₁.assets f a h)
  · exact fun n s h => h₂.sprites n s (h₁.sprites n s h)
  · intro id a h
    obtain ⟨a', ha', e1, e2, e3, e4⟩ := h₁.asset_pool id a h
    obtain ⟨a'', ha'', f1, f2, f3, f4⟩ := h₂.asset_pool id a' ha'
    exact ⟨a'', ha'', f1.trans e1, f2.trans e2, f3.trans e3, f4.trans e4⟩
  · intro id t h
    obtain ⟨t', ht', e1⟩ := h₁.texture_pool id t h
    obtain ⟨t'', ht'', f1⟩ := h₂.texture_pool id t' ht'
    exact ⟨t'', ht'', f1.trans e1⟩
  · exact fun s sp h => h₂.sprite_pool s sp (h₁.sprite_pool s sp h)

theorem persists_update (m : asset_manager) (id : component_id)
    (fa : asset_component → asset_component) (ft : texture_component → texture_component)
    (hfa : ∀ a, (fa a).id = a.id ∧ (fa a).filename = a.filename ∧ (fa a).tags = a.tags ∧
      (fa a).load_on_demand = a.load_on_demand)
    (hft : ∀ t, (ft t).id = t.id) :
    persists m { m with
      texture_pool := map_update m.texture_pool id ft
      asset_pool := map_update m.asset_pool id fa } := by
  refine ⟨fun _ _ h => h, fun _ _ h => h, ?_, ?_, fun _ _ h => h⟩
  · intro id' a ha
    simp only [map_find_update, ha]
    by_cases hid : id = id'
    · rw [if_pos hid]
      exact ⟨fa a, rfl, (hfa a).1, (hfa a).2.1, (hfa a).2.2.1, (hfa a).2.2.2⟩
    · rw [if_neg hid]
      exact ⟨a, rfl, rfl, rfl, rfl, rfl⟩
  · intro id' t ht
    simp only [map_find_update, ht]
    by_cases hid : id = id'
    · rw [if_pos hid]
      exact ⟨ft t, rfl, hft t⟩
    · rw [if_neg hid]
      exact ⟨t, rfl, rfl⟩

theorem persists_stable (m₀ : asset_manager) : stable (persists m₀) := by
  constructor
  · intro m id h _ _ hm
    exact persists_trans _ _ _ hm
      (persists_update m id _ _ (fun _ => ⟨rfl, rfl, rfl, rfl⟩) (fun _ => rfl))
  · intro m id hm
    exact persists_trans _ _ _ hm
      (persists_update m id _ _ (fun _ => ⟨rfl, rfl, rfl, rfl⟩) (fun _ => rfl))

theorem persists_unload_all (w : world) : persists w.mgr (unload_all w).state.mgr := by
  refine ⟨fun _ _ h => h, fun _ _ h => h, ?_, ?_, fun _ _ h => h⟩
  · intro id a ha
    rw [unload_all_asset_find, ha]
    exact ⟨_, rfl, rfl, rfl, rfl, rfl⟩
  · intro id t ht
    rw [unload_all_texture_find, ht]
    exact ⟨_, rfl, rfl⟩

theorem map_find_emplace_of_some {V : Type} (m : component_list V) (id k : component_id)
    (args : component_id → V) (v : V) (h : map_find m k = some v) :
    map_find (make_emplace_id id m args).1 k = some v := by
  rw [map_find_emplace]
  by_cases hk : k = id
  · rw [if_pos hk, ← hk, h]
    rfl
  · rw [if_neg hk]
    exact h

theorem persists_add_asset (E : externals) (m : asset_manager) (filename : String)
    (tags : List String) (load_on_demand : Bool) (hnew : map_find m.assets filename = none) :
    persists m (add_asset E m filename tags load_on_demand) := by
  refine ⟨?_, fun _ _ h => h, ?_, ?_, fun _ _ h => h⟩
  · intro f a hf
    have hne : f ≠ filename := by
      intro heq
      rw [heq, hnew] at hf
      cases hf
    simp only [add_asset, map_find_assign, if_neg hne]
    exact hf
  · intro id a ha
    exact ⟨a, map_find_emplace_of_some _ _ _ _ _ ha, rfl, rfl, rfl, rfl⟩
  · intro id t ht
    exact ⟨t, map_find_emplace_of_some _ _ _ _ _ ht, rfl⟩

theorem persists_add_sprite (E : externals) (m : asset_manager) (sprite_name : String)
    (clipping_rect : Option SDL_Rect) (id_of_asset : component_id)
    (hnew : map_find m.sprites sprite_name = none) :
    persists m (add_sprite E m sprite_name clipping_rect id_of_asset) := by
  refine ⟨fun _ _ h => h, ?_, fun _ a h => ⟨a, h, rfl, rfl, rfl, rfl⟩,
    fun _ t h => ⟨t, h, rfl⟩, ?_⟩
  · intro n s hn
    have hne : n ≠ sprite_name := by
      intro heq
      rw [heq, hnew] at hn
      cases hn
    simp only [add_sprite, map_find_assign, if_neg hne]
    exact hn
  · intro s sp hs
    exact map_find_emplace_of_some _ _ _ _ _ hs

theorem persists_register (E : externals) (w : world) (n f : String)
    (c : Option SDL_Rect) (t : List String) (l : Bool) :
    persists w.mgr (register_sprite E n f c t l w).state.mgr := by
  rw [register_sprite_mgr]
  by_cases hdup : make_contains n w.mgr.sprites = true
  · rw [if_pos hdup]
    exact persists_refl _
  · rw [if_neg hdup]
    have hn : map_find w.mgr.sprites n = none :=
      map_find_none_of_not_contains _ _ (by simpa using hdup)
    split
    · exact persists_add_sprite E _ _ _ _ hn
    · rename_i hnew
      exact persists_trans _ _ _ (persists_add_asset E _ _ _ _ hnew)
        (persists_add_sprite E _ _ _ _ hn)

theorem persists_run_all (E : externals) (ops : List operation) (w : world) :
    persists w.mgr (run_all E ops w).mgr :=
  run_all_invariant E (persists w.mgr) (persists_stable w.mgr)
    (fun w' n f c t l h => persists_trans _ _ _ h (persists_register E w' n f c t l))
    (fun w' h => persists_trans _ _ _ h (persists_unload_all w')) ops w (persists_refl _)

/-! ## Asset identifiers are not sprite identifiers -/

theorem pools_disjoint_stable : stable pools_disjoint := by
  constructor
  · intro m id h _ _ hm id' hc
    have := hm id'
    simp only [make_contains, mark_loaded, map_find_update_isSome] at this hc ⊢
    exact this hc
  · intro m id hm id' hc
    have := hm id'
    simp only [make_contains, mark_unloaded, map_find_update_isSome] at this hc ⊢
    exact this hc

theorem pools_disjoint_add_asset (E : externals) (hE : Function.Injective E.generator)
    (m : asset_manager) (filename : String) (tags : List String) (load_on_demand : Bool)
    (hfresh : fresh_ids E m) (hd : pools_disjoint m) :
    pools_disjoint (add_asset E m filename tags load_on_demand) := by
  intro id hc
  simp only [make_contains, add_asset, map_find_emplace_isSome_eq, Bool.or_eq_true,
    decide_eq_true_eq] at hc ⊢
  rcases hc with hid | hold
  · rw [hid, sprite_free_of_fresh E hE m hfresh]
    rfl
  · exact hd id hold

theorem pools_disjoint_add_sprite (E : externals) (hE : Function.Injective E.generator)
    (m : asset_manager) (sprite_name : String) (clipping_rect : Option SDL_Rect)
    (id_of_asset : component_id) (hfresh : fresh_ids E m) (hf : filename_indexed m)
    (hd : pools_disjoint m) :
    pools_disjoint (add_sprite E m sprite_name clipping_rect id_of_asset) := by
  intro id hc
  have hfree := asset_free_of_fresh E hE m hfresh hf
  have hold := hd id hc
  simp only [make_contains, add_sprite, map_find_emplace_isSome_eq] at hc hold hfree ⊢
  have hne : id ≠ E.generator m.generator := by
    intro heq
    rw [heq, hfree] at hc
    cases hc
  simp [hne, hold]

theorem pools_disjoint_unload_all (w : world) (hd : pools_disjoint w.mgr) :
    pools_disjoint (unload_all w).state.mgr := by
  intro id hc
  have := hd id
  simp only [make_contains] at this hc ⊢
  rw [unload_all_asset_find, Option.isSome_map'] at hc
  exact this hc

theorem reachable_pools_disjoint (E : externals) (hE : Function.Injective E.generator)
    (w : world) (hw : reachable E w) : pools_disjoint w.mgr := by
  have h := reachable_invariant E
    (fun m => fresh_ids E m ∧ filename_indexed m ∧ pools_disjoint m)
    ⟨fresh_ids_new E, by intro id a ha; simp [asset_manager.new, map_find] at ha,
      by intro id hc; simp [asset_manager.new, make_contains, map_find] at hc⟩
    ⟨fun m id h ha ht hm =>
        ⟨⟨hm.1.1, hm.1.2, hm.1.3⟩, filename_indexed_stable.loaded m id h ha ht hm.2.1,
          pools_disjoint_stable.loaded m id h ha ht hm.2.2⟩,
      fun m id hm =>
        ⟨⟨hm.1.1, hm.1.2, hm.1.3⟩, filename_indexed_stable.unloaded m id hm.2.1,
          pools_disjoint_stable.unloaded m id hm.2.2⟩⟩
    (by
      intro w n f c t l hm
      refine ⟨fresh_ids_register E hE ⟨n, f, c, t, l⟩ w hm.1,
        filename_indexed_register E w n f c t l hm.2.1, ?_⟩
      rw [register_sprite_mgr]
      split
      · exact hm.2.2
      · split
        · exact pools_disjoint_add_sprite E hE _ _ _ _ hm.1 hm.2.1 hm.2.2
        · rename_i hnew
          exact pools_disjoint_add_sprite E hE _ _ _ _
            (fresh_ids_add_asset E hE _ _ _ _ hm.1)
            (filename_indexed_add_asset E _ _ _ _ hm.2.1 hnew)
            (pools_disjoint_add_asset E hE _ _ _ _ hm.1 hm.2.2))
    (fun w hm => ⟨⟨hm.1.1, hm.1.2, hm.1.3⟩, filename_indexed_unload_all w hm.2.1,
      pools_disjoint_unload_all w hm.2.2⟩) w hw
  exact h.2.2

theorem load_asset_of_disjoint (E : externals) (filename : String) (w : world)
    (hd : pools_disjoint w.mgr) :
    (load_asset E filename w).state.mgr = w.mgr ∧
      (load_asset E filename w).state.loader_calls = w.loader_calls ∧
      (load_asset E filename w).result ≠ .error .runtime_error ∧
      ∀ id a, map_find w.mgr.assets filename = some id →
        map_find w.mgr.asset_pool id = some a → a.is_loaded = false →
        load_asset E filename w
          = ⟨{ w with cout := w.cout ++ [warning.type_undetermined a.filename] }, .ok ()⟩ := by
  cases hf : map_find w.mgr.assets filename with
  | none =>
    have h : load_asset E filename w = ⟨w, .error .out_of_range⟩ := by
      unfold load_asset; simp only [hf]
    rw [h]
    refine ⟨rfl, rfl, by simp, ?_⟩
    intro id a h
    cases h
  | some id =>
    cases ha : map_find w.mgr.asset_pool id with
    | none =>
      have h : load_asset E filename w = ⟨w, .error .out_of_range⟩ := by
        unfold load_asset; simp only [hf, ha]
      rw [h]
      refine ⟨rfl, rfl, by simp, ?_⟩
      intro id' a h ha'
      cases h
      rw [ha] at ha'
      cases ha'
    | some a =>
      have hns : make_contains id w.mgr.sprite_pool = false :=
        hd id (by simp [make_contains, ha])
      cases hl : a.is_loaded with
      | true =>
        have h : load_asset E filename w = ⟨w, .ok ()⟩ := by
          unfold load_asset; simp only [hf, ha, hl]; rfl
        rw [h]
        refine ⟨rfl, rfl, by simp, ?_⟩
        intro id' a' h ha' hl'
        cases h
        rw [ha] at ha'
        cases ha'
        rw [hl] at hl'
        cases hl'
      | false =>
        have h : load_asset E filename w
            = ⟨{ w with cout := w.cout ++ [warning.type_undetermined a.filename] },
              .ok ()⟩ := by
          unfold load_asset; simp only [hf, ha, hl, hns]; rfl
        rw [h]
        refine ⟨rfl, rfl, by simp, ?_⟩
        intro id' a' h ha' _
        cases h
        rw [ha] at ha'
        cases ha'
        rfl

theorem unload_texture_world (id : component_id) (w : world) :
    (unload_texture id w).state = w ∨
      (unload_texture id w).state = { w with mgr := mark_unloaded w.mgr id } := by
  unfold unload_texture
  split
  · exact Or.inl rfl
  · split
    · split
      · exact Or.inl rfl
      · exact Or.inr rfl
    · exact Or.inl rfl

theorem never_loads_refl (w : world) : never_loads w w := ⟨rfl, fun _ => Or.inl rfl⟩

theorem never_loads_trans (w₁ w₂ w₃ : world) (h₁ : never_loads w₁ w₂)
    (h₂ : never_loads w₂ w₃) : never_loads w₁ w₃ := by
  refine ⟨h₂.1.trans h₁.1, ?_⟩
  intro id
  rcases h₂.2 id with e | ⟨a', ha', hl⟩
  · rcases h₁.2 id with f | ⟨a', ha', hl⟩
    · exact Or.inl (e.trans f)
    · exact Or.inr ⟨a', e.trans ha', hl⟩
  · exact Or.inr ⟨a', ha', hl⟩

theorem never_loads_unload_texture (id : component_id) (w : world) :
    never_loads w (unload_texture id w).state := by
  rcases unload_texture_world id w with e | e
  · rw [e]; exact never_loads_refl w
  · rw [e]
    refine ⟨rfl, ?_⟩
    intro id'
    simp only [mark_unloaded, map_find_update]
    by_cases hid : id = id'
    · rw [if_pos hid]
      cases ha : map_find w.mgr.asset_pool id' with
      | none => exact Or.inl rfl
      | some a => exact Or.inr ⟨_, rfl, rfl⟩
    · rw [if_neg hid]
      exact Or.inl rfl

theorem never_loads_unload_asset (filename : String) (w : world) :
    never_loads w (unload_asset filename w).state := by
  unfold unload_asset
  split
  · exact never_loads_refl w
  · exact never_loads_unload_texture _ w

theorem load_image_tags_loop_never_loads (E : externals) (T : List String) (u : Bool)
    (todo : List (String × component_id)) :
    ∀ w : world, pools_disjoint w.mgr →
      never_loads w (load_image_tags_loop E T u todo w).state := by
  induction todo with
  | nil => intro w _; exact never_loads_refl w
  | cons asset_pair rest ih =>
    intro w hd
    simp only [load_image_tags_loop]
    split
    · exact never_loads_refl w
    · rename_i asset hasset
      have hr : ∀ r : outcome Unit, pools_disjoint r.state.mgr → never_loads w r.state →
          never_loads w (match r.result with
            | .error e => (⟨r.state, .error e⟩ : outcome Unit)
            | .ok _ => load_image_tags_loop E T u rest r.state).state := by
        intro r hdr hr
        split
        · exact hr
        · exact never_loads_trans _ _ _ hr (ih _ hdr)
      apply hr
      · split
        · exact load_asset_stable pools_disjoint_stable E _ w hd
        · split
          · exact unload_asset_stable pools_disjoint_stable _ w hd
          · exact hd
      · split
        · have h := load_asset_of_disjoint E asset.filename w hd
          exact ⟨h.2.1, fun id => Or.inl (by rw [h.1])⟩
        · split
          · exact never_loads_unload_asset _ w
          · exact never_loads_refl w

/-! ## Keys occur once -/

theorem map_update_keys {K V : Type} [DecidableEq K] (m : std_map K V) (k : K) (f : V → V) :
    (map_update m k f).map Prod.fst = m.map Prod.fst := by
  induction m with
  | nil => rfl
  | cons e rest ih =>
    unfold map_update at ih ⊢
    simp only [List.map_cons, ih]
    congr 1
    split <;> rfl

theorem map_insert_mem_keys {K V : Type} [std_less K] (m : std_map K V) (k k' : K) (v : V) :
    k' ∈ (map_insert k v m).map Prod.fst ↔ k' = k ∨ k' ∈ m.map Prod.fst := by
  induction m with
  | nil => simp [map_insert]
  | cons e rest ih =>
    obtain ⟨k0, v0⟩ := e
    simp only [map_insert]
    split
    · simp
    · simp only [List.map_cons, List.mem_cons, ih]
      tauto

theorem map_insert_keys_nodup {K V : Type} [std_less K] (m : std_map K V) (k : K) (v : V)
    (hk : k ∉ m.map Prod.fst) (hm : (m.map Prod.fst).Nodup) :
    ((map_insert k v m).map Prod.fst).Nodup := by
  induction m with
  | nil => simp [map_insert]
  | cons e rest ih =>
    obtain ⟨k0, v0⟩ := e
    simp only [List.map_cons, List.mem_cons, not_or] at hk
    simp only [List.map_cons, List.nodup_cons] at hm
    simp only [map_insert]
    split
    · simp only [List.map_cons, List.nodup_cons, List.mem_cons, not_or]
      exact ⟨⟨hk.1, hk.2⟩, hm.1, hm.2⟩
    · simp only [List.map_cons, List.nodup_cons, map_insert_mem_keys, not_or]
      exact ⟨⟨fun h => hk.1 h.symm, hm.1⟩, ih hk.2 hm.2⟩

theorem not_mem_keys_of_not_contains {K V : Type} [DecidableEq K] (m : std_map K V) (k : K)
    (h : make_contains k m = false) : k ∉ m.map Prod.fst := by
  intro hmem
  have := (map_find_isSome_iff_mem_keys m k).mpr hmem
  unfold make_contains at h
  rw [h] at this
  cases this

theorem make_emplace_id_keys_nodup {V : Type} (m : component_list V) (id : component_id)
    (args : component_id → V) (hm : (m.map Prod.fst).Nodup) :
    ((make_emplace_id id m args).1.map Prod.fst).Nodup := by
  unfold make_emplace_id
  cases hc : make_contains id m with
  | true => simpa using hm
  | false =>
    simp only [Bool.false_eq_true, if_false]
    exact map_insert_keys_nodup m id _ (not_mem_keys_of_not_contains m id hc) hm

theorem map_assign_keys_nodup {K V : Type} [DecidableEq K] [std_less K] (m : std_map K V)
    (k : K) (v : V) (hm : (m.map Prod.fst).Nodup) :
    ((map_assign m k v).map Prod.fst).Nodup := by
  unfold map_assign
  cases hc : make_contains k m with
  | true =>
    simp only [if_true]
    have := map_update_keys m k (fun _ => v)
    unfold map_update at this
    rw [this]
    exact hm
  | false =>
    simp only [Bool.false_eq_true, if_false]
    exact map_insert_keys_nodup m k v (not_mem_keys_of_not_contains m k hc) hm

theorem keys_unique_stable : stable keys_unique := by
  constructor
  · intro m id h _ _ hm
    exact ⟨hm.assets, by simpa only [mark_loaded, map_update_keys] using hm.asset_pool,
      by simpa only [mark_loaded, map_update_keys] using hm.texture_pool⟩
  · intro m id hm
    exact ⟨hm.assets, by simpa only [mark_unloaded, map_update_keys] using hm.asset_pool,
      by simpa only [mark_unloaded, map_update_keys] using hm.texture_pool⟩

theorem keys_unique_register (E : externals) (w : world) (n f : String)
    (c : Option SDL_Rect) (t : List String) (l : Bool) (hm : keys_unique w.mgr) :
    keys_unique (register_sprite E n f c t l w).state.mgr := by
  rw [register_sprite_mgr]
  split
  · exact hm
  · split
    · exact ⟨hm.assets, hm.asset_pool, hm.texture_pool⟩
    · exact ⟨map_assign_keys_nodup _ _ _ hm.assets,
        make_emplace_id_keys_nodup _ _ _ hm.asset_pool,
        make_emplace_id_keys_nodup _ _ _ hm.texture_pool⟩

theorem keys_unique_unload_all (w : world) (hm : keys_unique w.mgr) :
    keys_unique (unload_all w).state.mgr := by
  refine ⟨hm.assets, ?_, ?_⟩
  · simpa [unload_all, List.map_map, Function.comp_def] using hm.asset_pool
  · simpa [unload_all, List.map_map, Function.comp_def] using hm.texture_pool

theorem reachable_keys_unique (E : externals) (w : world) (hw : reachable E w) :
    keys_unique w.mgr :=
  reachable_invariant E keys_unique
    ⟨by simp [asset_manager.new], by simp [asset_manager.new], by simp [asset_manager.new]⟩
    keys_unique_stable
    (fun w n f c t l h => keys_unique_register E w n f c t l h)
    (fun w h => keys_unique_unload_all w h) w hw

theorem map_find_of_mem {K V : Type} [DecidableEq K] (m : std_map K V) (k : K) (v : V)
    (hm : (m.map Prod.fst).Nodup) (h : (k, v) ∈ m) : map_find m k = some v := by
  induction m with
  | nil => cases h
  | cons e rest ih =>
    obtain ⟨k0, v0⟩ := e
    simp only [List.map_cons, List.nodup_cons] at hm
    rw [map_find_cons]
    rcases List.mem_cons.mp h with heq | hrest
    · cases heq
      simp
    · have hne : k0 ≠ k := by
        intro heq
        apply hm.1
        rw [heq]
        exact List.mem_map_of_mem Prod.fst hrest
      rw [if_neg hne]
      exact ih hm.2 hrest

theorem mem_of_map_find {K V : Type} [DecidableEq K] (m : std_map K V) (k : K) (v : V)
    (h : map_find m k = some v) : (k, v) ∈ m := by
  induction m with
  | nil => cases h
  | cons e rest ih =>
    obtain ⟨k0, v0⟩ := e
    rw [map_find_cons] at h
    by_cases hk : k0 = k
    · rw [if_pos hk] at h
      cases h
      rw [hk]
      exact List.mem_cons_self _ _
    · rw [if_neg hk] at h
      exact List.mem_cons_of_mem _ (ih h)

theorem map_eq_of_find_eq {K V : Type} [DecidableEq K] :
    ∀ l₁ l₂ : std_map K V, l₁.map Prod.fst = l₂.map Prod.fst → (l₁.map Prod.fst).Nodup →
      (∀ k, map_find l₁ k = map_find l₂ k) → l₁ = l₂ := by
  intro l₁
  induction l₁ with
  | nil =>
    intro l₂ hk _ _
    cases l₂ with
    | nil => rfl
    | cons e r => cases hk
  | cons e₁ r₁ ih =>
    intro l₂ hk hn hf
    cases l₂ with
    | nil => cases hk
    | cons e₂ r₂ =>
      obtain ⟨k₁, v₁⟩ := e₁
      obtain ⟨k₂, v₂⟩ := e₂
      simp only [List.map_cons, List.cons.injEq] at hk
      obtain ⟨hk12, hkr⟩ := hk
      subst hk12
      simp only [List.map_cons, List.nodup_cons] at hn
      have hv : v₁ = v₂ := by
        have := hf k₁
        simpa [map_find_cons] using this
      subst hv
      congr 1
      apply ih r₂ hkr hn.2
      intro k
      by_cases hkk : k₁ = k
      · subst hkk
        have h1 : map_find r₁ k₁ = none := by
          cases h : map_find r₁ k₁ with
          | none => rfl
          | some v =>
            exact absurd ((map_find_isSome_iff_mem_keys r₁ k₁).mp (by simp [h])) hn.1
        have h2 : map_find r₂ k₁ = none := by
          cases h : map_find r₂ k₁ with
          | none => rfl
          | some v =>
            exact absurd (hkr ▸ (map_find_isSome_iff_mem_keys r₂ k₁).mp (by simp [h])) hn.1
        rw [h1, h2]
      · have := hf k
        simpa [map_find_cons, hkk] using this

/-! ## `load_asset_tags` with no tags and `unload_remaining` -/

theorem only_unloads_refl (m : asset_manager) : only_unloads m m :=
  ⟨rfl, rfl, rfl, rfl, rfl, rfl, fun _ => Or.inl ⟨rfl, rfl⟩⟩

theorem only_unloads_trans (m₁ m₂ m₃ : asset_manager) (h₁ : only_unloads m₁ m₂)
    (h₂ : only_unloads m₂ m₃) : only_unloads m₁ m₃ := by
  refine ⟨h₂.assets.trans h₁.assets, h₂.sprites.trans h₁.sprites,
    h₂.sprite_pool.trans h₁.sprite_pool, h₂.generator.trans h₁.generator,
    h₂.asset_keys.trans h₁.asset_keys, h₂.texture_keys.trans h₁.texture_keys, ?_⟩
  intro id
  rcases h₁.records id with ⟨e₁, e₂⟩ | ⟨e₁, e₂⟩ <;>
    rcases h₂.records id with ⟨f₁, f₂⟩ | ⟨f₁, f₂⟩
  · exact Or.inl ⟨f₁.trans e₁, f₂.trans e₂⟩
  · exact Or.inr ⟨by rw [f₁, e₁], by rw [f₂, e₂]⟩
  · exact Or.inr ⟨f₁.trans e₁, f₂.trans e₂⟩
  · refine Or.inr ⟨?_, ?_⟩
    · rw [f₁, e₁]
      cases map_find m₁.asset_pool id <;> rfl
    · rw [f₂, e₂]
      cases map_find m₁.texture_pool id <;> rfl

theorem only_unloads_mark_unloaded (m : asset_manager) (id : component_id) :
    only_unloads m (mark_unloaded m id) := by
  refine ⟨rfl, rfl, rfl, rfl, by simp only [mark_unloaded, map_update_keys],
    by simp only [mark_unloaded, map_update_keys], ?_⟩
  intro id'
  simp only [mark_unloaded, map_find_update]
  by_cases hid : id = id'
  · rw [if_pos hid, if_pos hid]
    exact Or.inr ⟨rfl, rfl⟩
  · rw [if_neg hid, if_neg hid]
    exact Or.inl ⟨rfl, rfl⟩

theorem only_unloads_isSome (m m' : asset_manager) (h : only_unloads m m')
    (id : component_id) :
    (map_find m'.asset_pool id).isSome = (map_find m.asset_pool id).isSome := by
  rcases h.records id with ⟨e, _⟩ | ⟨e, _⟩
  · rw [e]
  · rw [e]
    cases map_find m.asset_pool id <;> rfl

theorem only_unloads_keeps_unloaded (m m' : asset_manager) (h : only_unloads m m')
    (id : component_id)
    (hu : ∀ a, map_find m.asset_pool id = some a → a.is_loaded = false) :
    ∀ a', map_find m'.asset_pool id = some a' → a'.is_loaded = false := by
  intro a' ha'
  rcases h.records id with ⟨e, _⟩ | ⟨e, _⟩
  · exact hu a' (e ▸ ha')
  · rw [e] at ha'
    cases hm : map_find m.asset_pool id with
    | none => simp [hm] at ha'
    | some a =>
      simp [hm] at ha'
      subst ha'
      rfl

theorem unload_asset_of_record (w : world) (id : component_id) (a : asset_component)
    (hf : filename_indexed w.mgr) (hc : cokeyed w.mgr)
    (ha : map_find w.mgr.asset_pool id = some a) :
    (unload_asset a.filename w).result = .ok () ∧
      (unload_asset a.filename w).state.loader_calls = w.loader_calls ∧
      (unload_asset a.filename w).state.cout = w.cout ∧
      only_unloads w.mgr (unload_asset a.filename w).state.mgr ∧
      ∀ a', map_find (unload_asset a.filename w).state.mgr.asset_pool id = some a' →
        a'.is_loaded = false := by
  have hu : unload_asset a.filename w = unload_texture id w := by
    unfold unload_asset
    simp only [hf id a ha]
  rw [hu]
  cases hl : a.is_loaded with
  | false =>
    rw [unload_texture_unloaded id w a ha hl]
    refine ⟨rfl, rfl, rfl, only_unloads_refl _, ?_⟩
    intro a' ha'
    rw [ha] at ha'
    cases ha'
    exact hl
  | true =>
    have hk := hc id
    simp only [make_contains, ha, Option.isSome_some] at hk
    cases ht : map_find w.mgr.texture_pool id with
    | none => simp [ht] at hk
    | some t =>
      rw [unload_texture_loaded id w a t ha hl ht]
      refine ⟨rfl, rfl, rfl, only_unloads_mark_unloaded _ _, ?_⟩
      intro a' ha'
      simp [mark_unloaded, map_find_update, ha] at ha'
      subst ha'
      rfl

theorem load_image_tags_loop_cons_no_tags (E : externals) (p : String × component_id)
    (rest : List (String × component_id)) (w : world) (a : asset_component)
    (ha : map_find w.mgr.asset_pool p.2 = some a) :
    load_image_tags_loop E [] true (p :: rest) w =
      match (unload_asset a.filename w).result with
      | .error e => ⟨(unload_asset a.filename w).state, .error e⟩
      | .ok _ => load_image_tags_loop E [] true rest (unload_asset a.filename w).state := by
  simp only [load_image_tags_loop, ha]
  simp [has_matching_tags, find_first_of]

theorem load_image_tags_loop_unloads (E : externals) (todo : List (String × component_id)) :
    ∀ w : world, filename_indexed w.mgr → cokeyed w.mgr →
      (∀ e ∈ todo, (map_find w.mgr.asset_pool e.2).isSome = true) →
      (load_image_tags_loop E [] true todo w).result = .ok () ∧
        (load_image_tags_loop E [] true todo w).state.loader_calls = w.loader_calls ∧
        (load_image_tags_loop E [] true todo w).state.cout = w.cout ∧
        only_unloads w.mgr (load_image_tags_loop E [] true todo w).state.mgr ∧
        ∀ e ∈ todo, ∀ a',
          map_find (load_image_tags_loop E [] true todo w).state.mgr.asset_pool e.2 = some a' →
          a'.is_loaded = false := by
  induction todo with
  | nil =>
    intro w _ _ _
    exact ⟨rfl, rfl, rfl, only_unloads_refl _, fun e he => by cases he⟩
  | cons p rest ih =>
    intro w hf hc hstored
    have hp := hstored p (List.mem_cons_self _ _)
    cases ha : map_find w.mgr.asset_pool p.2 with
    | none => simp [ha] at hp
    | some a =>
      obtain ⟨hres, hcalls, hcout, hrel, hdone⟩ := unload_asset_of_record w p.2 a hf hc ha
      rw [load_image_tags_loop_cons_no_tags E p rest w a ha, hres]
      dsimp only
      have hstored' : ∀ e ∈ rest,
          (map_find (unload_asset a.filename w).state.mgr.asset_pool e.2).isSome = true := by
        intro e he
        rw [only_unloads_isSome _ _ hrel]
        exact hstored e (List.mem_cons_of_mem _ he)
      obtain ⟨ires, icalls, icout, irel, idone⟩ := ih (unload_asset a.filename w).state
        (unload_asset_stable filename_indexed_stable _ w hf)
        (unload_asset_stable cokeyed_stable _ w hc) hstored'
      refine ⟨ires, icalls.trans hcalls, icout.trans hcout,
        only_unloads_trans _ _ _ hrel irel, ?_⟩
      intro e he
      rcases List.mem_cons.mp he with heq | hrest
      · rw [heq]
        exact only_unloads_keeps_unloaded _ _ irel p.2 hdone
      · exact idone e hrest

theorem asset_manager_eq (m m' : asset_manager) (h₁ : m.asset_pool = m'.asset_pool)
    (h₂ : m.texture_pool = m'.texture_pool) (h₃ : m.sprite_pool = m'.sprite_pool)
    (h₄ : m.generator = m'.generator) (h₅ : m.assets = m'.assets)
    (h₆ : m.sprites = m'.sprites) : m = m' := by
  cases m
  cases m'
  simp only [asset_manager.mk.injEq]
  exact ⟨h₁, h₂, h₃, h₄, h₅, h₆⟩

theorem outcome_eq {α : Type} (r r' : outcome α) (h₁ : r.state.mgr = r'.state.mgr)
    (h₂ : r.state.loader_calls = r'.state.loader_calls) (h₃ : r.state.cout = r'.state.cout)
    (h₄ : r.result = r'.result) : r = r' := by
  obtain ⟨⟨m, c, o⟩, res⟩ := r
  obtain ⟨⟨m', c', o'⟩, res'⟩ := r'
  simp only at h₁ h₂ h₃ h₄
  subst h₁ h₂ h₃ h₄
  rfl

/-! ## The render system: queries and draw calls -/

theorem queried_append (a b : List render_event) :
    queried (a ++ b) = queried a ++ queried b := by
  induction a with
  | nil => rfl
  | cons e rest ih => cases e <;> simp [queried, ih]

theorem drawn_append (a b : List render_event) : drawn (a ++ b) = drawn a ++ drawn b := by
  induction a with
  | nil => rfl
  | cons e rest ih => cases e <;> simp [drawn, ih]

theorem update_loop_spec {F : Type} (C : float_casts F) (E : externals)
    (R : Nat → Texture_ptr → Option SDL_Rect → Option SDL_Rect → Bool)
    (pools : game_component_manager F)
    (entries : List (component_id × components.render_component)) :
    ∀ (assets : world) (copies : Nat),
      (∃ rest, queried (update_loop C E R pools entries assets copies).events ++ rest
          = visible_sprites pools entries) ∧
        ((update_loop C E R pools entries assets copies).result = .ok () →
          queried (update_loop C E R pools entries assets copies).events
              = visible_sprites pools entries ∧
            drawn (update_loop C E R pools entries assets copies).events
              = (visible_sprites pools entries).map Prod.fst) ∧
        ((∀ n t c d, R n t c d = false) →
          render_event.error_rendering ∉
            (update_loop C E R pools entries assets copies).events) := by
  induction entries with
  | nil =>
    intro assets copies
    exact ⟨⟨[], rfl⟩, fun _ => ⟨rfl, rfl⟩, fun _ h => by cases h⟩
  | cons value rest ih =>
    intro assets copies
    cases hv : value.2.is_visible with
    | false =>
      have h1 : update_loop C E R pools (value :: rest) assets copies
          = update_loop C E R pools rest assets copies := by
        simp [update_loop, hv]
      have h2 : visible_sprites pools (value :: rest) = visible_sprites pools rest := by
        simp [visible_sprites, hv]
      rw [h1, h2]
      exact ih assets copies
    | true =>
      cases hs : map_find pools.sprite_pool value.1 with
      | none =>
        have h1 : update_loop C E R pools (value :: rest) assets copies
            = update_loop C E R pools rest assets copies := by
          simp [update_loop, hv, make_contains, hs]
        have h2 : visible_sprites pools (value :: rest) = visible_sprites pools rest := by
          simp [visible_sprites, hv, hs]
        rw [h1, h2]
        exact ih assets copies
      | some sc =>
        have h2 : visible_sprites pools (value :: rest)
            = (value.1, sc.sprite_name) :: visible_sprites pools rest := by
          simp [visible_sprites, hv, hs]
        rw [h2]
        cases hr : (get_sprite E sc.sprite_name assets).result with
        | error e =>
          have h1 : update_loop C E R pools (value :: rest) assets copies
              = ⟨(get_sprite E sc.sprite_name assets).state,
                  [render_event.get_sprite value.1 sc.sprite_name], .error e⟩ := by
            simp [update_loop, hv, make_contains, hs, hr]
          rw [h1]
          refine ⟨⟨visible_sprites pools rest, rfl⟩, ?_, ?_⟩
          · intro h
            cases h
          · intro _ h
            simp at h
        | ok sa =>
          obtain ⟨⟨tl, htl⟩, hok, herr⟩ :=
            ih (get_sprite E sc.sprite_name assets).state (copies + 1)
          have h1 : update_loop C E R pools (value :: rest) assets copies
              = ⟨(update_loop C E R pools rest (get_sprite E sc.sprite_name assets).state
                    (copies + 1)).assets,
                  [render_event.get_sprite value.1 sc.sprite_name,
                    render_event.render_copy value.1 sa.texture sa.clipping_rect
                      (form_rect C pools value.1)]
                    ++ (if R copies sa.texture sa.clipping_rect (form_rect C pools value.1)
                        then [render_event.error_rendering] else [])
                    ++ (update_loop C E R pools rest (get_sprite E sc.sprite_name assets).state
                      (copies + 1)).events,
                  (update_loop C E R pools rest (get_sprite E sc.sprite_name assets).state
                    (copies + 1)).result⟩ := by
            simp [update_loop, hv, make_contains, hs, hr]
          rw [h1]
          have hq : ∀ tail : List render_event,
              queried ([render_event.get_sprite value.1 sc.sprite_name,
                  render_event.render_copy value.1 sa.texture sa.clipping_rect
                    (form_rect C pools value.1)]
                ++ (if R copies sa.texture sa.clipping_rect (form_rect C pools value.1)
                    then [render_event.error_rendering] else [])
                ++ tail) = (value.1, sc.sprite_name) :: queried tail := by
            intro tail
            split <;> simp [queried]
          have hd : ∀ tail : List render_event,
              drawn ([render_event.get_sprite value.1 sc.sprite_name,
                  render_event.render_copy value.1 sa.texture sa.clipping_rect
                    (form_rect C pools value.1)]
                ++ (if R copies sa.texture sa.clipping_rect (form_rect C pools value.1)
                    then [render_event.error_rendering] else [])
                ++ tail) = value.1 :: drawn tail := by
            intro tail
            split <;> simp [drawn]
          dsimp only
          refine ⟨⟨tl, ?_⟩, ?_, ?_⟩
          · rw [hq, List.cons_append, htl]
          · intro h
            obtain ⟨e1, e2⟩ := hok h
            constructor
            · rw [hq, e1]
            · rw [hd, e2, List.map_cons]
          · intro hR h
            have := herr hR
            simp [hR] at h
            exact this h

theorem update_loop_eq_draw_entities {F : Type} (C : float_casts F) (E : externals)
    (R : Nat → Texture_ptr → Option SDL_Rect → Option SDL_Rect → Bool)
    (pools : game_component_manager F)
    (entries : List (component_id × components.render_component)) :
    ∀ (assets : world) (copies : Nat),
      update_loop C E R pools entries assets copies
        = draw_entities C E R pools (visible_sprites pools entries) assets copies := by
  induction entries with
  | nil => intro assets copies; rfl
  | cons value rest ih =>
    intro assets copies
    cases hv : value.2.is_visible with
    | false =>
      have h1 : update_loop C E R pools (value :: rest) assets copies
          = update_loop C E R pools rest assets copies := by
        simp [update_loop, hv]
      have h2 : visible_sprites pools (value :: rest) = visible_sprites pools rest := by
        simp [visible_sprites, hv]
      rw [h1, h2]
      exact ih assets copies
    | true =>
      cases hs : map_find pools.sprite_pool value.1 with
      | none =>
        have h1 : update_loop C E R pools (value :: rest) assets copies
            = update_loop C E R pools rest assets copies := by
          simp [update_loop, hv, make_contains, hs]
        have h2 : visible_sprites pools (value :: rest) = visible_sprites pools rest := by
          simp [visible_sprites, hv, hs]
        rw [h1, h2]
        exact ih assets copies
      | some sc =>
        have h2 : visible_sprites pools (value :: rest)
            = (value.1, sc.sprite_name) :: visible_sprites pools rest := by
          simp [visible_sprites, hv, hs]
        rw [h2]
        cases hr : (get_sprite E sc.sprite_name assets).result with
        | error e =>
          simp [update_loop, draw_entities, hv, make_contains, hs, hr]
        | ok sa =>
          simp [update_loop, draw_entities, hv, make_contains, hs, hr, ih]

theorem error_lines_exact_append_present
    (R : Nat → Texture_ptr → Option SDL_Rect → Option SDL_Rect → Bool)
    (l : List render_event) :
    ∀ (copies : Nat) (due : Bool),
      error_lines_exact R copies due (l ++ [render_event.render_present])
        = error_lines_exact R copies due l := by
  induction l with
  | nil => intro copies due; simp [error_lines_exact]
  | cons e rest ih =>
    intro copies due
    cases e <;> simp [error_lines_exact, ih]

theorem draw_entities_error_lines {F : Type} (C : float_casts F) (E : externals)
    (R : Nat → Texture_ptr → Option SDL_Rect → Option SDL_Rect → Bool)
    (pools : game_component_manager F) (entities : List (component_id × String)) :
    ∀ (assets : world) (copies : Nat),
      error_lines_exact R copies false
        (draw_entities C E R pools entities assets copies).events = true := by
  induction entities with
  | nil => intro assets copies; rfl
  | cons entity rest ih =>
    intro assets copies
    cases hr : (get_sprite E entity.2 assets).result with
    | error e => simp [draw_entities, hr, error_lines_exact]
    | ok view =>
      have := ih (get_sprite E entity.2 assets).state (copies + 1)
      cases hR : R copies view.texture view.clipping_rect (form_rect C pools entity.1) <;>
        simp [draw_entities, hr, error_lines_exact, hR, this]

theorem draw_entities_throws {F : Type} (C : float_casts F) (E : externals)
    (R : Nat → Texture_ptr → Option SDL_Rect → Option SDL_Rect → Bool)
    (pools : game_component_manager F) (entities : List (component_id × String)) :
    ∀ (assets : world) (copies : Nat) (e : exception),
      (draw_entities C E R pools entities assets copies).result = .error e →
      ∃ pre id n, (draw_entities C E R pools entities assets copies).events
          = pre ++ [render_event.get_sprite id n] ∧
        drawn pre = (queried pre).map Prod.fst := by
  induction entities with
  | nil =>
    intro assets copies e h
    cases h
  | cons entity rest ih =>
    intro assets copies e h
    cases hr : (get_sprite E entity.2 assets).result with
    | error e' =>
      refine ⟨[], entity.1, entity.2, ?_, rfl⟩
      simp [draw_entities, hr]
    | ok view =>
      have htail : (draw_entities C E R pools rest (get_sprite E entity.2 assets).state
          (copies + 1)).result = .error e := by
        simpa [draw_entities, hr] using h
      obtain ⟨pre, id, n, hev, hdq⟩ := ih _ _ e htail
      refine ⟨[render_event.get_sprite entity.1 entity.2,
          render_event.render_copy entity.1 view.texture view.clipping_rect
            (form_rect C pools entity.1)]
          ++ (if R copies view.texture view.clipping_rect (form_rect C pools entity.1)
              then [render_event.error_rendering] else []) ++ pre, id, n, ?_, ?_⟩
      · simp [draw_entities, hr, hev]
      · split <;> simp [drawn, queried, drawn_append, queried_append, hdq]

theorem get_sprite_of_registered (E : externals) (hE : loader_succeeds E) (w : world)
    (hw : reachable E w) (n : String) (hn : make_contains n w.mgr.sprites = true) :
    ∃ view, (get_sprite E n w).result = .ok view := by
  unfold make_contains at hn
  cases hs : map_find w.mgr.sprites n with
  | none => simp [hs] at hn
  | some s =>
    obtain ⟨sp, a, t, hsp, ha, ht⟩ := linked_lookups w.mgr (reachable_linked E w hw) n s hs
    rw [get_sprite_eq E w n s sp a t hs hsp ht ha]
    obtain ⟨tex, htex⟩ := get_sprite_return_ok sp t _ (get_sprite_branch_ok E hE w n sp a t ht ha)
    exact ⟨_, by rw [htex]⟩

theorem draw_entities_returns {F : Type} (C : float_casts F) (E : externals)
    (hE : loader_succeeds E)
    (R : Nat → Texture_ptr → Option SDL_Rect → Option SDL_Rect → Bool)
    (pools : game_component_manager F) (entities : List (component_id × String)) :
    ∀ (assets : world) (copies : Nat), reachable E assets →
      (∀ p ∈ entities, make_contains p.2 assets.mgr.sprites = true) →
      (draw_entities C E R pools entities assets copies).result = .ok () := by
  induction entities with
  | nil => intro assets copies _ _; rfl
  | cons entity rest ih =>
    intro assets copies hreach hreg
    obtain ⟨view, hview⟩ := get_sprite_of_registered E hE assets hreach entity.2
      (hreg entity (List.mem_cons_self _ _))
    have hkeep : (get_sprite E entity.2 assets).state.mgr.sprites = assets.mgr.sprites :=
      get_sprite_stable (P := fun m => m.sprites = assets.mgr.sprites)
        ⟨fun _ _ _ _ _ h => h, fun _ _ h => h⟩ E entity.2 assets rfl
    have htail := ih (get_sprite E entity.2 assets).state (copies + 1)
      (reachable.call (operation.get_sprite entity.2) hreach)
      (fun p hp => by rw [hkeep]; exact hreg p (List.mem_cons_of_mem _ hp))
    simp [draw_entities, hview, htail]

/-! ## The claims -/

/-- C1: with a generator that never returns an identifier twice, after any sequence of
`register_sprite` calls on a new manager, two calls that were not rejected (their sprite
name was not yet in the sprite index) leave sprites whose `texture_id` is the entry of
the asset index for their filename, and these two asset identifiers are equal exactly
when the two filenames are equal. -/
theorem C1_same_asset_iff_same_filename (E : externals)
    (hE : Function.Injective E.generator) (rs pre₁ post₁ pre₂ post₂ : List registration)
    (r₁ r₂ : registration) (h₁ : rs = pre₁ ++ r₁ :: post₁) (h₂ : rs = pre₂ ++ r₂ :: post₂)
    (hnew₁ : make_contains r₁.sprite_name (register_all E pre₁ world.new).mgr.sprites = false)
    (hnew₂ : make_contains r₂.sprite_name (register_all E pre₂ world.new).mgr.sprites = false) :
    ∃ a₁ a₂,
      sprite_texture_id (register_all E rs world.new).mgr r₁.sprite_name = some a₁ ∧
      map_find (register_all E rs world.new).mgr.assets r₁.filename = some a₁ ∧
      sprite_texture_id (register_all E rs world.new).mgr r₂.sprite_name = some a₂ ∧
      map_find (register_all E rs world.new).mgr.assets r₂.filename = some a₂ ∧
      (a₁ = a₂ ↔ r₁.filename = r₂.filename) := by
  obtain ⟨a₁, hs₁, hf₁⟩ := register_all_links E hE pre₁ r₁ post₁ hnew₁
  obtain ⟨a₂, hs₂, hf₂⟩ := register_all_links E hE pre₂ r₂ post₂ hnew₂
  rw [← h₁] at hs₁ hf₁
  rw [← h₂] at hs₂ hf₂
  have hfresh := fresh_ids_register_all E hE rs world.new (fresh_ids_new E)
  refine ⟨a₁, a₂, hs₁, hf₁, hs₂, hf₂, ?_, ?_⟩
  · intro h
    subst h
    exact hfresh.assets_injective _ _ _ hf₁ hf₂
  · intro h
    rw [h, hf₂] at hf₁
    cases hf₁
    rfl

theorem C1_same_asset_iff_same_filename_witness :
    ∃ a₁ a₂,
      sprite_texture_id (register_all example_externals example_registrations world.new).mgr
        "b" = some a₁ ∧
      map_find (register_all example_externals example_registrations world.new).mgr.assets
        "x.png" = some a₁ ∧
      sprite_texture_id (register_all example_externals example_registrations world.new).mgr
        "c" = some a₂ ∧
      map_find (register_all example_externals example_registrations world.new).mgr.assets
        "y.png" = some a₂ ∧
      (a₁ = a₂ ↔ "x.png" = "y.png") :=
  C1_same_asset_iff_same_filename example_externals (fun _ _ h => h) example_registrations
    [⟨"a", "x.png", none, [], false⟩] [⟨"c", "y.png", none, [], false⟩]
    [⟨"a", "x.png", none, [], false⟩, ⟨"b", "x.png", none, ["t"], true⟩] []
    ⟨"b", "x.png", none, ["t"], true⟩ ⟨"c", "y.png", none, [], false⟩ rfl rfl
    (by decide) (by decide)

/-- C2: registering a sprite name that is already in the sprite index changes nothing
in the manager (both indices, the three stores and the generator are as before), makes
no loader call, returns normally and prints exactly the "already exists" warning,
whatever filename, clipping rectangle, tags and flag are passed. -/
theorem C2_register_existing_name_is_noop (E : externals) (w : world)
    (sprite_name filename : String) (clipping_rect : Option SDL_Rect) (tags : List String)
    (load_on_demand : Bool) (h : make_contains sprite_name w.mgr.sprites = true) :
    (register_sprite E sprite_name filename clipping_rect tags load_on_demand w).state.mgr
        = w.mgr ∧
      (register_sprite E sprite_name filename clipping_rect tags load_on_demand
        w).state.loader_calls = w.loader_calls ∧
      (register_sprite E sprite_name filename clipping_rect tags load_on_demand w).state.cout
        = w.cout ++ [warning.sprite_exists sprite_name] ∧
      (register_sprite E sprite_name filename clipping_rect tags load_on_demand w).result
        = .ok () := by
  unfold register_sprite
  simp [h]

theorem C2_register_existing_name_is_noop_witness :
    make_contains "background" example_registered.mgr.sprites = true ∧
      (register_sprite example_externals "background" "other.png" none ["x"] true
        example_registered).state.mgr = example_registered.mgr :=
  ⟨by decide,
    (C2_register_existing_name_is_noop example_externals example_registered "background"
      "other.png" none ["x"] true (by decide)).1⟩

/-- C3, evaluated at a failing input: in the reachable state with one registered,
unloaded asset `"bg.png"` tagged `{"bg", "level1"}`, the call
`load_asset_tags({"level1"}, true)` with a succeeding loader returns normally, calls no
loader, prints the "cannot be determined" warning and leaves the asset with
`is_loaded = false` and a null handle, although its tags match. -/
theorem C3_matching_asset_is_not_loaded :
    reachable example_externals example_registered ∧
      map_find example_registered.mgr.assets "bg.png" = some 0 ∧
      map_find example_registered.mgr.asset_pool 0
        = some ⟨0, "bg.png", ["bg", "level1"], false, false⟩ ∧
      has_matching_tags ["level1"] ["bg", "level1"] = true ∧
      (load_asset_tags example_externals ["level1"] true example_registered).state
        = { example_registered with cout := [warning.type_undetermined "bg.png"] } ∧
      map_find (load_asset_tags example_externals ["level1"] true
        example_registered).state.mgr.asset_pool 0
        = some ⟨0, "bg.png", ["bg", "level1"], false, false⟩ ∧
      map_find (load_asset_tags example_externals ["level1"] true
        example_registered).state.mgr.texture_pool 0 = some ⟨0, none⟩ :=
  ⟨reachable.call _ reachable.new, by decide, by decide, by decide, by decide, by decide,
    by decide⟩

/-- C4, evaluated on the scenario: after `"bg.png"` is registered with tags
`{"bg", "level1"}` and `load_asset_tags({"level1"})` is called, the asset is still
unloaded and no loader call was made; at the end of the scenario both `"bg.png"` and
`"fg.png"` are unloaded.  And an asset that is loaded (here by `load_sprite`) and whose
tags intersect the requested ones is unloaded by `load_asset_tags({"level1"}, true)`. -/
theorem C4_scenario_leaves_asset_unloaded :
    map_find example_scenario_first.mgr.asset_pool 0
        = some ⟨0, "bg.png", ["bg", "level1"], false, false⟩ ∧
      example_scenario_first.loader_calls = 0 ∧
      map_find example_scenario.mgr.assets "bg.png" = some 0 ∧
      map_find example_scenario.mgr.assets "fg.png" = some 2 ∧
      map_find example_scenario.mgr.asset_pool 0
        = some ⟨0, "bg.png", ["bg", "level1"], false, false⟩ ∧
      map_find example_scenario.mgr.asset_pool 2 = some ⟨2, "fg.png", ["fg"], false, false⟩ ∧
      map_find example_loaded.mgr.asset_pool 0
        = some ⟨0, "bg.png", ["bg", "level1"], true, false⟩ ∧
      map_find (load_asset_tags example_externals ["level1"] true
        example_loaded).state.mgr.asset_pool 0
        = some ⟨0, "bg.png", ["bg", "level1"], false, false⟩ ∧
      map_find (load_asset_tags example_externals ["level1"] true
        example_loaded).state.mgr.texture_pool 0 = some ⟨0, none⟩ := by
  refine ⟨?_, ?_, ?_, ?_, ?_, ?_, ?_, ?_, ?_⟩ <;> decide

/-- C5: in a reachable state, for a registered sprite whose asset has
`load_on_demand = false` and a loader that succeeds, `load_sprite` returns normally and
the following `get_sprite` returns a view with a non-null handle, which is the handle
stored in the texture store under the sprite's asset identifier. -/
theorem C5_load_sprite_then_get_sprite (E : externals) (hE : loader_succeeds E) (w : world)
    (hw : reachable E w) (n : String) (s : component_id) (sp : sprite_component)
    (a : asset_component)
    (hs : map_find w.mgr.sprites n = some s) (hsp : map_find w.mgr.sprite_pool s = some sp)
    (ha : map_find w.mgr.asset_pool sp.texture_id = some a)
    (hlod : a.load_on_demand = false) :
    (load_sprite E n w).result = .ok () ∧
      ∃ h t', (get_sprite E n (load_sprite E n w).state).result
            = .ok ⟨some h, sp.clipping_rect⟩ ∧
        map_find (get_sprite E n (load_sprite E n w).state).state.mgr.texture_pool
            sp.texture_id = some t' ∧
        t'.texture = some h := by
  have hl := reachable_linked E w hw
  cases ht : map_find w.mgr.texture_pool sp.texture_id with
  | none =>
    have := (hl.sprite_asset_stored s sp hsp).2
    simp [ht] at this
  | some t =>
    rw [load_sprite_eq_load_texture E w n s sp hs hsp]
    obtain ⟨hres, hsprites, hpool, hasset, h, htex⟩ :=
      load_texture_result E hE sp.texture_id w a t ha ht
    have hget := get_sprite_nondeferred_live E (load_texture E sp.texture_id w).state n s sp
      { a with is_loaded := true } { t with texture := some h } h
      (by rw [hsprites]; exact hs) (by rw [hpool]; exact hsp) htex hasset hlod rfl
    refine ⟨hres, h, { t with texture := some h }, ?_, ?_, rfl⟩
    · rw [hget]
    · rw [hget]; exact htex

theorem C5_load_sprite_then_get_sprite_witness :
    (load_sprite example_externals "background" example_registered).result = .ok () ∧
      ∃ h t', (get_sprite example_externals "background"
            (load_sprite example_externals "background" example_registered).state).result
            = .ok ⟨some h, none⟩ ∧
        map_find (get_sprite example_externals "background"
            (load_sprite example_externals "background"
              example_registered).state).state.mgr.texture_pool 0 = some t' ∧
        t'.texture = some h :=
  C5_load_sprite_then_get_sprite example_externals (fun _ _ => rfl) example_registered
    (reachable.call _ reachable.new) "background" 1 ⟨1, "background", none, 0⟩
    ⟨0, "bg.png", ["bg", "level1"], false, false⟩ (by decide) (by decide) (by decide) rfl

/-- C6: in a reachable state, for a registered sprite whose asset has
`load_on_demand = true` and a loader that succeeds, `get_sprite` (with no `load_sprite`
before it) returns a view with a non-null handle and leaves the asset with
`is_loaded = true`; the same holds when `get_sprite` is called right after
`unload_all`. -/
theorem C6_get_sprite_loads_on_demand (E : externals) (hE : loader_succeeds E) (w : world)
    (hw : reachable E w) (n : String) (s : component_id) (sp : sprite_component)
    (a : asset_component)
    (hs : map_find w.mgr.sprites n = some s) (hsp : map_find w.mgr.sprite_pool s = some sp)
    (ha : map_find w.mgr.asset_pool sp.texture_id = some a)
    (hlod : a.load_on_demand = true) :
    (∃ h, (get_sprite E n w).result = .ok ⟨some h, sp.clipping_rect⟩ ∧
        ∃ a', map_find (get_sprite E n w).state.mgr.asset_pool sp.texture_id = some a' ∧
          a'.is_loaded = true) ∧
      (∃ h, (get_sprite E n (unload_all w).state).result = .ok ⟨some h, sp.clipping_rect⟩ ∧
        ∃ a', map_find (get_sprite E n (unload_all w).state).state.mgr.asset_pool
            sp.texture_id = some a' ∧
          a'.is_loaded = true) := by
  have hl := reachable_linked E w hw
  cases ht : map_find w.mgr.texture_pool sp.texture_id with
  | none =>
    have := (hl.sprite_asset_stored s sp hsp).2
    simp [ht] at this
  | some t =>
    constructor
    · exact get_sprite_deferred_loads E hE w n s sp a t hs hsp ht ha hlod
    · exact get_sprite_deferred_loads E hE (unload_all w).state n s sp
        { a with is_loaded := false } { t with texture := none } hs hsp
        (by rw [unload_all_texture_find, ht]; rfl)
        (by rw [unload_all_asset_find, ha]; rfl) hlod

theorem C6_get_sprite_loads_on_demand_witness :
    (∃ h, (get_sprite example_externals "lazy" example_deferred).result
          = .ok ⟨some h, none⟩ ∧
        ∃ a', map_find (get_sprite example_externals "lazy"
            example_deferred).state.mgr.asset_pool 0 = some a' ∧
          a'.is_loaded = true) ∧
      (∃ h, (get_sprite example_externals "lazy" (unload_all example_deferred).state).result
          = .ok ⟨some h, none⟩ ∧
        ∃ a', map_find (get_sprite example_externals "lazy"
            (unload_all example_deferred).state).state.mgr.asset_pool 0 = some a' ∧
          a'.is_loaded = true) :=
  C6_get_sprite_loads_on_demand example_externals (fun _ _ => rfl) example_deferred
    (reachable.call _ reachable.new) "lazy" 1 ⟨1, "lazy", none, 0⟩
    ⟨0, "fx.png", ["fx"], false, true⟩ (by decide) (by decide) (by decide) rfl

/-- C7: for a registered sprite whose asset has `load_on_demand = false`, `get_sprite`
on an empty texture handle returns normally with a null-handle view, prints the
"not loaded correctly" warning, calls no loader and leaves the manager as it was; in
particular this is what it does in the state right after `unload_all`. -/
theorem C7_get_sprite_on_empty_handle (E : externals) (w : world) (n : String)
    (s : component_id) (sp : sprite_component) (a : asset_component) (t : texture_component)
    (hs : map_find w.mgr.sprites n = some s) (hsp : map_find w.mgr.sprite_pool s = some sp)
    (ht : map_find w.mgr.texture_pool sp.texture_id = some t)
    (ha : map_find w.mgr.asset_pool sp.texture_id = some a)
    (hlod : a.load_on_demand = false) :
    (t.texture = none →
        get_sprite E n w =
          ⟨{ w with cout := w.cout ++ [warning.not_loaded_correctly n] },
            .ok ⟨none, sp.clipping_rect⟩⟩) ∧
      get_sprite E n (unload_all w).state =
        ⟨{ (unload_all w).state with cout := w.cout ++ [warning.not_loaded_correctly n] },
          .ok ⟨none, sp.clipping_rect⟩⟩ := by
  constructor
  · intro hnull
    exact get_sprite_nondeferred_null E w n s sp a t hs hsp ht ha hlod hnull
  · exact get_sprite_nondeferred_null E (unload_all w).state n s sp
      { a with is_loaded := false } { t with texture := none } hs hsp
      (by rw [unload_all_texture_find, ht]; rfl)
      (by rw [unload_all_asset_find, ha]; rfl) hlod rfl

theorem C7_get_sprite_on_empty_handle_witness :
    get_sprite example_externals "background" (unload_all example_loaded).state =
      ⟨{ (unload_all example_loaded).state with
          cout := example_loaded.cout ++ [warning.not_loaded_correctly "background"] },
        .ok ⟨none, none⟩⟩ :=
  (C7_get_sprite_on_empty_handle example_externals example_loaded "background" 1
    ⟨1, "background", none, 0⟩ ⟨0, "bg.png", ["bg", "level1"], true, false⟩ ⟨0, some 100⟩
    (by decide) (by decide) (by decide) (by decide) rfl).2

/-- C8: in a reachable state, for a registered sprite name and a loader that succeeds,
`load_sprite` returns normally, and a second `load_sprite` returns normally and leaves
exactly the state the first one left: the same manager, hence the same texture handle,
and the same count of loader calls.  After the first call the sprite's asset has
`is_loaded = true` and a non-null handle. -/
theorem C8_load_sprite_idempotent (E : externals) (hE : loader_succeeds E) (w : world)
    (hw : reachable E w) (n : String) (s : component_id)
    (hs : map_find w.mgr.sprites n = some s) :
    (load_sprite E n w).result = .ok () ∧
      load_sprite E n (load_sprite E n w).state = ⟨(load_sprite E n w).state, .ok ()⟩ ∧
      ∃ sp a t h, map_find (load_sprite E n w).state.mgr.sprite_pool s = some sp ∧
        map_find (load_sprite E n w).state.mgr.asset_pool sp.texture_id = some a ∧
        a.is_loaded = true ∧
        map_find (load_sprite E n w).state.mgr.texture_pool sp.texture_id = some t ∧
        t.texture = some h := by
  have hl := reachable_linked E w hw
  cases hsp : map_find w.mgr.sprite_pool s with
  | none =>
    have := hl.sprites_stored n s hs
    simp [hsp] at this
  | some sp =>
    cases ha : map_find w.mgr.asset_pool sp.texture_id with
    | none =>
      have := (hl.sprite_asset_stored s sp hsp).1
      simp [ha] at this
    | some a =>
      cases ht : map_find w.mgr.texture_pool sp.texture_id with
      | none =>
        have := (hl.sprite_asset_stored s sp hsp).2
        simp [ht] at this
      | some t =>
        rw [load_sprite_eq_load_texture E w n s sp hs hsp]
        obtain ⟨hres, hsprites, hpool, hasset, h, htex⟩ :=
          load_texture_result E hE sp.texture_id w a t ha ht
        refine ⟨hres, ?_, sp, _, _, h, by rw [hpool]; exact hsp, hasset, rfl, htex, rfl⟩
        rw [load_sprite_eq_load_texture E _ n s sp (by rw [hsprites]; exact hs)
          (by rw [hpool]; exact hsp)]
        exact load_texture_skips E sp.texture_id _ _ _ hasset htex rfl

theorem C8_load_sprite_idempotent_witness :
    (load_sprite example_externals "background" example_registered).result = .ok () ∧
      load_sprite example_externals "background"
          (load_sprite example_externals "background" example_registered).state
        = ⟨(load_sprite example_externals "background" example_registered).state, .ok ()⟩ ∧
      ∃ sp a t h,
        map_find (load_sprite example_externals "background"
          example_registered).state.mgr.sprite_pool 1 = some sp ∧
        map_find (load_sprite example_externals "background"
          example_registered).state.mgr.asset_pool sp.texture_id = some a ∧
        a.is_loaded = true ∧
        map_find (load_sprite example_externals "background"
          example_registered).state.mgr.texture_pool sp.texture_id = some t ∧
        t.texture = some h :=
  C8_load_sprite_idempotent example_externals (fun _ _ => rfl) example_registered
    (reachable.call _ reachable.new) "background" 1 (by decide)

/-- C9: after `unload_all` every entry of the texture store has a null handle and every
entry of the asset store has `is_loaded = false`; the keys of the stores, the sprite
store, both name indices, the generator, and every asset's id, filename, tags and
`load_on_demand` are as before; the call returns normally, calls no loader and prints
nothing. -/
theorem C9_unload_all_effect (w : world) :
    (∀ e ∈ (unload_all w).state.mgr.texture_pool, e.2.texture = none) ∧
      (∀ e ∈ (unload_all w).state.mgr.asset_pool, e.2.is_loaded = false) ∧
      (unload_all w).state.mgr.texture_pool.map (fun e => (e.1, e.2.id))
        = w.mgr.texture_pool.map (fun e => (e.1, e.2.id)) ∧
      (unload_all w).state.mgr.asset_pool.map
          (fun e => (e.1, e.2.id, e.2.filename, e.2.tags, e.2.load_on_demand))
        = w.mgr.asset_pool.map
          (fun e => (e.1, e.2.id, e.2.filename, e.2.tags, e.2.load_on_demand)) ∧
      (unload_all w).state.mgr.sprite_pool = w.mgr.sprite_pool ∧
      (unload_all w).state.mgr.assets = w.mgr.assets ∧
      (unload_all w).state.mgr.sprites = w.mgr.sprites ∧
      (unload_all w).state.mgr.generator = w.mgr.generator ∧
      (unload_all w).state.loader_calls = w.loader_calls ∧
      (unload_all w).state.cout = w.cout ∧
      (unload_all w).result = .ok () := by
  refine ⟨?_, ?_, ?_, ?_, rfl, rfl, rfl, rfl, rfl, rfl, rfl⟩
  · intro e he
    simp only [unload_all, List.mem_map] at he
    obtain ⟨e0, _, rfl⟩ := he
    rfl
  · intro e he
    simp only [unload_all, List.mem_map] at he
    obtain ⟨e0, _, rfl⟩ := he
    rfl
  · simp [unload_all, List.map_map, Function.comp_def]
  · simp [unload_all, List.map_map, Function.comp_def]

/-- C10: in every state reachable from a new manager by the public calls, with any
generator and any loader (failing calls included), a non-null handle in the texture
store under an identifier means the asset store holds an asset under the same
identifier with `is_loaded = true`. -/
theorem C10_live_handle_implies_loaded (E : externals) (w : world) (hw : reachable E w)
    (id : component_id) (t : texture_component)
    (ht : map_find w.mgr.texture_pool id = some t) (hne : t.texture ≠ none) :
    ∃ a, map_find w.mgr.asset_pool id = some a ∧ a.is_loaded = true :=
  reachable_handle_implies_loaded E w hw id t ht hne

theorem C10_live_handle_implies_loaded_witness :
    ∃ a, map_find example_loaded.mgr.asset_pool 0 = some a ∧ a.is_loaded = true :=
  C10_live_handle_implies_loaded example_externals example_loaded
    (reachable.call _ (reachable.call _ reachable.new)) 0 ⟨0, some 100⟩
    (by decide) (by decide)

/-- C11: `has_matching_tags(a, b)` is true exactly when some string is an element of
both lists (equality of whole strings); so it is symmetric, it is the same for lists
with the same elements whatever their order and repetitions, and it is false when
either list is empty. -/
theorem C11_has_matching_tags_is_overlap (a b a' b' : List String)
    (ha : ∀ s, s ∈ a ↔ s ∈ a') (hb : ∀ s, s ∈ b ↔ s ∈ b') :
    (has_matching_tags a b = true ↔ ∃ s, s ∈ a ∧ s ∈ b) ∧
      has_matching_tags a b = has_matching_tags b a ∧
      has_matching_tags a b = has_matching_tags a' b' ∧
      has_matching_tags [] b = false ∧
      has_matching_tags a [] = false := by
  have key : ∀ x y x' y' : List String, (∀ s, s ∈ x ↔ s ∈ x') → (∀ s, s ∈ y ↔ s ∈ y') →
      has_matching_tags x y = has_matching_tags x' y' := by
    intro x y x' y' hx hy
    rw [Bool.eq_iff_iff, has_matching_tags_iff, has_matching_tags_iff]
    constructor
    · rintro ⟨s, h1, h2⟩; exact ⟨s, (hx s).mp h1, (hy s).mp h2⟩
    · rintro ⟨s, h1, h2⟩; exact ⟨s, (hx s).mpr h1, (hy s).mpr h2⟩
  refine ⟨has_matching_tags_iff a b, ?_, key a b a' b' ha hb, rfl, ?_⟩
  · rw [Bool.eq_iff_iff, has_matching_tags_iff, has_matching_tags_iff]
    constructor
    · rintro ⟨s, h1, h2⟩; exact ⟨s, h2, h1⟩
    · rintro ⟨s, h1, h2⟩; exact ⟨s, h2, h1⟩
  · rw [Bool.eq_false_iff, Ne, has_matching_tags_iff]
    rintro ⟨s, _, h2⟩
    cases h2

theorem C11_has_matching_tags_is_overlap_witness :
    (has_matching_tags ["level1", "bg", "level1"] ["fg", "level1"] = true ↔
        ∃ s, s ∈ ["level1", "bg", "level1"] ∧ s ∈ ["fg", "level1"]) ∧
      has_matching_tags ["level1", "bg", "level1"] ["fg", "level1"]
        = has_matching_tags ["fg", "level1"] ["level1", "bg", "level1"] ∧
      has_matching_tags ["level1", "bg", "level1"] ["fg", "level1"]
        = has_matching_tags ["bg", "level1"] ["level1", "fg", "fg"] ∧
      has_matching_tags [] ["fg", "level1"] = false ∧
      has_matching_tags ["level1", "bg", "level1"] [] = false :=
  C11_has_matching_tags_is_overlap ["level1", "bg", "level1"] ["fg", "level1"]
    ["bg", "level1"] ["level1", "fg", "fg"] (by intro s; simp; tauto) (by intro s; simp; tauto)

/-- C12: for a name that is not a key of the sprite index, `load_sprite` and
`get_sprite` each throw `out_of_range` and leave the whole world as it was: the manager
is unchanged, the loader is not called and nothing is printed. -/
theorem C12_unknown_sprite_name_is_not_found (E : externals) (w : world) (n : String)
    (h : make_contains n w.mgr.sprites = false) :
    load_sprite E n w = ⟨w, .error .out_of_range⟩ ∧
      get_sprite E n w = ⟨w, .error .out_of_range⟩ := by
  have hn : map_find w.mgr.sprites n = none := by
    unfold make_contains at h
    cases hf : map_find w.mgr.sprites n with
    | none => rfl
    | some s => simp [hf] at h
  constructor
  · unfold load_sprite; simp only [hn]
  · unfold get_sprite; simp only [hn]

theorem C12_unknown_sprite_name_is_not_found_witness :
    load_sprite example_externals "front" example_registered
        = ⟨example_registered, .error .out_of_range⟩ ∧
      get_sprite example_externals "front" example_registered
        = ⟨example_registered, .error .out_of_range⟩ :=
  C12_unknown_sprite_name_is_not_found example_externals example_registered "front"
    (by decide)

/-- C13: in a reachable state, with a generator that never repeats, registering a
sprite name that is not in the sprite index on a filename that is not in the asset
index returns normally and draws two identifiers `a` and `s`, different from each
other and not yet keys of any store.  The asset store gains exactly the record
`(a, filename, tags, is_loaded = false, load_on_demand)` under `a`, the texture store
the record `(a, null)` under `a`, the sprite store the record
`(s, sprite_name, clip, texture_id = a)` under `s`; the asset index gains
`filename ↦ a` and the sprite index `sprite_name ↦ s`; every other key of the five maps
keeps its entry; no loader is called and nothing is printed. -/
theorem C13_register_new_sprite_on_new_file (E : externals)
    (hE : Function.Injective E.generator) (w : world) (hw : reachable E w)
    (n f : String) (c : Option SDL_Rect) (t : List String) (l : Bool)
    (hn : make_contains n w.mgr.sprites = false) (hf : make_contains f w.mgr.assets = false)
    (R : outcome Unit) (hR : R = register_sprite E n f c t l w)
    (a s : component_id) (ha : a = E.generator w.mgr.generator)
    (hs : s = E.generator (w.mgr.generator + 1)) :
    (R.result = .ok () ∧ R.state.loader_calls = w.loader_calls ∧ R.state.cout = w.cout ∧
        R.state.mgr.generator = w.mgr.generator + 2 ∧ a ≠ s) ∧
      (make_contains a w.mgr.asset_pool = false ∧
        map_find R.state.mgr.asset_pool a = some ⟨a, f, t, false, l⟩ ∧
        (∀ k, k ≠ a → map_find R.state.mgr.asset_pool k = map_find w.mgr.asset_pool k) ∧
        R.state.mgr.asset_pool.length = w.mgr.asset_pool.length + 1) ∧
      (make_contains a w.mgr.texture_pool = false ∧
        map_find R.state.mgr.texture_pool a = some ⟨a, none⟩ ∧
        (∀ k, k ≠ a → map_find R.state.mgr.texture_pool k = map_find w.mgr.texture_pool k) ∧
        R.state.mgr.texture_pool.length = w.mgr.texture_pool.length + 1) ∧
      (make_contains s w.mgr.sprite_pool = false ∧
        map_find R.state.mgr.sprite_pool s = some ⟨s, n, c, a⟩ ∧
        (∀ k, k ≠ s → map_find R.state.mgr.sprite_pool k = map_find w.mgr.sprite_pool k) ∧
        R.state.mgr.sprite_pool.length = w.mgr.sprite_pool.length + 1) ∧
      ((∀ f', map_find R.state.mgr.assets f'
          = if f' = f then some a else map_find w.mgr.assets f') ∧
        R.state.mgr.assets.length = w.mgr.assets.length + 1) ∧
      ((∀ n', map_find R.state.mgr.sprites n'
          = if n' = n then some s else map_find w.mgr.sprites n') ∧
        R.state.mgr.sprites.length = w.mgr.sprites.length + 1) := by
  have hfresh := reachable_fresh_ids E hE w hw
  have hfa := map_find_none_of_not_contains _ _ hf
  have hmgr : R.state.mgr = add_sprite E (add_asset E w.mgr f t l) n c a := by
    rw [hR, register_sprite_mgr, if_neg (by simp [hn]), hfa, ha]
  have hacc := register_sprite_accepted E n f c t l w hn
  have hfree_a : make_contains a w.mgr.asset_pool = false := by
    rw [ha]
    exact asset_free_of_fresh E hE w.mgr hfresh (reachable_filename_indexed E w hw)
  have hfree_t : make_contains a w.mgr.texture_pool = false := by
    rw [← reachable_cokeyed E w hw a]
    exact hfree_a
  have hfree_s : make_contains s w.mgr.sprite_pool = false := by
    rw [hs]
    exact make_contains_of_find_none _ _
      (sprite_free_of_fresh E hE _ (fresh_ids_add_asset E hE w.mgr f t l hfresh))
  have hne : a ≠ s := by
    rw [ha, hs]
    intro h
    have := hE h
    omega
  refine ⟨⟨?_, ?_, ?_, ?_, hne⟩, ⟨hfree_a, ?_, ?_, ?_⟩, ⟨hfree_t, ?_, ?_, ?_⟩,
    ⟨hfree_s, ?_, ?_, ?_⟩, ⟨?_, ?_⟩, ⟨?_, ?_⟩⟩
  · rw [hR]; exact hacc.1
  · rw [hR]; exact hacc.2.1
  · rw [hR]; exact hacc.2.2
  · rw [hmgr]; rfl
  · rw [hmgr]
    simp only [add_sprite, add_asset]
    rw [← ha, map_find_emplace, if_pos rfl, map_find_none_of_not_contains _ _ hfree_a]
    rfl
  · intro k hk
    rw [hmgr]
    simp only [add_sprite, add_asset]
    rw [← ha, map_find_emplace, if_neg hk]
  · rw [hmgr]
    simp only [add_sprite, add_asset]
    rw [← ha]
    exact make_emplace_id_length _ _ _ hfree_a
  · rw [hmgr]
    simp only [add_sprite, add_asset]
    rw [← ha, map_find_emplace, if_pos rfl, map_find_none_of_not_contains _ _ hfree_t]
    rfl
  · intro k hk
    rw [hmgr]
    simp only [add_sprite, add_asset]
    rw [← ha, map_find_emplace, if_neg hk]
  · rw [hmgr]
    simp only [add_sprite, add_asset]
    rw [← ha]
    exact make_emplace_id_length _ _ _ hfree_t
  · rw [hmgr]
    simp only [add_sprite, add_asset]
    rw [← hs, map_find_emplace, if_pos rfl, map_find_none_of_not_contains _ _ hfree_s]
    rfl
  · intro k hk
    rw [hmgr]
    simp only [add_sprite, add_asset]
    rw [← hs, map_find_emplace, if_neg hk]
  · rw [hmgr]
    simp only [add_sprite, add_asset]
    rw [← hs]
    exact make_emplace_id_length _ _ _ hfree_s
  · intro f'
    rw [hmgr]
    simp only [add_sprite, add_asset]
    rw [← ha, map_find_assign]
  · rw [hmgr]
    simp only [add_sprite, add_asset]
    exact map_assign_length _ _ _ hf
  · intro n'
    rw [hmgr]
    simp only [add_sprite, add_asset]
    rw [← hs, map_find_assign]
  · rw [hmgr]
    simp only [add_sprite, add_asset]
    exact map_assign_length _ _ _ hn

theorem C13_register_new_sprite_on_new_file_witness :
    map_find (register_sprite example_externals "front" "fg.png" none ["fg"] false
        example_registered).state.mgr.asset_pool 2 = some ⟨2, "fg.png", ["fg"], false, false⟩ ∧
      map_find (register_sprite example_externals "front" "fg.png" none ["fg"] false
        example_registered).state.mgr.sprite_pool 3 = some ⟨3, "front", none, 2⟩ :=
  have h := C13_register_new_sprite_on_new_file example_externals (fun _ _ h => h)
    example_registered (reachable.call _ reachable.new) "front" "fg.png" none ["fg"] false
    (by decide) (by decide) _ rfl 2 3 rfl rfl
  ⟨h.2.1.2.1, h.2.2.2.1.2.1⟩

/-- C14: in a reachable state, with a generator that never repeats, registering a new
sprite name on a filename that is already in the asset index returns normally and
leaves the asset index, the asset store and the texture store exactly as they were,
whatever tags and flag are passed.  It draws one identifier `s`, not yet a key of the
sprite store, under which the sprite store gains the record
`(s, sprite_name, clip, texture_id = assets[filename])`; the sprite index gains
`sprite_name ↦ s`; every other key of these two maps keeps its entry. -/
theorem C14_register_new_sprite_on_known_file (E : externals)
    (hE : Function.Injective E.generator) (w : world) (hw : reachable E w)
    (n f : String) (c : Option SDL_Rect) (t : List String) (l : Bool)
    (hn : make_contains n w.mgr.sprites = false) (a : component_id)
    (hf : map_find w.mgr.assets f = some a)
    (R : outcome Unit) (hR : R = register_sprite E n f c t l w)
    (s : component_id) (hs : s = E.generator w.mgr.generator) :
    (R.result = .ok () ∧ R.state.loader_calls = w.loader_calls ∧ R.state.cout = w.cout ∧
        R.state.mgr.generator = w.mgr.generator + 1) ∧
      (R.state.mgr.assets = w.mgr.assets ∧ R.state.mgr.asset_pool = w.mgr.asset_pool ∧
        R.state.mgr.texture_pool = w.mgr.texture_pool) ∧
      (make_contains s w.mgr.sprite_pool = false ∧
        map_find R.state.mgr.sprite_pool s = some ⟨s, n, c, a⟩ ∧
        (∀ k, k ≠ s → map_find R.state.mgr.sprite_pool k = map_find w.mgr.sprite_pool k) ∧
        R.state.mgr.sprite_pool.length = w.mgr.sprite_pool.length + 1) ∧
      ((∀ n', map_find R.state.mgr.sprites n'
          = if n' = n then some s else map_find w.mgr.sprites n') ∧
        R.state.mgr.sprites.length = w.mgr.sprites.length + 1) := by
  have hfresh := reachable_fresh_ids E hE w hw
  have hmgr : R.state.mgr = add_sprite E w.mgr n c a := by
    rw [hR, register_sprite_mgr, if_neg (by simp [hn]), hf]
  have hacc := register_sprite_accepted E n f c t l w hn
  have hfree_s : make_contains s w.mgr.sprite_pool = false := by
    rw [hs]
    exact make_contains_of_find_none _ _ (sprite_free_of_fresh E hE _ hfresh)
  refine ⟨⟨?_, ?_, ?_, ?_⟩, ⟨?_, ?_, ?_⟩, ⟨hfree_s, ?_, ?_, ?_⟩, ⟨?_, ?_⟩⟩
  · rw [hR]; exact hacc.1
  · rw [hR]; exact hacc.2.1
  · rw [hR]; exact hacc.2.2
  · rw [hmgr]; rfl
  · rw [hmgr]; rfl
  · rw [hmgr]; rfl
  · rw [hmgr]; rfl
  · rw [hmgr]
    simp only [add_sprite]
    rw [← hs, map_find_emplace, if_pos rfl, map_find_none_of_not_contains _ _ hfree_s]
    rfl
  · intro k hk
    rw [hmgr]
    simp only [add_sprite]
    rw [← hs, map_find_emplace, if_neg hk]
  · rw [hmgr]
    simp only [add_sprite]
    rw [← hs]
    exact make_emplace_id_length _ _ _ hfree_s
  · intro n'
    rw [hmgr]
    simp only [add_sprite]
    rw [← hs, map_find_assign]
  · rw [hmgr]
    simp only [add_sprite]
    exact map_assign_length _ _ _ hn

theorem C14_register_new_sprite_on_known_file_witness :
    (register_sprite example_externals "hero" "bg.png" (some ⟨1, 2, 3, 4⟩) ["other"] true
        example_loaded).state.mgr.asset_pool = example_loaded.mgr.asset_pool ∧
      map_find (register_sprite example_externals "hero" "bg.png" (some ⟨1, 2, 3, 4⟩)
        ["other"] true example_loaded).state.mgr.sprite_pool 2
        = some ⟨2, "hero", some ⟨1, 2, 3, 4⟩, 0⟩ :=
  have h := C14_register_new_sprite_on_known_file example_externals (fun _ _ h => h)
    example_loaded (reachable.call _ (reachable.call _ reachable.new)) "hero" "bg.png"
    (some ⟨1, 2, 3, 4⟩) ["other"] true (by decide) 0 (by decide) _ rfl 2 rfl
  ⟨h.2.1.2.1, h.2.2.1.2.1⟩

/-- C15: `make_contains(k)(m)` is true exactly when `k` is a key of `m`.  When `k` is
not a key, `make_emplace_id(k)(m, args)` reports success and adds one entry: the
component built from `(k, args)` is stored under `k`, and `make_contains(k)` is true
afterwards.  When `k` is a key, it reports failure and returns `m` itself.  In both
cases every other key has the entry it had.  The components built by the three
constructors of the asset manager carry `k` in their `id` field. -/
theorem C15_contains_and_emplace {V : Type} (m : component_list V) (k : component_id)
    (args : component_id → V) :
    (make_contains k m = true ↔ k ∈ m.map Prod.fst) ∧
      (make_contains k m = false →
        (make_emplace_id k m args).2 = true ∧
          map_find (make_emplace_id k m args).1 k = some (args k) ∧
          make_contains k (make_emplace_id k m args).1 = true ∧
          (make_emplace_id k m args).1.length = m.length + 1) ∧
      (make_contains k m = true → make_emplace_id k m args = (m, false)) ∧
      (∀ k', k' ≠ k → map_find (make_emplace_id k m args).1 k' = map_find m k') ∧
      (∀ filename tags load_on_demand,
        (asset_component.new filename tags load_on_demand k).id = k) ∧
      (∀ texture, (texture_component.new texture k).id = k) ∧
      (∀ name clipping_rect texture_id,
        (sprite_component.new name clipping_rect texture_id k).id = k) := by
  refine ⟨map_find_isSome_iff_mem_keys m k, ?_, ?_, ?_, fun _ _ _ => rfl, fun _ => rfl,
    fun _ _ _ => rfl⟩
  · intro h
    have hn : map_find m k = none := by
      unfold make_contains at h
      cases hf : map_find m k with
      | none => rfl
      | some v => simp [hf] at h
    have hfind : map_find (make_emplace_id k m args).1 k = some (args k) := by
      rw [map_find_emplace, if_pos rfl, hn]; rfl
    refine ⟨by simp [make_emplace_id, h], hfind, by simp [make_contains, hfind], ?_⟩
    simp [make_emplace_id, h, map_insert_length]
  · intro h
    simp [make_emplace_id, h]
  · intro k' hk
    rw [map_find_emplace, if_neg hk]

theorem C15_contains_and_emplace_witness :
    (make_emplace_id 0 example_registered.mgr.sprite_pool
        (sprite_component.new "front" none 0)).2 = true ∧
      make_emplace_id 0 example_registered.mgr.asset_pool
        (asset_component.new "fg.png" ["fg"] true) = (example_registered.mgr.asset_pool, false) :=
  ⟨((C15_contains_and_emplace example_registered.mgr.sprite_pool 0
      (sprite_component.new "front" none 0)).2.1 (by decide)).1,
    (C15_contains_and_emplace example_registered.mgr.asset_pool 0
      (asset_component.new "fg.png" ["fg"] true)).2.2.1 (by decide)⟩

/-- C16: let `n` be a sprite name registered with clipping rectangle `c` (possibly
absent) in a reachable state, by a call that was not rejected, with a generator that
never repeats.  After any further public calls, `get_sprite(n)` either throws the
loader's error or returns a view whose rectangle equals `c`, and it does return one
when the loader succeeds; it leaves the sprite store and the sprite index unchanged;
and when two successive `get_sprite(n)` calls return views, both rectangles equal `c`. -/
theorem C16_get_sprite_returns_registered_rectangle (E : externals)
    (hE : Function.Injective E.generator) (w : world) (hw : reachable E w)
    (n f : String) (c : Option SDL_Rect) (t : List String) (l : Bool)
    (hnew : make_contains n w.mgr.sprites = false) (ops : List operation) (W : world)
    (hW : W = run_all E (operation.register_sprite n f c t l :: ops) w) :
    ((∃ tex, (get_sprite E n W).result = .ok ⟨tex, c⟩) ∨
        (get_sprite E n W).result = .error .runtime_error) ∧
      (loader_succeeds E → ∃ tex, (get_sprite E n W).result = .ok ⟨tex, c⟩) ∧
      (get_sprite E n W).state.mgr.sprite_pool = W.mgr.sprite_pool ∧
      (get_sprite E n W).state.mgr.sprites = W.mgr.sprites ∧
      (∀ v₁ v₂, (get_sprite E n W).result = .ok v₁ →
        (get_sprite E n (get_sprite E n W).state).result = .ok v₂ →
        v₁.clipping_rect = c ∧ v₂.clipping_rect = c) := by
  obtain ⟨s, a0, hk0⟩ := register_new_name_kept E hE w (reachable_fresh_ids E hE w hw)
    n f c t l hnew
  have hk : sprite_kept n s ⟨s, n, c, a0⟩ W.mgr := by
    rw [hW]
    exact sprite_kept_run_all E n s _ ops _ hk0
  have hreach : reachable E W := by
    rw [hW]
    exact reachable_run_all E _ w hw
  have cases_of : ∀ W' : world, reachable E W' → sprite_kept n s ⟨s, n, c, a0⟩ W'.mgr →
      (∃ tex, (get_sprite E n W').result = .ok ⟨tex, c⟩) ∨
        (get_sprite E n W').result = .error .runtime_error := by
    intro W' hr hk'
    obtain ⟨sp, a, tx, hsp, ha, ht⟩ := linked_lookups W'.mgr (reachable_linked E W' hr) n s hk'.1
    rw [hk'.2] at hsp
    cases hsp
    exact get_sprite_result_cases E W' n s _ a tx hk'.1 hk'.2 ht ha
  have rect_of : ∀ (W' : world) (v : sprite_asset), reachable E W' →
      sprite_kept n s ⟨s, n, c, a0⟩ W'.mgr → (get_sprite E n W').result = .ok v →
      v.clipping_rect = c := by
    intro W' v hr hk' hv
    rcases cases_of W' hr hk' with ⟨tex, h⟩ | h
    · rw [h] at hv
      cases hv
      rfl
    · rw [h] at hv
      cases hv
  have hframe := get_sprite_stable
    (P := fun m => m.sprite_pool = W.mgr.sprite_pool ∧ m.sprites = W.mgr.sprites)
    ⟨fun _ _ _ _ _ h => ⟨h.1, h.2⟩, fun _ _ h => ⟨h.1, h.2⟩⟩ E n W ⟨rfl, rfl⟩
  refine ⟨cases_of W hreach hk, ?_, hframe.1, hframe.2, ?_⟩
  · intro hload
    obtain ⟨sp, a, tx, hsp, ha, ht⟩ := linked_lookups W.mgr (reachable_linked E W hreach) n s hk.1
    rw [hk.2] at hsp
    cases hsp
    rw [get_sprite_eq E W n s _ a tx hk.1 hk.2 ht ha]
    obtain ⟨tex, htex⟩ := get_sprite_return_ok ⟨s, n, c, a0⟩ tx _
      (get_sprite_branch_ok E hload W n _ a tx ht ha)
    exact ⟨tex, by rw [htex]⟩
  · intro v₁ v₂ h₁ h₂
    refine ⟨rect_of W v₁ hreach hk h₁, ?_⟩
    exact rect_of _ v₂ (reachable.call (operation.get_sprite n) hreach)
      (get_sprite_stable (sprite_kept_stable n s _) E n W hk) h₂

theorem C16_get_sprite_returns_registered_rectangle_witness :
    ∃ tex, (get_sprite example_externals "hero"
      (run_all example_externals
        [operation.register_sprite "hero" "bg.png" (some ⟨1, 2, 3, 4⟩) [] false,
          operation.load_sprite "hero", operation.unload_all]
        example_registered)).result = .ok ⟨tex, some ⟨1, 2, 3, 4⟩⟩ :=
  (C16_get_sprite_returns_registered_rectangle example_externals (fun _ _ h => h)
    example_registered (reachable.call _ reachable.new) "hero" "bg.png" (some ⟨1, 2, 3, 4⟩)
    [] false (by decide) [operation.load_sprite "hero", operation.unload_all] _ rfl).2.1
    (fun _ _ => rfl)

/-- C17: in a reachable state, `load_asset_tags(T, false)` leaves both name indices, the
sprite store and the generator unchanged; every asset that was loaded keeps its record,
every texture record with a non-null handle is kept as it is, and an asset whose tags
share no tag with `T` keeps its asset record and its texture record. -/
theorem C17_load_asset_tags_is_additive (E : externals) (w : world) (hw : reachable E w)
    (T : List String) :
    ((load_asset_tags E T false w).state.mgr.assets = w.mgr.assets ∧
        (load_asset_tags E T false w).state.mgr.sprites = w.mgr.sprites ∧
        (load_asset_tags E T false w).state.mgr.sprite_pool = w.mgr.sprite_pool ∧
        (load_asset_tags E T false w).state.mgr.generator = w.mgr.generator) ∧
      (∀ id a, map_find w.mgr.asset_pool id = some a → a.is_loaded = true →
        map_find (load_asset_tags E T false w).state.mgr.asset_pool id = some a) ∧
      (∀ id t, map_find w.mgr.texture_pool id = some t → t.texture ≠ none →
        map_find (load_asset_tags E T false w).state.mgr.texture_pool id = some t) ∧
      (∀ id a, map_find w.mgr.asset_pool id = some a → has_matching_tags T a.tags = false →
        map_find (load_asset_tags E T false w).state.mgr.asset_pool id = some a ∧
          map_find (load_asset_tags E T false w).state.mgr.texture_pool id
            = map_find w.mgr.texture_pool id) := by
  obtain ⟨h1, h2, h3, h4, h⟩ := load_image_tags_loop_only_loads E T w.mgr.assets w
    (reachable_filename_indexed E w hw)
  refine ⟨⟨h1, h2, h3, h4⟩, ?_, ?_, ?_⟩
  · intro id a ha hl
    rcases h id with ⟨e, _⟩ | ⟨b, _, hb, hbl, _⟩
    · exact e.trans ha
    · rw [ha] at hb
      cases hb
      rw [hl] at hbl
      cases hbl
  · intro id t ht hne
    rcases h id with ⟨_, e⟩ | ⟨b, _, hb, hbl, _⟩
    · exact e.trans ht
    · obtain ⟨a, ha, hl⟩ := reachable_handle_implies_loaded E w hw id t ht hne
      rw [ha] at hb
      cases hb
      rw [hl] at hbl
      cases hbl
  · intro id a ha hno
    rcases h id with ⟨e₁, e₂⟩ | ⟨b, _, hb, _, hbm, _⟩
    · exact ⟨e₁.trans ha, e₂⟩
    · rw [ha] at hb
      cases hb
      rw [hno] at hbm
      cases hbm

theorem C17_load_asset_tags_is_additive_witness :
    map_find (load_asset_tags example_externals ["level1"] false
        example_loaded).state.mgr.asset_pool 0
        = some ⟨0, "bg.png", ["bg", "level1"], true, false⟩ ∧
      map_find (load_asset_tags example_externals ["level1"] false
        example_loaded).state.mgr.texture_pool 0 = some ⟨0, some 100⟩ :=
  have h := C17_load_asset_tags_is_additive example_externals example_loaded
    (reachable.call _ (reachable.call _ reachable.new)) ["level1"]
  ⟨h.2.1 0 ⟨0, "bg.png", ["bg", "level1"], true, false⟩ (by decide) rfl,
    h.2.2.1 0 ⟨0, some 100⟩ (by decide) (by decide)⟩

/-- C18: in a reachable state, for a registered sprite whose asset needs loading (the
reload test of `load_texture` holds), if the loader throws then `load_sprite` throws
the loader's error after exactly one loader call and leaves the manager as it was; so
does `get_sprite` when the asset is loaded on demand.  The asset had, and keeps,
`is_loaded = false` and a null handle. -/
theorem C18_loader_failure_leaves_manager_unchanged (E : externals) (w : world)
    (hw : reachable E w) (n : String) (s : component_id) (sp : sprite_component)
    (a : asset_component) (t : texture_component)
    (hs : map_find w.mgr.sprites n = some s) (hsp : map_find w.mgr.sprite_pool s = some sp)
    (ha : map_find w.mgr.asset_pool sp.texture_id = some a)
    (ht : map_find w.mgr.texture_pool sp.texture_id = some t)
    (hc : (!a.is_loaded || t.texture == none) = true)
    (hfail : E.load_texture w.loader_calls a.filename = none) :
    load_sprite E n w
        = ⟨{ w with loader_calls := w.loader_calls + 1 }, .error .runtime_error⟩ ∧
      (a.load_on_demand = true →
        get_sprite E n w
          = ⟨{ w with loader_calls := w.loader_calls + 1 }, .error .runtime_error⟩) ∧
      a.is_loaded = false ∧ t.texture = none := by
  have hfails := load_texture_fails E sp.texture_id w a t ha ht hc hfail
  refine ⟨?_, ?_, ?_, ?_⟩
  · rw [load_sprite_eq_load_texture E w n s sp hs hsp]
    exact hfails
  · intro hlod
    rw [get_sprite_eq E w n s sp a t hs hsp ht ha]
    have hb : get_sprite_branch E n sp t a w = load_texture E sp.texture_id w := by
      simp [get_sprite_branch, hlod]
    rw [hb, hfails]
    rfl
  · cases hl : a.is_loaded with
    | false => rfl
    | true =>
      obtain ⟨t', h, ht', hh⟩ := reachable_loaded_implies_handle E w hw _ a ha hl
      rw [ht] at ht'
      cases ht'
      simp [hl, hh] at hc
  · cases htex : t.texture with
    | none => rfl
    | some h =>
      obtain ⟨a', ha', hl⟩ := reachable_handle_implies_loaded E w hw _ t ht (by simp [htex])
      rw [ha] at ha'
      cases ha'
      simp [hl, htex] at hc

theorem C18_loader_failure_leaves_manager_unchanged_witness :
    load_sprite example_failing "lazy" example_deferred_failing
        = ⟨{ example_deferred_failing with loader_calls := 1 }, .error .runtime_error⟩ ∧
      get_sprite example_failing "lazy" example_deferred_failing
        = ⟨{ example_deferred_failing with loader_calls := 1 }, .error .runtime_error⟩ :=
  have h := C18_loader_failure_leaves_manager_unchanged example_failing
    example_deferred_failing (reachable.call _ reachable.new) "lazy" 1
    ⟨1, "lazy", none, 0⟩ ⟨0, "fx.png", ["fx"], false, true⟩ ⟨0, none⟩
    (by decide) (by decide) (by decide) (by decide) rfl rfl
  ⟨h.1, h.2.1 rfl⟩

/-- C19, evaluated at a failing input: in the state with one registered, unloaded asset
`"bg.png"` whose identifier is a key of the texture store, `load_asset("bg.png")`
with a succeeding loader prints the "cannot be determined" warning, calls no loader and
leaves the manager unchanged: the identifier is tested against the sprite store. -/
theorem C19_load_asset_skips_present_texture :
    reachable example_externals example_registered ∧
      map_find example_registered.mgr.assets "bg.png" = some 0 ∧
      map_find example_registered.mgr.asset_pool 0
        = some ⟨0, "bg.png", ["bg", "level1"], false, false⟩ ∧
      make_contains 0 example_registered.mgr.texture_pool = true ∧
      make_contains 0 example_registered.mgr.sprite_pool = false ∧
      (load_asset example_externals "bg.png" example_registered).state
        = { example_registered with cout := [warning.type_undetermined "bg.png"] } ∧
      map_find (load_asset example_externals "bg.png" example_registered).state.mgr.asset_pool 0
        = some ⟨0, "bg.png", ["bg", "level1"], false, false⟩ :=
  ⟨reachable.call _ reachable.new, by decide, by decide, by decide, by decide, by decide,
    by decide⟩

/-- C20: in every state reachable by the public calls (with any generator, so in
particular with one that returns fresh identifiers) the asset store and the texture
store have the same keys; these keys are exactly the values of the asset index; each
asset record's filename is indexed to the record's own identifier; every value of the
sprite index is a key of the sprite store; every sprite record's `texture_id` is a key
of the asset store and of the texture store.  Hence for a registered sprite name
neither `load_sprite` nor `get_sprite` throws `out_of_range`. -/
theorem C20_cokeying_and_referential_integrity (E : externals) (w : world)
    (hw : reachable E w) :
    (∀ id, make_contains id w.mgr.asset_pool = make_contains id w.mgr.texture_pool) ∧
      (∀ id, make_contains id w.mgr.asset_pool = true ↔
        ∃ f, map_find w.mgr.assets f = some id) ∧
      (∀ id a, map_find w.mgr.asset_pool id = some a →
        map_find w.mgr.assets a.filename = some id) ∧
      (∀ n s, map_find w.mgr.sprites n = some s →
        make_contains s w.mgr.sprite_pool = true) ∧
      (∀ s sp, map_find w.mgr.sprite_pool s = some sp →
        make_contains sp.texture_id w.mgr.asset_pool = true ∧
          make_contains sp.texture_id w.mgr.texture_pool = true) ∧
      (∀ n, make_contains n w.mgr.sprites = true →
        (load_sprite E n w).result ≠ .error .out_of_range ∧
          (get_sprite E n w).result ≠ .error .out_of_range) := by
  have hl := reachable_linked E w hw
  have hf := reachable_filename_indexed E w hw
  refine ⟨reachable_cokeyed E w hw, ?_, hf, hl.sprites_stored, hl.sprite_asset_stored, ?_⟩
  · intro id
    constructor
    · intro h
      unfold make_contains at h
      cases ha : map_find w.mgr.asset_pool id with
      | none => simp [ha] at h
      | some a => exact ⟨a.filename, hf id a ha⟩
    · rintro ⟨f, hfa⟩
      exact (hl.assets_stored f id hfa).1
  · intro n hn
    unfold make_contains at hn
    cases hs : map_find w.mgr.sprites n with
    | none => simp [hs] at hn
    | some s =>
      obtain ⟨sp, a, t, hsp, ha, ht⟩ := linked_lookups w.mgr hl n s hs
      constructor
      · rw [load_sprite_eq_load_texture E w n s sp hs hsp]
        rcases load_texture_result_cases E sp.texture_id w a t ha ht with h | h <;>
          rw [h] <;> simp
      · rcases get_sprite_result_cases E w n s sp a t hs hsp ht ha with ⟨tex, h⟩ | h <;>
          rw [h] <;> simp

theorem C20_cokeying_and_referential_integrity_witness :
    (load_sprite example_externals "background" example_registered).result
        ≠ .error .out_of_range ∧
      (get_sprite example_externals "background" example_registered).result
        ≠ .error .out_of_range :=
  (C20_cokeying_and_referential_integrity example_externals example_registered
    (reachable.call _ reachable.new)).2.2.2.2.2 "background" (by decide)

/-- C21: after any sequence of public calls (`register_sprite`, `load_sprite`,
`load_asset_tags`, `get_sprite`, `unload_all`, returning or throwing) from any state,
every entry of the asset index and of the sprite index is still there with its value,
every sprite record is still there unchanged, every asset record is still there with
its `id`, `filename`, `tags` and `load_on_demand`, and every texture record is still
there with its `id`: only `is_loaded` and the handle of an existing record can differ. -/
theorem C21_records_persist (E : externals) (ops : List operation) (w : world) :
    (∀ f a, map_find w.mgr.assets f = some a →
        map_find (run_all E ops w).mgr.assets f = some a) ∧
      (∀ n s, map_find w.mgr.sprites n = some s →
        map_find (run_all E ops w).mgr.sprites n = some s) ∧
      (∀ id a, map_find w.mgr.asset_pool id = some a →
        ∃ a', map_find (run_all E ops w).mgr.asset_pool id = some a' ∧ a'.id = a.id ∧
          a'.filename = a.filename ∧ a'.tags = a.tags ∧
          a'.load_on_demand = a.load_on_demand) ∧
      (∀ id t, map_find w.mgr.texture_pool id = some t →
        ∃ t', map_find (run_all E ops w).mgr.texture_pool id = some t' ∧ t'.id = t.id) ∧
      (∀ s sp, map_find w.mgr.sprite_pool s = some sp →
        map_find (run_all E ops w).mgr.sprite_pool s = some sp) :=
  have h := persists_run_all E ops w
  ⟨h.assets, h.sprites, h.asset_pool, h.texture_pool, h.sprite_pool⟩

theorem C21_records_persist_witness :
    map_find (run_all example_externals
        [operation.unload_all, operation.register_sprite "background" "x.png" none [] true,
          operation.load_asset_tags ["bg"] true, operation.get_sprite "nobody"]
        example_loaded).mgr.sprite_pool 1 = some ⟨1, "background", none, 0⟩ :=
  (C21_records_persist example_externals
    [operation.unload_all, operation.register_sprite "background" "x.png" none [] true,
      operation.load_asset_tags ["bg"] true, operation.get_sprite "nobody"]
    example_loaded).2.2.2.2 1 ⟨1, "background", none, 0⟩ (by decide)

/-- C22: `unload_texture` on an asset that is in the asset store with
`is_loaded = false` returns normally and leaves the world unchanged; in every state a
second `unload_texture` of the same identifier has the outcome of the first, and so has
a second `unload_asset` of the same filename; and `unload_all` after `unload_all` has
the outcome of a single `unload_all`. -/
theorem C22_unloading_is_idempotent (w : world) (id : component_id) (filename : String) :
    (∀ a, map_find w.mgr.asset_pool id = some a → a.is_loaded = false →
        unload_texture id w = ⟨w, .ok ()⟩) ∧
      unload_texture id (unload_texture id w).state = unload_texture id w ∧
      unload_asset filename (unload_asset filename w).state = unload_asset filename w ∧
      unload_all (unload_all w).state = unload_all w := by
  refine ⟨fun a ha hl => unload_texture_unloaded id w a ha hl, unload_texture_twice id w,
    ?_, ?_⟩
  · cases hf : map_find w.mgr.assets filename with
    | none =>
      have h : unload_asset filename w = ⟨w, .error .out_of_range⟩ := by
        unfold unload_asset; simp only [hf]
      rw [h]
      exact h
    | some a =>
      have h : ∀ w' : world, map_find w'.mgr.assets filename = some a →
          unload_asset filename w' = unload_texture a w' := by
        intro w' hf'
        unfold unload_asset
        simp only [hf']
      have hkeep : map_find (unload_texture a w).state.mgr.assets filename = some a := by
        rcases unload_texture_mgr a w with e | e <;> rw [e] <;> exact hf
      rw [h w hf, h _ hkeep]
      exact unload_texture_twice a w
  · simp [unload_all, List.map_map, Function.comp_def]

theorem C22_unloading_is_idempotent_witness :
    unload_texture 0 example_registered = ⟨example_registered, .ok ()⟩ :=
  (C22_unloading_is_idempotent example_registered 0 "bg.png").1
    ⟨0, "bg.png", ["bg", "level1"], false, false⟩ (by decide) rfl

/-- C24, counterexample: with one visible entity `7` whose sprite `"background"` is
registered and not loaded, `get_sprite` returns a view with a null handle, and `update`
still issues the draw call for entity `7`, with the null texture; with an
`SDL_RenderCopy` that rejects a null texture the error lines are printed.  Moreover a
disabled render system queries nothing although entity `7` is visible and has a sprite;
and when the query for entity `7` throws, entity `9`, visible and with a sprite, is
never queried. -/
theorem C24_draw_call_issued_for_null_handle :
    ((get_sprite example_externals "background" example_registered).result
          = .ok ⟨none, none⟩ ∧
        (update example_casts example_externals example_render_copy example_render_system
          example_game example_registered).events
          = [render_event.render_clear, render_event.get_sprite 7 "background",
              render_event.render_copy 7 none none none, render_event.error_rendering,
              render_event.render_present]) ∧
      (visible_sprites example_game example_game.render_pool = [(7, "background")] ∧
        (update example_casts example_externals example_render_copy
          { example_render_system with is_enabled := false } example_game
          example_registered).events = []) ∧
      (visible_sprites example_game_two example_game_two.render_pool
          = [(7, "nobody"), (9, "background")] ∧
        (update example_casts example_externals example_render_copy example_render_system
          example_game_two example_registered).events
          = [render_event.render_clear, render_event.get_sprite 7 "nobody"] ∧
        (update example_casts example_externals example_render_copy example_render_system
          example_game_two example_registered).result = .error .out_of_range) :=
  ⟨⟨rfl, by decide⟩, ⟨by decide, by decide⟩, ⟨by decide, by decide, rfl⟩⟩

/-- C24, amended: a disabled render system queries and draws nothing and returns.
For an enabled one, `update` is the program `draw_entities` run on the entities that
have a render component with `is_visible = true` and a sprite component, in the order
of the render store, between `SDL_RenderClear` and (when it returns) `SDL_RenderPresent`:
each such entity is queried once with `get_sprite`; a view that is returned is drawn
once, with its handle, null or not, and the error lines are printed exactly when that
`SDL_RenderCopy` call reports an error; a query that throws ends `update` with its
exception.  So: the queries made are an initial part of the list of such entities;
when `update` returns, every such entity has been queried exactly once and drawn
exactly once; when `update` throws, its last event is the query that threw and every
entity queried before it was drawn; an error line stands exactly after each draw call
that reported an error; and `update` does return when the asset manager is in a
reachable state, the loader succeeds and the sprite name of every such entity is
registered. -/
theorem C24_update_queries_and_draws {F : Type} (C : float_casts F) (E : externals)
    (R : Nat → Texture_ptr → Option SDL_Rect → Option SDL_Rect → Bool)
    (S : render_system) (pools : game_component_manager F) (assets : world) :
    (S.is_enabled = false →
        (update C E R S pools assets).events = [] ∧
          (update C E R S pools assets).assets = assets ∧
          (update C E R S pools assets).result = .ok ()) ∧
      (S.is_enabled = true →
        ((update C E R S pools assets).assets
            = (draw_entities C E R pools (visible_sprites pools pools.render_pool)
                assets 0).assets ∧
          (update C E R S pools assets).result
            = (draw_entities C E R pools (visible_sprites pools pools.render_pool)
                assets 0).result ∧
          ((update C E R S pools assets).result = .ok () →
            (update C E R S pools assets).events
              = (if !S.window || !S.renderer
                  then [render_event.warning_invalid S.window S.renderer] else [])
                ++ [render_event.render_clear]
                ++ (draw_entities C E R pools (visible_sprites pools pools.render_pool)
                    assets 0).events
                ++ [render_event.render_present]) ∧
          (∀ e, (update C E R S pools assets).result = .error e →
            (update C E R S pools assets).events
              = (if !S.window || !S.renderer
                  then [render_event.warning_invalid S.window S.renderer] else [])
                ++ [render_event.render_clear]
                ++ (draw_entities C E R pools (visible_sprites pools pools.render_pool)
                    assets 0).events)) ∧
          (∃ rest, queried (update C E R S pools assets).events ++ rest
            = visible_sprites pools pools.render_pool) ∧
          ((update C E R S pools assets).result = .ok () →
            queried (update C E R S pools assets).events
                = visible_sprites pools pools.render_pool ∧
              drawn (update C E R S pools assets).events
                = (visible_sprites pools pools.render_pool).map Prod.fst) ∧
          (∀ e, (update C E R S pools assets).result = .error e →
            ∃ pre id n, (update C E R S pools assets).events
                = pre ++ [render_event.get_sprite id n] ∧
              drawn pre = (queried pre).map Prod.fst) ∧
          error_lines_exact R 0 false (update C E R S pools assets).events = true ∧
          ((∀ n t c d, R n t c d = false) →
            render_event.error_rendering ∉ (update C E R S pools assets).events) ∧
          (reachable E assets → loader_succeeds E →
            (∀ p ∈ visible_sprites pools pools.render_pool,
              make_contains p.2 assets.mgr.sprites = true) →
            (update C E R S pools assets).result = .ok ())) := by
  constructor
  · intro hS
    simp [update, hS]
  · intro hS
    obtain ⟨⟨tl, htl⟩, hok, herr⟩ := update_loop_spec C E R pools pools.render_pool assets 0
    have hele := draw_entities_error_lines C E R pools
      (visible_sprites pools pools.render_pool) assets 0
    have hthrow := draw_entities_throws C E R pools
      (visible_sprites pools pools.render_pool) assets 0
    have hret := draw_entities_returns C E
    have hL := update_loop_eq_draw_entities C E R pools pools.render_pool assets 0
    rw [hL] at htl hok herr
    have hwq : queried (if (!S.window || !S.renderer) = true
        then [render_event.warning_invalid S.window S.renderer] else []) = [] := by
      split <;> rfl
    have hwd : drawn (if (!S.window || !S.renderer) = true
        then [render_event.warning_invalid S.window S.renderer] else []) = [] := by
      split <;> rfl
    have hwe : render_event.error_rendering ∉ (if (!S.window || !S.renderer) = true
        then [render_event.warning_invalid S.window S.renderer] else []) := by
      split <;> simp
    have hwl : ∀ l : List render_event,
        error_lines_exact R 0 false ((if (!S.window || !S.renderer) = true
          then [render_event.warning_invalid S.window S.renderer] else [])
          ++ [render_event.render_clear] ++ l) = error_lines_exact R 0 false l := by
      intro l
      split <;> simp [error_lines_exact]
    cases hb : (draw_entities C E R pools (visible_sprites pools pools.render_pool)
        assets 0).result with
    | error e =>
      have hu : update C E R S pools assets
          = ⟨(draw_entities C E R pools (visible_sprites pools pools.render_pool)
                assets 0).assets,
              (if (!S.window || !S.renderer) = true
                then [render_event.warning_invalid S.window S.renderer] else [])
                ++ [render_event.render_clear]
                ++ (draw_entities C E R pools (visible_sprites pools pools.render_pool)
                    assets 0).events,
              .error e⟩ := by
        simp [update, hS, hL, hb]
      rw [hu]
      dsimp only
      refine ⟨⟨rfl, rfl, ?_, ?_⟩, ⟨tl, ?_⟩, ?_, ?_, ?_, ?_, ?_⟩
      · intro h
        cases h
      · intro _ _
        rfl
      · rw [queried_append, queried_append, hwq]
        exact htl
      · intro h
        cases h
      · intro e' _
        obtain ⟨pre, id, n, hev, hdq⟩ := hthrow e hb
        refine ⟨(if (!S.window || !S.renderer) = true
            then [render_event.warning_invalid S.window S.renderer] else [])
            ++ [render_event.render_clear] ++ pre, id, n, ?_, ?_⟩
        · rw [hev]
          simp
        · rw [drawn_append, drawn_append, queried_append, queried_append, hwq, hwd, hdq]
          simp [drawn, queried]
      · rw [hwl]
        exact hele
      · intro hR h
        rcases List.mem_append.mp h with h | h
        · rcases List.mem_append.mp h with h | h
          · exact hwe h
          · simp at h
        · exact herr hR h
      · intro hreach hload hreg
        have := hret hload R pools (visible_sprites pools pools.render_pool) assets 0
          hreach hreg
        rw [hb] at this
        cases this
    | ok u =>
      have hu : update C E R S pools assets
          = ⟨(draw_entities C E R pools (visible_sprites pools pools.render_pool)
                assets 0).assets,
              (if (!S.window || !S.renderer) = true
                then [render_event.warning_invalid S.window S.renderer] else [])
                ++ [render_event.render_clear]
                ++ (draw_entities C E R pools (visible_sprites pools pools.render_pool)
                    assets 0).events
                ++ [render_event.render_present],
              .ok ()⟩ := by
        simp [update, hS, hL, hb]
      rw [hu]
      dsimp only
      obtain ⟨e1, e2⟩ := hok hb
      refine ⟨⟨rfl, rfl, ?_, ?_⟩, ⟨[], ?_⟩, ?_, ?_, ?_, ?_, ?_⟩
      · intro _
        rfl
      · intro e h
        cases h
      · rw [queried_append, queried_append, queried_append, hwq, e1]
        simp [queried]
      · intro _
        constructor
        · rw [queried_append, queried_append, queried_append, hwq, e1]
          simp [queried]
        · rw [drawn_append, drawn_append, drawn_append, hwd, e2]
          simp [drawn]
      · intro e h
        cases h
      · rw [error_lines_exact_append_present, hwl]
        exact hele
      · intro hR h
        rcases List.mem_append.mp h with h | h
        · rcases List.mem_append.mp h with h | h
          · rcases List.mem_append.mp h with h | h
            · exact hwe h
            · simp at h
          · exact herr hR h
        · simp at h
      · intro _ _ _
        rfl

theorem C24_update_queries_and_draws_witness :
    (update example_casts example_externals example_render_copy example_render_system
        example_game example_registered).result = .ok () ∧
      (queried (update example_casts example_externals example_render_copy
          example_render_system example_game example_registered).events
          = visible_sprites example_game example_game.render_pool ∧
        drawn (update example_casts example_externals example_render_copy
          example_render_system example_game example_registered).events
          = (visible_sprites example_game example_game.render_pool).map Prod.fst) :=
  have h := (C24_update_queries_and_draws example_casts example_externals
    example_render_copy example_render_system example_game example_registered).2 rfl
  have hret := h.2.2.2.2.2.2 (reachable.call _ reachable.new) (fun _ _ => rfl)
    (by decide)
  ⟨hret, h.2.2.1 hret⟩

/-- C25: with a generator that never repeats, in every reachable state no key of the
asset store is a key of the sprite store.  So `load_asset`, which tests the asset
identifier against the sprite store, never calls the loader and never changes the
manager: on a registered, unloaded asset it only prints the "cannot be determined"
warning.  Hence `load_asset_tags`, for any tag list and either value of
`unload_remaining`, makes no loader call and leaves every unloaded asset unloaded. -/
theorem C25_load_asset_tags_never_loads (E : externals)
    (hE : Function.Injective E.generator) (w : world) (hw : reachable E w) :
    (∀ id, make_contains id w.mgr.asset_pool = true →
        make_contains id w.mgr.sprite_pool = false) ∧
      (∀ filename, (load_asset E filename w).state.mgr = w.mgr ∧
        (load_asset E filename w).state.loader_calls = w.loader_calls) ∧
      (∀ filename id a, map_find w.mgr.assets filename = some id →
        map_find w.mgr.asset_pool id = some a → a.is_loaded = false →
        load_asset E filename w
          = ⟨{ w with cout := w.cout ++ [warning.type_undetermined a.filename] }, .ok ()⟩) ∧
      (∀ T u, (load_asset_tags E T u w).state.loader_calls = w.loader_calls ∧
        ∀ id a a', map_find w.mgr.asset_pool id = some a → a.is_loaded = false →
          map_find (load_asset_tags E T u w).state.mgr.asset_pool id = some a' →
          a'.is_loaded = false) := by
  have hd := reachable_pools_disjoint E hE w hw
  refine ⟨hd, ?_, ?_, ?_⟩
  · intro filename
    have h := load_asset_of_disjoint E filename w hd
    exact ⟨h.1, h.2.1⟩
  · intro filename
    exact (load_asset_of_disjoint E filename w hd).2.2.2
  · intro T u
    have h := load_image_tags_loop_never_loads E T u w.mgr.assets w hd
    refine ⟨h.1, ?_⟩
    intro id a a' ha hl ha'
    rcases h.2 id with e | ⟨b, hb, hbl⟩
    · have : map_find w.mgr.asset_pool id = some a' := e ▸ ha'
      rw [ha] at this
      cases this
      exact hl
    · have : some b = some a' := hb ▸ ha'
      cases this
      exact hbl

theorem C25_load_asset_tags_never_loads_witness :
    (load_asset_tags example_externals ["level1"] false example_registered).state.loader_calls
        = example_registered.loader_calls ∧
      load_asset example_externals "bg.png" example_registered
        = ⟨{ example_registered with
            cout := example_registered.cout ++ [warning.type_undetermined "bg.png"] },
          .ok ()⟩ :=
  have h := C25_load_asset_tags_never_loads example_externals (fun _ _ h => h)
    example_registered (reachable.call _ reachable.new)
  ⟨(h.2.2.2 ["level1"] false).1,
    h.2.2.1 "bg.png" 0 ⟨0, "bg.png", ["bg", "level1"], false, false⟩ (by decide) (by decide)
      rfl⟩

/-- C26: in every reachable state (the loader either throws or returns a live handle)
an asset record and the texture record under the same identifier agree: `is_loaded` is
true exactly when the handle is non-null.  So the reload test of `load_texture` has the
value of the test of the handle alone, and no asset is flagged loaded with an empty
handle.  Every asset record has such a texture record. -/
theorem C26_flag_and_handle_agree (E : externals) (w : world) (hw : reachable E w)
    (id : component_id) (a : asset_component)
    (ha : map_find w.mgr.asset_pool id = some a) :
    ∃ t, map_find w.mgr.texture_pool id = some t ∧
      (a.is_loaded = true ↔ t.texture ≠ none) ∧
      (!a.is_loaded || t.texture == none) = (t.texture == none) ∧
      ¬ (a.is_loaded = true ∧ t.texture = none) := by
  have hk := reachable_cokeyed E w hw id
  simp only [make_contains, ha, Option.isSome_some] at hk
  cases ht : map_find w.mgr.texture_pool id with
  | none => simp [ht] at hk
  | some t =>
    have hiff : a.is_loaded = true ↔ t.texture ≠ none := by
      constructor
      · intro hl
        obtain ⟨t', h, ht', hh⟩ := reachable_loaded_implies_handle E w hw id a ha hl
        rw [ht] at ht'
        cases ht'
        simp [hh]
      · intro hne
        obtain ⟨a', ha', hl⟩ := reachable_handle_implies_loaded E w hw id t ht hne
        rw [ha] at ha'
        cases ha'
        exact hl
    refine ⟨t, rfl, hiff, ?_, ?_⟩
    · cases hl : a.is_loaded with
      | true => simp
      | false =>
        have : t.texture = none := by
          by_contra hne
          have := hiff.mpr hne
          rw [hl] at this
          cases this
        simp [this]
    · rintro ⟨hl, hnull⟩
      exact hiff.mp hl hnull

theorem C26_flag_and_handle_agree_witness :
    ∃ t, map_find example_loaded.mgr.texture_pool 0 = some t ∧
      ((true : Bool) = true ↔ t.texture ≠ none) ∧
      (!true || t.texture == none) = (t.texture == none) ∧
      ¬ ((true : Bool) = true ∧ t.texture = none) :=
  C26_flag_and_handle_agree example_externals example_loaded
    (reachable.call _ (reachable.call _ reachable.new)) 0
    ⟨0, "bg.png", ["bg", "level1"], true, false⟩ (by decide)

/-- C27: in every reachable state `load_asset_tags({}, true)` has exactly the outcome
of `unload_all`: both return normally and leave the same manager (the same stores,
indices and generator), the same count of loader calls and the same output. -/
theorem C27_no_tags_unload_remaining_is_unload_all (E : externals) (w : world)
    (hw : reachable E w) :
    load_asset_tags E [] true w = unload_all w := by
  have hf := reachable_filename_indexed E w hw
  have hl := reachable_linked E w hw
  have hu := reachable_keys_unique E w hw
  have hstored : ∀ e ∈ w.mgr.assets, (map_find w.mgr.asset_pool e.2).isSome = true := by
    intro e he
    exact (hl.assets_stored e.1 e.2 (map_find_of_mem _ _ _ hu.assets he)).1
  obtain ⟨hres, hcalls, hcout, hrel, hdone⟩ :=
    load_image_tags_loop_unloads E w.mgr.assets w hf (reachable_cokeyed E w hw) hstored
  have hreach : reachable E (load_asset_tags E [] true w).state :=
    reachable.call (operation.load_asset_tags [] true) hw
  have hflags : ∀ id a', map_find (load_asset_tags E [] true w).state.mgr.asset_pool id
      = some a' → a'.is_loaded = false := by
    intro id a' ha'
    have hsome : (map_find w.mgr.asset_pool id).isSome = true := by
      rw [← only_unloads_isSome _ _ hrel id]
      show (map_find (load_asset_tags E [] true w).state.mgr.asset_pool id).isSome = true
      rw [ha']
      rfl
    cases ha : map_find w.mgr.asset_pool id with
    | none => simp [ha] at hsome
    | some a => exact hdone (a.filename, id) (mem_of_map_find _ _ _ (hf id a ha)) a' ha'
  have hhandles : ∀ id t', map_find (load_asset_tags E [] true w).state.mgr.texture_pool id
      = some t' → t'.texture = none := by
    intro id t' ht'
    by_contra hne
    obtain ⟨a', ha', hl'⟩ := reachable_handle_implies_loaded E _ hreach id t' ht' hne
    rw [hflags id a' ha'] at hl'
    cases hl'
  refine outcome_eq (load_asset_tags E [] true w) (unload_all w) ?_ hcalls hcout hres
  refine asset_manager_eq (load_asset_tags E [] true w).state.mgr (unload_all w).state.mgr
    ?_ ?_ hrel.sprite_pool hrel.generator hrel.assets hrel.sprites
  · apply map_eq_of_find_eq
    · rw [show (load_asset_tags E [] true w).state.mgr.asset_pool.map Prod.fst
          = w.mgr.asset_pool.map Prod.fst from hrel.asset_keys]
      simp [unload_all, List.map_map, Function.comp_def]
    · rw [show (load_asset_tags E [] true w).state.mgr.asset_pool.map Prod.fst
          = w.mgr.asset_pool.map Prod.fst from hrel.asset_keys]
      exact hu.asset_pool
    · intro id
      rw [unload_all_asset_find]
      rcases hrel.records id with ⟨e, _⟩ | ⟨e, _⟩
      · cases ha : map_find w.mgr.asset_pool id with
        | none => exact e.trans ha
        | some a =>
          have hfl : a.is_loaded = false := hflags id a (e.trans ha)
          have : map_find (load_asset_tags E [] true w).state.mgr.asset_pool id = some a :=
            e.trans ha
          rw [this]
          cases a
          simp only at hfl
          subst hfl
          rfl
      · exact e
  · apply map_eq_of_find_eq
    · rw [show (load_asset_tags E [] true w).state.mgr.texture_pool.map Prod.fst
          = w.mgr.texture_pool.map Prod.fst from hrel.texture_keys]
      simp [unload_all, List.map_map, Function.comp_def]
    · rw [show (load_asset_tags E [] true w).state.mgr.texture_pool.map Prod.fst
          = w.mgr.texture_pool.map Prod.fst from hrel.texture_keys]
      exact hu.texture_pool
    · intro id
      rw [unload_all_texture_find]
      rcases hrel.records id with ⟨_, e⟩ | ⟨_, e⟩
      · cases ht : map_find w.mgr.texture_pool id with
        | none => exact e.trans ht
        | some t =>
          have hnull : t.texture = none := hhandles id t (e.trans ht)
          have : map_find (load_asset_tags E [] true w).state.mgr.texture_pool id = some t :=
            e.trans ht
          rw [this]
          cases t
          simp only at hnull
          subst hnull
          rfl
      · exact e

theorem C27_no_tags_unload_remaining_is_unload_all_witness :
    load_asset_tags example_externals [] true example_loaded = unload_all example_loaded :=
  C27_no_tags_unload_remaining_is_unload_all example_externals example_loaded
    (reachable.call _ (reachable.call _ reachable.new))

end SDLComponents
